import Mathlib

/-!
# Cortex: GPU primitive renderer and host-mesh converter

A shallow embedding of two translation units of the cortex repository:

* `contrib/IECoreGL/src/Primitive.cpp` (namespace `IECoreGL`): the multi-pass
  `Primitive::render` driver and the vertex-attribute members it touches;
* `src/IECoreMaya/FromMayaMeshConverter.cpp` (namespace `IECoreMaya`): the
  conversion of a host polygon mesh to a `MeshPrimitive`.

Conventions of the embedding.

* C++ `float` values are only copied, compared with constants or scaled by small
  integer constants in this code; they are represented by exact rationals.
* Calls into OpenGL are recorded, in order, as a list of `GLCall` values.
* A virtual member that the concrete primitive or the host defines is given by its
  result: the value it returns or the exception it throws.
* A C++ exception is an `Exception` carrying its message; an array access outside
  the array, for which C++ defines no behaviour, is the separate outcome
  `Failure.outOfBounds`.
* A `std::map` is an association list written through `mapSet` and read through
  `mapFind`.
-/

set_option autoImplicit false

/-! ## Shared data model (IECore / Imath) -/

/-- Imath three-component vector. -/
structure V3f where
  x : ℚ
  y : ℚ
  z : ℚ
  deriving DecidableEq, Repr

/-- Imath two-component vector. -/
structure V2f where
  x : ℚ
  y : ℚ
  deriving DecidableEq, Repr

/-- Imath three-component colour. -/
structure Color3f where
  r : ℚ
  g : ℚ
  b : ℚ
  deriving DecidableEq, Repr

/-- Imath four-component colour. -/
structure Color4f where
  r : ℚ
  g : ℚ
  b : ℚ
  a : ℚ
  deriving DecidableEq, Repr

/-- Imath axis-aligned box. -/
structure Box3f where
  min : V3f
  max : V3f
  deriving DecidableEq, Repr

/-- The `IECore::Data` objects this code creates or inspects: the vector typed data
classes it names, and one representative of data that is not vector typed. -/
inductive Data where
  | IntVectorData (readable : List Int)
  | FloatVectorData (readable : List ℚ)
  | V2fVectorData (readable : List V2f)
  | V3fVectorData (readable : List V3f)
  | Color3fVectorData (readable : List Color3f)
  | Color4fVectorData (readable : List Color4f)
  | StringData (readable : String)
  deriving DecidableEq, Repr

/-- Modelled from the spec: `IECore::despatchVectorTypedDataFn` with
`VectorTypedDataSize`, which is not among the sources. It finds the element count of
vector typed data; `none` stands for the exception it throws for data that is not
vector typed (the failed size probe of the specification). -/
def vectorTypedDataSize : Data → Option Nat
  | Data.IntVectorData v => some v.length
  | Data.FloatVectorData v => some v.length
  | Data.V2fVectorData v => some v.length
  | Data.V3fVectorData v => some v.length
  | Data.Color3fVectorData v => some v.length
  | Data.Color4fVectorData v => some v.length
  | Data.StringData _ => none

/-- The `what()` of an `IECore::Exception`. -/
structure Exception where
  what : String
  deriving DecidableEq, Repr

/-- Equality of two outcomes of a fallible call is decidable. -/
instance instDecidableEqExcept {ε α : Type} [DecidableEq ε] [DecidableEq α] :
    DecidableEq (Except ε α)
  | Except.ok a, Except.ok b =>
    if h : a = b then isTrue (by rw [h]) else isFalse (fun h2 => h (Except.ok.inj h2))
  | Except.error a, Except.error b =>
    if h : a = b then isTrue (by rw [h]) else isFalse (fun h2 => h (Except.error.inj h2))
  | Except.ok _, Except.error _ => isFalse (fun h => Except.noConfusion h)
  | Except.error _, Except.ok _ => isFalse (fun h => Except.noConfusion h)

/-- Assignment `m[k] = v` on a `std::map`: an existing entry for `k` is overwritten
in place, otherwise the entry is added. -/
def mapSet {κ β : Type} [DecidableEq κ] (m : List (κ × β)) (k : κ) (v : β) : List (κ × β) :=
  match m with
  | [] => [(k, v)]
  | (k0, v0) :: rest => if k0 = k then (k, v) :: rest else (k0, v0) :: mapSet rest k v

/-- Lookup `m.find( k )` on a `std::map`. -/
def mapFind {κ β : Type} [DecidableEq κ] (m : List (κ × β)) (k : κ) : Option β :=
  match m with
  | [] => none
  | (k0, v0) :: rest => if k0 = k then some v0 else mapFind rest k

namespace IECoreGL

/-! ## `IECoreGL::Primitive` -/

/-- Type ids of the state components that select a render pass. -/
inductive TypeId where
  | PrimitiveSolid
  | PrimitiveOutline
  | PrimitiveWireframe
  | PrimitivePoints
  | PrimitiveBound
  deriving DecidableEq, Repr, Fintype

/-- The OpenGL enumerants named in `Primitive::render`. -/
inductive GLenum where
  | GL_FRONT_AND_BACK
  | GL_FILL
  | GL_LINE
  | GL_POINT
  | GL_LIGHTING
  | GL_POLYGON_OFFSET_FILL
  | GL_POLYGON_OFFSET_LINE
  | GL_POLYGON_OFFSET_POINT
  | GL_TEXTURE_2D
  | GL_LINE_LOOP
  | GL_LINES
  | GL_CURRENT_PROGRAM
  deriving DecidableEq, Repr

/-- The attribute group bits named in `Primitive::render`. -/
inductive GLbit where
  | GL_TEXTURE_BIT
  | GL_CURRENT_BIT
  | GL_DEPTH_BUFFER_BIT
  | GL_POLYGON_BIT
  | GL_LINE_BIT
  | GL_LIGHTING_BIT
  | GL_CLIENT_VERTEX_ARRAY_BIT
  deriving DecidableEq, Repr

/-- One recorded call made by `Primitive::render`: an OpenGL entry point with its
arguments, or the call of one of the two virtual members of the concrete primitive,
`render( state, typeId )` and `bound()`, which this file does not define. A virtual
call is recorded when it is made, whether it then returns or throws. What the
virtual member, or a `Shader` method, does in turn is not part of the record. -/
inductive GLCall where
  | glPushAttrib (mask : List GLbit)
  | glPushClientAttrib (mask : List GLbit)
  | glPopClientAttrib
  | glPopAttrib
  | glDepthMask (flag : Bool)
  | glPolygonMode (face : GLenum) (mode : GLenum)
  | glEnable (cap : GLenum)
  | glDisable (cap : GLenum)
  | glActiveTexture (texture : Nat)
  | glGetIntegerv (pname : GLenum)
  | glUseProgram (program : Int)
  | glPolygonOffset (factor : ℚ) (units : ℚ)
  | glLineWidth (width : ℚ)
  | glPointSize (size : ℚ)
  | glColor4f (r : ℚ) (g : ℚ) (b : ℚ) (a : ℚ)
  | glBegin (mode : GLenum)
  | glVertex3f (x : ℚ) (y : ℚ) (z : ℚ)
  | glEnd
  | render (typeId : TypeId)
  | bound
  deriving DecidableEq, Repr

/-- Modelled from the spec: `IECoreGL::Shader`, whose source is not among the sources.
A shader object is given by where it lives (pointers to shaders are compared), its GL
program, and the index of each of its named parameters (`parameterIndex` throws for
a name that is not listed). Its `operator==` is applied by this code only to a
shader and itself, where it is taken to hold. -/
structure Shader where
  address : Nat
  m_program : Nat
  parameters : List (String × Int)
  deriving DecidableEq, Repr

/-- Lookup `Shader::parameterIndex( name )`; `none` stands for the exception it throws. -/
def Shader.parameterIndex (s : Shader) (name : String) : Option Int :=
  mapFind s.parameters name

/-- What `Primitive::render` reads from a `State`: the result of `isComplete()` and
the value of each component it gets. `State.h` is not part of the translation unit,
so the results of these calls are the fields of the record. -/
structure State where
  isComplete : Bool
  shader : Option Shader
  PrimitiveSolid : Bool
  PrimitiveOutline : Bool
  PrimitiveWireframe : Bool
  PrimitivePoints : Bool
  PrimitiveBound : Bool
  PrimitiveOutlineWidth : ℚ
  PrimitiveWireframeWidth : ℚ
  PrimitivePointWidth : ℚ
  OutlineColorStateComponent : Color4f
  WireframeColorStateComponent : Color4f
  PointColorStateComponent : Color4f
  BoundColorStateComponent : Color4f
  PrimitiveTransparencySortStateComponent : Bool
  TransparentShadingStateComponent : Bool
  deriving DecidableEq, Repr

/-- What `Primitive::render` reads from the GL context and from `TextureUnits.h`:
whether `GLEW_VERSION_2_1` holds, the value `glGetIntegerv( GL_CURRENT_PROGRAM )`
stores, and `textureUnits()[0]`. -/
structure GLContext where
  GLEW_VERSION_2_1 : Bool
  currentProgram : Int
  textureUnit0 : Nat
  deriving DecidableEq, Repr

/-- The member `m_vertexToUniform`: the raw pointer `Shader *shader` to the shader the
cache was built for, which is the address of that shader (`none` is the null
pointer), and the map from parameter index to the integer data it points to. -/
structure VertexToUniform where
  shader : Option Nat
  intDataMap : List (Int × List Int)
  deriving DecidableEq, Repr

/-- A primitive: the results of its virtual members and its two data members. The
virtual `render( state, typeId )` and `bound()` are defined by the concrete primitive
and may throw; `renderTyped typeId` is how `render( state, typeId )` ends for the
state at hand, and `bound` is the box `bound()` returns or the exception it throws. -/
structure Primitive where
  typeName : String
  vertexAttributeSize : Nat
  renderTyped : TypeId → Except Exception Unit
  bound : Except Exception Box3f
  m_vertexAttributes : List (String × Data)
  m_vertexToUniform : VertexToUniform
  deriving DecidableEq

/-- One element of the loop of `Primitive::setupVertexAttributesAsUniform`: integer
vector data whose name is a parameter of the shader is entered in the map; other
types, and names for which `parameterIndex` throws, leave the map as it is. -/
def setupVertexAttributeStep (s : Shader) (m : List (Int × List Int))
    (it : String × Data) : List (Int × List Int) :=
  match s.parameterIndex it.1 with
  | none => m
  | some parameterIndex =>
    match it.2 with
    | Data.IntVectorData readable => mapSet m parameterIndex readable
    | _ => m

/-- `Primitive::setupVertexAttributesAsUniform( Shader *s )`. The test
`s==m_vertexToUniform.shader && (*s)==(*m_vertexToUniform.shader)` compares the two
pointers and then, the pointers being equal, the shader with itself: the cache is
kept exactly when the cached pointer is the address of `s`, whatever the shader at
that address holds by now. -/
def Primitive.setupVertexAttributesAsUniform (p : Primitive) (s : Option Shader) : Primitive :=
  match s with
  | none => { p with m_vertexToUniform := { p.m_vertexToUniform with shader := none } }
  | some s =>
    if p.m_vertexToUniform.shader = some s.address then p
    else
      { p with m_vertexToUniform :=
          { shader := some s.address
            intDataMap := p.m_vertexAttributes.foldl (setupVertexAttributeStep s) [] } }

/-- `Primitive::depthSortRequested( state )`. -/
def depthSortRequested (state : State) : Bool :=
  state.PrimitiveTransparencySortStateComponent && state.TransparentShadingStateComponent

/-- What a call of `Primitive::render` leaves behind: whether it returned or threw,
the primitive with its (mutable) members as they are afterwards, and the calls it
made, in order. -/
structure RenderOutcome where
  result : Except Exception Unit
  primitive : Primitive
  calls : List GLCall
  deriving DecidableEq

/-- The exception with which a guarded block of `Primitive::render` ends, if any: the
block runs only when `enabled`, and then ends the way its one virtual call does. -/
def thrownBy {α : Type} (enabled : Bool) (result : Except Exception α) : Option Exception :=
  if enabled then
    match result with
    | Except.error e => some e
    | Except.ok _ => none
  else none

/-- The two calls that save the attribute stacks, at the start of `Primitive::render`. -/
def pushCalls : List GLCall :=
  [ GLCall.glPushAttrib [GLbit.GL_TEXTURE_BIT, GLbit.GL_CURRENT_BIT,
      GLbit.GL_DEPTH_BUFFER_BIT, GLbit.GL_POLYGON_BIT, GLbit.GL_LINE_BIT,
      GLbit.GL_LIGHTING_BIT],
    GLCall.glPushClientAttrib [GLbit.GL_CLIENT_VERTEX_ARRAY_BIT] ]

/-- The block of `Primitive::render` guarded by `depthSortRequested( state )`. -/
def depthMaskCalls (state : State) : List GLCall :=
  if depthSortRequested state then [GLCall.glDepthMask false] else []

/-- The block of `Primitive::render` guarded by the `PrimitiveSolid` value: its calls
up to and including the call of the type-specific `render`. -/
def solidCalls (state : State) : List GLCall :=
  if state.PrimitiveSolid then
    [ GLCall.glPolygonMode GLenum.GL_FRONT_AND_BACK GLenum.GL_FILL,
      GLCall.glEnable GLenum.GL_LIGHTING,
      GLCall.glDisable GLenum.GL_POLYGON_OFFSET_FILL,
      GLCall.render TypeId.PrimitiveSolid ]
  else []

/-- The value of the local `program` of `Primitive::render`: 0 unless
`GLEW_VERSION_2_1` holds, and then what `glGetIntegerv( GL_CURRENT_PROGRAM )` stores. -/
def program (gl : GLContext) : Int :=
  if gl.GLEW_VERSION_2_1 then gl.currentProgram else 0

/-- The calls of `Primitive::render` between the solid block and the outline block:
lighting and texturing are switched off and the current program is unbound. -/
def unlitCalls (gl : GLContext) : List GLCall :=
  [ GLCall.glDisable GLenum.GL_LIGHTING,
    GLCall.glActiveTexture gl.textureUnit0,
    GLCall.glDisable GLenum.GL_TEXTURE_2D ]
  ++ (if gl.GLEW_VERSION_2_1 then [GLCall.glGetIntegerv GLenum.GL_CURRENT_PROGRAM] else [])
  ++ (if program gl ≠ 0 then [GLCall.glUseProgram 0] else [])

/-- The block of `Primitive::render` guarded by the `PrimitiveOutline` value: its
calls up to and including the call of the type-specific `render`. -/
def outlineCalls (state : State) : List GLCall :=
  if state.PrimitiveOutline then
    let width : ℚ := 2 * state.PrimitiveOutlineWidth
    let c := state.OutlineColorStateComponent
    [ GLCall.glPolygonMode GLenum.GL_FRONT_AND_BACK GLenum.GL_LINE,
      GLCall.glEnable GLenum.GL_POLYGON_OFFSET_LINE,
      GLCall.glPolygonOffset (2 * width) 1,
      GLCall.glLineWidth width,
      GLCall.glColor4f c.r c.g c.b c.a,
      GLCall.render TypeId.PrimitiveOutline ]
  else []

/-- The block of `Primitive::render` guarded by the `PrimitiveWireframe` value: its
calls up to and including the call of the type-specific `render`. -/
def wireframeCalls (state : State) : List GLCall :=
  if state.PrimitiveWireframe then
    let width : ℚ := state.PrimitiveWireframeWidth
    let c := state.WireframeColorStateComponent
    [ GLCall.glPolygonMode GLenum.GL_FRONT_AND_BACK GLenum.GL_LINE,
      GLCall.glEnable GLenum.GL_POLYGON_OFFSET_LINE,
      GLCall.glPolygonOffset (-1 * width) (-1),
      GLCall.glColor4f c.r c.g c.b c.a,
      GLCall.glLineWidth width,
      GLCall.render TypeId.PrimitiveWireframe ]
  else []

/-- The block of `Primitive::render` guarded by the `PrimitivePoints` value: its
calls up to and including the call of the type-specific `render`. -/
def pointsCalls (state : State) : List GLCall :=
  if state.PrimitivePoints then
    let width : ℚ := state.PrimitivePointWidth
    let c := state.PointColorStateComponent
    [ GLCall.glPolygonMode GLenum.GL_FRONT_AND_BACK GLenum.GL_POINT,
      GLCall.glEnable GLenum.GL_POLYGON_OFFSET_POINT,
      GLCall.glPolygonOffset (-2 * width) (-1),
      GLCall.glPointSize width,
      GLCall.glColor4f c.r c.g c.b c.a,
      GLCall.render TypeId.PrimitivePoints ]
  else []

/-- The block of `Primitive::render` guarded by the `PrimitiveBound` value: the call
of `bound()` and, if that returns, the drawing of the box. -/
def boundCalls (p : Primitive) (state : State) : List GLCall :=
  if state.PrimitiveBound then
    GLCall.bound ::
      (match p.bound with
       | Except.error _ => []
       | Except.ok b =>
         let c := state.BoundColorStateComponent
         [ GLCall.glColor4f c.r c.g c.b c.a,
           GLCall.glLineWidth 1,
           GLCall.glBegin GLenum.GL_LINE_LOOP,
           GLCall.glVertex3f b.min.x b.min.y b.min.z,
           GLCall.glVertex3f b.max.x b.min.y b.min.z,
           GLCall.glVertex3f b.max.x b.max.y b.min.z,
           GLCall.glVertex3f b.min.x b.max.y b.min.z,
           GLCall.glEnd,
           GLCall.glBegin GLenum.GL_LINE_LOOP,
           GLCall.glVertex3f b.min.x b.min.y b.max.z,
           GLCall.glVertex3f b.max.x b.min.y b.max.z,
           GLCall.glVertex3f b.max.x b.max.y b.max.z,
           GLCall.glVertex3f b.min.x b.max.y b.max.z,
           GLCall.glEnd,
           GLCall.glBegin GLenum.GL_LINES,
           GLCall.glVertex3f b.min.x b.min.y b.min.z,
           GLCall.glVertex3f b.min.x b.min.y b.max.z,
           GLCall.glVertex3f b.max.x b.min.y b.min.z,
           GLCall.glVertex3f b.max.x b.min.y b.max.z,
           GLCall.glVertex3f b.max.x b.max.y b.min.z,
           GLCall.glVertex3f b.max.x b.max.y b.max.z,
           GLCall.glVertex3f b.min.x b.max.y b.min.z,
           GLCall.glVertex3f b.min.x b.max.y b.max.z,
           GLCall.glEnd ])
  else []

/-- The calls at the end of `Primitive::render`: the program is bound again and the
attribute stacks are restored. -/
def restoreCalls (gl : GLContext) : List GLCall :=
  (if program gl ≠ 0 then [GLCall.glUseProgram (program gl)] else [])
  ++ [GLCall.glPopClientAttrib, GLCall.glPopAttrib]

/-- `Primitive::render( ConstStatePtr state )`. The body has no handler and no scope
guard, so an exception thrown by a virtual call leaves `render` at that call: the
calls made are those up to it, and nothing after it, the two pops included, runs. -/
def Primitive.render (p : Primitive) (gl : GLContext) (state : State) : RenderOutcome :=
  if !state.isComplete then
    { result := Except.error ⟨"Primitive::render called with incomplete state object."⟩
      primitive := p
      calls := [] }
  else
    let primitive := p.setupVertexAttributesAsUniform state.shader
    let solid := pushCalls ++ depthMaskCalls state ++ solidCalls state
    match thrownBy state.PrimitiveSolid (p.renderTyped TypeId.PrimitiveSolid) with
    | some e => { result := Except.error e, primitive := primitive, calls := solid }
    | none =>
      let outline := solid ++ unlitCalls gl ++ outlineCalls state
      match thrownBy state.PrimitiveOutline (p.renderTyped TypeId.PrimitiveOutline) with
      | some e => { result := Except.error e, primitive := primitive, calls := outline }
      | none =>
        let wireframe := outline ++ wireframeCalls state
        match thrownBy state.PrimitiveWireframe (p.renderTyped TypeId.PrimitiveWireframe) with
        | some e => { result := Except.error e, primitive := primitive, calls := wireframe }
        | none =>
          let points := wireframe ++ pointsCalls state
          match thrownBy state.PrimitivePoints (p.renderTyped TypeId.PrimitivePoints) with
          | some e => { result := Except.error e, primitive := primitive, calls := points }
          | none =>
            let bound := points ++ boundCalls p state
            match thrownBy state.PrimitiveBound p.bound with
            | some e => { result := Except.error e, primitive := primitive, calls := bound }
            | none =>
              { result := Except.ok ()
                primitive := primitive
                calls := bound ++ restoreCalls gl }

/-- `Primitive::vertexAttributeSize()` of the base class, which derived classes
override; its result for a given primitive is the field `vertexAttributeSize`. -/
def Primitive.vertexAttributeSizeBase : Nat := 0

/-- What a call of `Primitive::addVertexAttribute` leaves behind: whether it returned
or threw, and the primitive as it is afterwards. -/
structure AddVertexAttributeOutcome where
  result : Except Exception Unit
  primitive : Primitive
  deriving DecidableEq

/-- `Primitive::addVertexAttribute( name, data )`. The copy made by `data->copy()`
is the data itself. -/
def Primitive.addVertexAttribute (p : Primitive) (name : String) (data : Data) :
    AddVertexAttributeOutcome :=
  if p.vertexAttributeSize = 0 then
    { result := Except.error ⟨p.typeName ++ " does not support vertex attributes."⟩
      primitive := p }
  else
    match vectorTypedDataSize data with
    | none =>
      { result := Except.error ⟨"Data provided is not suitable for use as a vertex attribute."⟩
        primitive := p }
    | some s =>
      let rightSize := p.vertexAttributeSize
      if s ≠ rightSize then
        { result := Except.error
            ⟨"Vertex attribute \x22" ++ name ++ "\x22 has wrong number of elements ("
              ++ toString s ++ " but expected " ++ toString rightSize ++ ")."⟩
          primitive := p }
      else
        { result := Except.ok ()
          primitive := { p with m_vertexAttributes := mapSet p.m_vertexAttributes name data } }

/-! ### Vocabulary for statements about a recorded call sequence -/

/-- The five passes of `Primitive::render`. -/
inductive Pass where
  | solid
  | outline
  | wireframe
  | points
  | bound
  deriving DecidableEq, Repr

/-- The state toggle that enables a pass. -/
def Pass.enabled (state : State) : Pass → Bool
  | Pass.solid => state.PrimitiveSolid
  | Pass.outline => state.PrimitiveOutline
  | Pass.wireframe => state.PrimitiveWireframe
  | Pass.points => state.PrimitivePoints
  | Pass.bound => state.PrimitiveBound

/-- The call by which a pass is recognised in a call sequence, which is its one
virtual call: the delegation to the type-specific `render( state, typeId )` for the
first four, and the call of `bound()` for the bound pass, which draws the box
itself. -/
def GLCall.pass? : GLCall → Option Pass
  | GLCall.render TypeId.PrimitiveSolid => some Pass.solid
  | GLCall.render TypeId.PrimitiveOutline => some Pass.outline
  | GLCall.render TypeId.PrimitiveWireframe => some Pass.wireframe
  | GLCall.render TypeId.PrimitivePoints => some Pass.points
  | GLCall.bound => some Pass.bound
  | _ => none

/-- Whether the virtual call of a pass throws, for the primitive and state at hand. -/
def Pass.throws (p : Primitive) : Pass → Bool
  | Pass.solid => !(p.renderTyped TypeId.PrimitiveSolid).isOk
  | Pass.outline => !(p.renderTyped TypeId.PrimitiveOutline).isOk
  | Pass.wireframe => !(p.renderTyped TypeId.PrimitiveWireframe).isOk
  | Pass.points => !(p.renderTyped TypeId.PrimitivePoints).isOk
  | Pass.bound => !p.bound.isOk

/-- The elements of a list up to and including the first for which `stop` holds; the
whole list if there is none. -/
def takeThrough {α : Type} (stop : α → Bool) : List α → List α
  | [] => []
  | a :: rest => if stop a then [a] else a :: takeThrough stop rest

/-- The type id of the state component that toggles a pass. -/
def Pass.typeId : Pass → TypeId
  | Pass.solid => TypeId.PrimitiveSolid
  | Pass.outline => TypeId.PrimitiveOutline
  | Pass.wireframe => TypeId.PrimitiveWireframe
  | Pass.points => TypeId.PrimitivePoints
  | Pass.bound => TypeId.PrimitiveBound

/-- The type id handed to the type-specific hook, for a call that is a delegation. -/
def GLCall.hook? : GLCall → Option TypeId
  | GLCall.render typeId => some typeId
  | _ => none

/-- Whether a call saves or restores a GL attribute stack. -/
def GLCall.isAttribStackCall : GLCall → Bool
  | GLCall.glPushAttrib _ => true
  | GLCall.glPushClientAttrib _ => true
  | GLCall.glPopClientAttrib => true
  | GLCall.glPopAttrib => true
  | _ => false

/-- The polygon-offset factor in force when the type-specific `render` is called
for `typeId`: the factor of the last `glPolygonOffset` before that call, `current`
being the factor in force at the start of the sequence, if known. The result is
`none` when there is no such call, or no factor is known at it. -/
def polygonOffsetFactorAt (typeId : TypeId) : List GLCall → Option ℚ → Option ℚ
  | [], _ => none
  | GLCall.glPolygonOffset factor _ :: rest, _ =>
    polygonOffsetFactorAt typeId rest (some factor)
  | GLCall.render t :: rest, current =>
    if t = typeId then current else polygonOffsetFactorAt typeId rest current
  | _ :: rest, current => polygonOffsetFactorAt typeId rest current

/-- Whether a call sets the polygon offset or delegates to the type-specific
`render`: the calls `polygonOffsetFactorAt` looks at. -/
def GLCall.isOffsetOrHook : GLCall → Bool
  | GLCall.glPolygonOffset _ _ => true
  | GLCall.render _ => true
  | _ => false

/-- Whether a call is a `glDepthMask`. -/
def GLCall.isDepthMask : GLCall → Bool
  | GLCall.glDepthMask _ => true
  | _ => false

end IECoreGL

namespace IECoreMaya

/-! ## `IECoreMaya::FromMayaMeshConverter` -/

/-- How a call can end other than by returning a value: a C++ exception, or an
access outside an array, for which C++ defines no behaviour. -/
inductive Failure where
  | exception (e : Exception)
  | outOfBounds
  deriving DecidableEq, Repr

/-- The interpolation of an `IECore::PrimitiveVariable`. -/
inductive Interpolation where
  | Invalid
  | Constant
  | Uniform
  | Vertex
  | Varying
  | FaceVarying
  deriving DecidableEq, Repr

/-- An `IECore::PrimitiveVariable`: interpolation, data and optional indices. -/
structure PrimitiveVariable where
  interpolation : Interpolation
  data : Data
  indices : Option (List Int)
  deriving DecidableEq, Repr

/-- Modelled from the spec: `IECore::MeshPrimitive`, whose source is not among the
sources. A mesh-primitive value holds the three arguments of its constructor, as
given, and the map `variables` of the primitive (named `primitiveVariables` here). -/
structure MeshPrimitive where
  verticesPerFace : List Int
  vertexIds : List Int
  interpolation : String
  primitiveVariables : List (String × PrimitiveVariable)
  deriving DecidableEq, Repr

/-- The two cases of `space()` the converter distinguishes. -/
inductive MSpace where
  | kObject
  | kWorld
  deriving DecidableEq, Repr

/-- Maya colour; component `i` of the C++ `operator[]` is `r`, `g`, `b`, `a` for
`i = 0, 1, 2, 3`. -/
structure MColor where
  r : ℚ
  g : ℚ
  b : ℚ
  a : ℚ
  deriving DecidableEq, Repr

/-- Maya homogeneous point. -/
structure MFloatPoint where
  x : ℚ
  y : ℚ
  z : ℚ
  w : ℚ
  deriving DecidableEq, Repr

/-- `MFnMesh::MColorRepresentation`. -/
inductive MColorRepresentation where
  | kAlpha
  | kRGB
  | kRGBA
  deriving DecidableEq, Repr

/-- A plug found on the mesh node; `asInt` is `none` when the call reports failure. -/
structure MPlug where
  asInt : Option Int
  deriving DecidableEq, Repr

/-- The host mesh as seen through the `MFnMesh` queries the converter makes. Each
field is the result of the query of the same name; a query that reports failure
through an `MStatus` the converter inspects has an `Option` result. Counts are
returned by the host as non-negative `int`s. -/
structure MFnMesh where
  numVertices : Nat
  numPolygons : Nat
  numFaceVertices : Nat
  getVertices : List Int × List Int
  getRawPoints : List V3f
  getPoints : MSpace → List MFloatPoint
  getRawNormals : List ℚ
  getFaceNormalIds : Nat → List Int
  getFaceVertexNormals : Nat → MSpace → List V3f
  getCurrentUVSetName : String
  getUVSetNames : List String
  getAssignedUVs : String → List Int × List Int
  getUVs : String → List ℚ × List ℚ
  getColorRepresentation : String → MColorRepresentation
  getFaceVertexColors : String → Option (List MColor)
  getCurrentColorSetName : String
  getColorSetNames : List String
  findPlug : String → Option MPlug

/-- The parameters of the converter: the three added by `constructCommon` and the
`space()` of the shape converter it derives from. -/
structure Parameters where
  interpolation : String
  colors : Bool
  extraColors : Bool
  space : MSpace
  deriving DecidableEq, Repr

/-- The presets given to the "interpolation" parameter in `constructCommon`. -/
def interpolationPresets : List (String × String) :=
  [("poly", "linear"), ("subdiv", "catmullClark"), ("default", "default")]

/-- Read `a[i]` for an array index that C++ does not check. -/
def readAt {α : Type} (a : List α) (i : Nat) : Except Failure α :=
  match a[i]? with
  | some x => Except.ok x
  | none => Except.error Failure.outOfBounds

/-- Write `a[i] = x` through an iterator or index that C++ does not check. -/
def writeAt {α : Type} (a : List α) (i : Nat) (x : α) : Except Failure (List α) :=
  if i < a.length then Except.ok (a.set i x) else Except.error Failure.outOfBounds

/-- The call `std::copy( first, last, dst.begin() )`: the elements of `src` overwrite
the leading elements of `dst`, which must have room for them. -/
def copy {α : Type} (src : List α) (dst : List α) : Except Failure (List α) :=
  if src.length ≤ dst.length then Except.ok (src ++ dst.drop src.length)
  else Except.error Failure.outOfBounds

/-- `VecConvert<MFloatPoint, V3f>`. -/
def vecConvert (p : MFloatPoint) : V3f := ⟨p.x, p.y, p.z⟩

/-- `FromMayaMeshConverter::points()`. The vector is resized to `numVertices()`
elements and filled from the raw point array in object space, or from the converted
`getPoints` array otherwise. -/
def points (fnMesh : MFnMesh) (space : MSpace) : Except Failure PrimitiveVariable := do
  let numVerts := fnMesh.numVertices
  let points : List V3f := List.replicate numVerts ⟨0, 0, 0⟩
  if space = MSpace.kObject then
    let rawPoints := fnMesh.getRawPoints
    if numVerts ≤ rawPoints.length then
      let filled ← copy (rawPoints.take numVerts) points
      pure ⟨Interpolation.Vertex, Data.V3fVectorData filled, none⟩
    else
      Except.error Failure.outOfBounds
  else
    let mPoints := fnMesh.getPoints space
    let filled ← copy (mPoints.map vecConvert) points
    pure ⟨Interpolation.Vertex, Data.V3fVectorData filled, none⟩

/-- Inner loop of `normals()` in object space: for each normal id of the face, the
three floats at `rawNormals + 3 * id` are pushed as one vector. -/
def rawFaceNormals (rawNormals : List ℚ) : List Int → List V3f → Except Failure (List V3f)
  | [], normals => Except.ok normals
  | id :: ids, normals =>
    if 0 ≤ id then do
      let x ← readAt rawNormals (3 * id.toNat)
      let y ← readAt rawNormals (3 * id.toNat + 1)
      let z ← readAt rawNormals (3 * id.toNat + 2)
      rawFaceNormals rawNormals ids (normals ++ [⟨x, y, z⟩])
    else
      Except.error Failure.outOfBounds

/-- The first `n` iterations of the loop over polygons of `normals()` in object
space, started from the empty vector. -/
def objectNormalsLoop (fnMesh : MFnMesh) : Nat → Except Failure (List V3f)
  | 0 => Except.ok []
  | i + 1 => do
    let normals ← objectNormalsLoop fnMesh i
    rawFaceNormals fnMesh.getRawNormals (fnMesh.getFaceNormalIds i) normals

/-- The first `n` iterations of the loop over polygons of `normals()` in another
space: every vector of `getFaceVertexNormals` is pushed. -/
def spaceNormalsLoop (fnMesh : MFnMesh) (space : MSpace) : Nat → List V3f
  | 0 => []
  | i + 1 => spaceNormalsLoop fnMesh space i ++ fnMesh.getFaceVertexNormals i space

/-- `FromMayaMeshConverter::normals()`. -/
def normals (fnMesh : MFnMesh) (space : MSpace) : Except Failure PrimitiveVariable := do
  let numPolygons := fnMesh.numPolygons
  if space = MSpace.kObject then
    let normals ← objectNormalsLoop fnMesh numPolygons
    pure ⟨Interpolation.FaceVarying, Data.V3fVectorData normals, none⟩
  else
    pure ⟨Interpolation.FaceVarying,
      Data.V3fVectorData (spaceNormalsLoop fnMesh space numPolygons), none⟩

/-- Inner loop of `uvs()` for a face with UVs: `count` times,
`indices.push_back( uvIds[ uvIdIndex++ ] )`. -/
def uvsFaceLoop (uvIds : List Int) :
    Nat → Nat → List Int → Except Failure (List Int × Nat)
  | 0, uvIdIndex, indices => Except.ok (indices, uvIdIndex)
  | count + 1, uvIdIndex, indices => do
    let id ← readAt uvIds uvIdIndex
    uvsFaceLoop uvIds count (uvIdIndex + 1) (indices ++ [id])

/-- Outer loop of `uvs()` over the faces that remain, `i` being the index of the
first of them; the result is the index vector and the final `uvIdIndex`. A negative
`numPolyVerts` makes the inner loop run zero times. -/
def uvsLoop (uvCounts uvIds : List Int) :
    List Int → Nat → Nat → List Int → Except Failure (List Int × Nat)
  | [], _, uvIdIndex, indices => Except.ok (indices, uvIdIndex)
  | numPolyVerts :: rest, i, uvIdIndex, indices => do
    let numPolyUvs ← readAt uvCounts i
    if numPolyUvs = 0 then
      uvsLoop uvCounts uvIds rest (i + 1) uvIdIndex
        (indices ++ List.replicate numPolyVerts.toNat 0)
    else do
      let next ← uvsFaceLoop uvIds numPolyVerts.toNat uvIdIndex indices
      uvsLoop uvCounts uvIds rest (i + 1) next.2 next.1

/-- The UV data of `uvs()`: `numIndices` zero vectors when the set has no UVs,
otherwise one vector per element of `uArray`, read with `vArray` at the same index. -/
def uvData (uArray vArray : List ℚ) (numIndices : Nat) : Except Failure (List V2f) :=
  if uArray.length = 0 then Except.ok (List.replicate numIndices ⟨0, 0⟩)
  else if uArray.length ≤ vArray.length then
    Except.ok (List.zipWith (fun u v => (⟨u, v⟩ : V2f)) uArray vArray)
  else Except.error Failure.outOfBounds

/-- `FromMayaMeshConverter::uvs( uvSet, vertsPerFace )`. -/
def uvs (fnMesh : MFnMesh) (uvSet : String) (vertsPerFace : List Int) :
    Except Failure PrimitiveVariable := do
  let assigned := fnMesh.getAssignedUVs uvSet
  let uvCounts := assigned.1
  let uvIds := assigned.2
  let looped ← uvsLoop uvCounts uvIds vertsPerFace 0 0 []
  let indices := looped.1
  let arrays := fnMesh.getUVs uvSet
  let uvs ← uvData arrays.1 arrays.2 indices.length
  pure ⟨Interpolation.FaceVarying, Data.V2fVectorData uvs, some indices⟩

/-- The loop of `colors()` that overwrites the leading entries of the resized
vector: its first `n` iterations, iteration `i` being `*it = conv( colors[i] )` with
`it` at position `i`. -/
def colorsLoop {β : Type} (conv : MColor → β) (colors : List MColor) :
    Nat → List β → Except Failure (List β)
  | 0, colorVec => Except.ok colorVec
  | i + 1, colorVec => do
    let filled ← colorsLoop conv colors i colorVec
    let c ← readAt colors i
    writeAt filled i (conv c)

/-- The exception thrown by `colors()` when `getFaceVertexColors` fails. -/
def colorsFailure (colorSet : String) : Exception :=
  ⟨"Failed to obtain colors from color set \x27" ++ colorSet ++ "\x27"⟩

/-- `FromMayaMeshConverter::colors( colorSet, forceRgb )`. -/
def colors (fnMesh : MFnMesh) (colorSet : String) (forceRgb : Bool) :
    Except Failure PrimitiveVariable :=
  let rep := fnMesh.getColorRepresentation colorSet
  let numColors := fnMesh.numFaceVertices
  match fnMesh.getFaceVertexColors colorSet with
  | none => Except.error (Failure.exception (colorsFailure colorSet))
  | some colors =>
    let availableColors := if colors.length > numColors then numColors else colors.length
    if rep = MColorRepresentation.kAlpha then
      if forceRgb then do
        let colorVec ← colorsLoop (fun c => (⟨c.a, c.a, c.a⟩ : Color3f)) colors
          availableColors (List.replicate numColors ⟨1, 1, 1⟩)
        pure ⟨Interpolation.FaceVarying, Data.Color3fVectorData colorVec, none⟩
      else do
        let colorVec ← colorsLoop (fun c => c.a) colors
          availableColors (List.replicate numColors 1)
        pure ⟨Interpolation.FaceVarying, Data.FloatVectorData colorVec, none⟩
    else
      if rep = MColorRepresentation.kRGB ∨ forceRgb = true then do
        let colorVec ← colorsLoop (fun c => (⟨c.r, c.g, c.b⟩ : Color3f)) colors
          availableColors (List.replicate numColors ⟨0, 0, 0⟩)
        pure ⟨Interpolation.FaceVarying, Data.Color3fVectorData colorVec, none⟩
      else do
        let colorVec ← colorsLoop (fun c => (⟨c.r, c.g, c.b, c.a⟩ : Color4f)) colors
          availableColors (List.replicate numColors ⟨0, 0, 0, 1⟩)
        pure ⟨Interpolation.FaceVarying, Data.Color4fVectorData colorVec, none⟩

/-- The interpolation `doPrimitiveConversion` gives the mesh: the parameter value,
or for "default" the preset selected by the "ieMeshInterpolation" plug. The plug
value is stored in an `unsigned int` and compared with `getPresets().size() - 1`. -/
def resolveInterpolation (fnMesh : MFnMesh) (interpolation : String) : String :=
  if interpolation = "default" then
    match fnMesh.findPlug "ieMeshInterpolation" with
    | some interpolationPlug =>
      match interpolationPlug.asInt with
      | some value =>
        let interpolationIndex : Nat := (value % 2 ^ 32).toNat
        if h : interpolationIndex < interpolationPresets.length - 1 then
          (interpolationPresets.get
            ⟨interpolationIndex, Nat.lt_of_lt_of_le h (Nat.sub_le _ _)⟩).2
        else
          "linear"
      | none => "linear"
    | none => "linear"
  else
    interpolation

/-- Assignment `result->variables[name] = v`. -/
def MeshPrimitive.setVariable (result : MeshPrimitive) (name : String)
    (v : PrimitiveVariable) : MeshPrimitive :=
  { result with primitiveVariables := mapSet result.primitiveVariables name v }

/-- The loop of `doPrimitiveConversion` over `getUVSetNames`: every set but the
current one is converted and stored under its own name. -/
def uvSetsLoop (fnMesh : MFnMesh) (currentUVSet : String) (vertsPerFace : List Int) :
    List String → MeshPrimitive → Except Failure MeshPrimitive
  | [], result => Except.ok result
  | uvSet :: rest, result =>
    if uvSet = currentUVSet then
      uvSetsLoop fnMesh currentUVSet vertsPerFace rest result
    else do
      let v ← uvs fnMesh uvSet vertsPerFace
      uvSetsLoop fnMesh currentUVSet vertsPerFace rest (result.setVariable uvSet v)

/-- The loop of `doPrimitiveConversion` over `getColorSetNames`. -/
def colorSetsLoop (fnMesh : MFnMesh) (convertColors convertExtraColors : Bool)
    (currentColorSet : String) :
    List String → MeshPrimitive → Except Failure MeshPrimitive
  | [], result => Except.ok result
  | colorSet :: rest, result => do
    let result1 ←
      (if convertColors = true ∧ colorSet = currentColorSet then
        (do
          let v ← colors fnMesh currentColorSet true
          pure (result.setVariable "Cs" v))
      else pure result)
    let result2 ←
      (if convertExtraColors = true then
        (do
          let v ← colors fnMesh colorSet false
          pure (result1.setVariable (colorSet ++ "_Cs") v))
      else pure result1)
    colorSetsLoop fnMesh convertColors convertExtraColors currentColorSet rest result2

/-- The topology step of `doPrimitiveConversion`: the two vectors are resized to
`numPolygons()` and `numFaceVertices()` and overwritten from `getVertices`. The
result of the first of the two `numFaceVertices()` calls is discarded by the code and
does not appear here. -/
def topology (fnMesh : MFnMesh) : Except Failure (List Int × List Int) := do
  let numPolygons := fnMesh.numPolygons
  let verticesPerFaceData : List Int := List.replicate numPolygons 0
  let vertexIds : List Int := List.replicate fnMesh.numFaceVertices 0
  let vertexCounts := fnMesh.getVertices.1
  let polygonVertices := fnMesh.getVertices.2
  let verticesPerFaceData ← copy vertexCounts verticesPerFaceData
  let vertexIds ← copy polygonVertices vertexIds
  pure (verticesPerFaceData, vertexIds)

/-- `FromMayaMeshConverter::doPrimitiveConversion( MFnMesh &fnMesh )`. -/
def doPrimitiveConversion (fnMesh : MFnMesh) (parameters : Parameters) :
    Except Failure MeshPrimitive := do
  let topo ← topology fnMesh
  let verticesPerFaceData := topo.1
  let vertexIds := topo.2
  let interpolation := resolveInterpolation fnMesh parameters.interpolation
  let result : MeshPrimitive :=
    { verticesPerFace := verticesPerFaceData
      vertexIds := vertexIds
      interpolation := interpolation
      primitiveVariables := [] }
  let p ← points fnMesh parameters.space
  let result := result.setVariable "P" p
  let result ←
    (if interpolation = "linear" then
      (do
        let n ← normals fnMesh parameters.space
        pure (result.setVariable "N" n))
    else pure result)
  let currentUVSet := fnMesh.getCurrentUVSetName
  let result ←
    (if currentUVSet.length ≠ 0 then
      (do
        let v ← uvs fnMesh currentUVSet verticesPerFaceData
        pure (result.setVariable "uv" v))
    else pure result)
  let result ← uvSetsLoop fnMesh currentUVSet verticesPerFaceData fnMesh.getUVSetNames result
  let convertColors := parameters.colors
  let convertExtraColors := parameters.extraColors
  (if convertColors = true ∨ convertExtraColors = true then
    colorSetsLoop fnMesh convertColors convertExtraColors fnMesh.getCurrentColorSetName
      fnMesh.getColorSetNames result
  else
    pure result)

end IECoreMaya

namespace IECoreGL

/-! ### Concrete inputs -/

/-- A primitive with one integer vertex attribute and an empty uniform cache, whose
virtual members all return. -/
def examplePrimitive : Primitive :=
  { typeName := "MeshPrimitive"
    vertexAttributeSize := 3
    renderTyped := fun _ => Except.ok ()
    bound := Except.ok { min := ⟨0, 0, 0⟩, max := ⟨1, 1, 1⟩ }
    m_vertexAttributes := [("id", Data.IntVectorData [4, 5, 6])]
    m_vertexToUniform := { shader := none, intDataMap := [] } }

/-- A shader with a parameter named like the attribute of `examplePrimitive`. -/
def exampleShader : Shader :=
  { address := 4096, m_program := 7, parameters := [("id", 2)] }

/-- A state with every toggle on except the point pass. -/
def exampleState : State :=
  { isComplete := true
    shader := some exampleShader
    PrimitiveSolid := true
    PrimitiveOutline := true
    PrimitiveWireframe := true
    PrimitivePoints := false
    PrimitiveBound := true
    PrimitiveOutlineWidth := 1
    PrimitiveWireframeWidth := 1
    PrimitivePointWidth := 1
    OutlineColorStateComponent := ⟨0, 0, 0, 1⟩
    WireframeColorStateComponent := ⟨0, 0, 0, 1⟩
    PointColorStateComponent := ⟨0, 0, 0, 1⟩
    BoundColorStateComponent := ⟨0, 0, 0, 1⟩
    PrimitiveTransparencySortStateComponent := true
    TransparentShadingStateComponent := true }

/-- A GL context with a program bound. -/
def exampleContext : GLContext :=
  { GLEW_VERSION_2_1 := true, currentProgram := 7, textureUnit0 := 0 }

/-- A state with wireframe width 3 and point width 1, both passes enabled. -/
def wideWireframeState : State :=
  { exampleState with
    PrimitivePoints := true
    PrimitiveWireframeWidth := 3
    PrimitivePointWidth := 1 }

/-- A primitive like `examplePrimitive` whose type-specific `render` throws when it
is asked for the outline pass. -/
def throwingPrimitive : Primitive :=
  { examplePrimitive with
    renderTyped := fun typeId =>
      if typeId = TypeId.PrimitiveOutline then Except.error ⟨"no outline"⟩
      else Except.ok () }

/-- A primitive that keeps the base `vertexAttributeSize()`. -/
def basePrimitive : Primitive :=
  { examplePrimitive with
    vertexAttributeSize := Primitive.vertexAttributeSizeBase
    m_vertexAttributes := [] }

end IECoreGL

namespace IECoreMaya

/-! ### Vocabulary for statements about a conversion -/

/-- The number of per-corner entries of a primitive variable: the length of its index
list when it has one, otherwise the element count of its data. -/
def PrimitiveVariable.faceVaryingLength (v : PrimitiveVariable) : Option Nat :=
  match v.indices with
  | some indices => some indices.length
  | none => vectorTypedDataSize v.data

/-- The variable stored under `name` in the result. -/
def MeshPrimitive.variable (result : MeshPrimitive) (name : String) :
    Option PrimitiveVariable :=
  mapFind result.primitiveVariables name

/-- Every face-varying variable of the result has `size v` per-corner entries, `v`
being the variable. -/
def MeshPrimitive.FaceVaryingSized (result : MeshPrimitive)
    (size : PrimitiveVariable → Nat) : Prop :=
  ∀ x ∈ result.primitiveVariables,
    x.2.interpolation = Interpolation.FaceVarying → x.2.faceVaryingLength = some (size x.2)

/-- The array the specification describes for a colour set: `n` entries, entry `i`
being the converted host colour `i` when the host returned one, and the fixed
default otherwise. -/
def paddedColors {β : Type} (conv : MColor → β) (dflt : β) (cols : List MColor)
    (n : Nat) : List β :=
  (List.range n).map (fun i => ((cols[i]?).map conv).getD dflt)

/-- The colour sets `doPrimitiveConversion` reads for given parameters: a set the
host lists is read when it is the current set and "colors" is on, or when
"extraColors" is on. -/
def requestsColorSet (fnMesh : MFnMesh) (parameters : Parameters) (colorSet : String) : Prop :=
  colorSet ∈ fnMesh.getColorSetNames
    ∧ ((parameters.colors = true ∧ colorSet = fnMesh.getCurrentColorSetName)
        ∨ parameters.extraColors = true)

/-- The names under which the loop over the colour sets stores a variable: "Cs" for
the current set when "colors" is on, and `s + "_Cs"` for every set `s` when
"extraColors" is on. -/
def colorSetsLoopNames (convertColors convertExtraColors : Bool) (currentColorSet : String)
    (colorSets : List String) : List String :=
  colorSets.flatMap (fun colorSet =>
    (if convertColors = true ∧ colorSet = currentColorSet then ["Cs"] else [])
      ++ (if convertExtraColors = true then [colorSet ++ "_Cs"] else []))

/-- The names of the colour variables a conversion stores for given parameters. -/
def colorVariableNames (fnMesh : MFnMesh) (parameters : Parameters) : List String :=
  if parameters.colors = true ∨ parameters.extraColors = true then
    colorSetsLoopNames parameters.colors parameters.extraColors
      fnMesh.getCurrentColorSetName fnMesh.getColorSetNames
  else []

/-- Every variable of the result that has an index list is stored under a name
satisfying `allowed`. -/
def MeshPrimitive.IndexedOnlyUnder (allowed : String → Prop) (result : MeshPrimitive) : Prop :=
  ∀ k v, result.variable k = some v → v.indices ≠ none → allowed k

/-- The number of UV ids that belong to the faces before face `i`: the total of
`vertsPerFace` over the earlier faces whose UV count is not zero. -/
def uvIdsBefore (vertsPerFace uvCounts : List Int) (i : Nat) : Nat :=
  ((List.range i).map (fun f =>
    if uvCounts.getD f 0 = 0 then 0 else (vertsPerFace.getD f 0).toNat)).sum

/-- The index the specification gives corner `j` of face `i`: 0 when the face has no
UVs, otherwise the UV id at position `k + j`, `k` being `uvIdsBefore` the face. -/
def alignedIndex (vertsPerFace uvCounts uvIds : List Int) (i j : Nat) : Int :=
  if uvCounts.getD i 0 = 0 then 0
  else uvIds.getD (uvIdsBefore vertsPerFace uvCounts i + j) 0

/-- The index list the specification describes: face by face, corner by corner, the
`alignedIndex` of the corner. -/
def alignedIndices (vertsPerFace uvCounts uvIds : List Int) : List Int :=
  (List.range vertsPerFace.length).flatMap (fun i =>
    (List.range (vertsPerFace.getD i 0).toNat).map
      (alignedIndex vertsPerFace uvCounts uvIds i))

/-- The position of the first corner of face `i` in the per-corner ordering. -/
def cornerOffset (vertsPerFace : List Int) (i : Nat) : Nat :=
  ((List.range i).map (fun f => (vertsPerFace.getD f 0).toNat)).sum

/-- A host UV assignment that fits the faces: no face has a negative corner count,
there is one UV count per face, each either 0 or the corner count of the face, and
there are as many UV ids as the UV counts add up to. -/
def UVAssignmentConsistent (vertsPerFace uvCounts uvIds : List Int) : Prop :=
  (∀ c ∈ vertsPerFace, 0 ≤ c)
    ∧ uvCounts.length = vertsPerFace.length
    ∧ (∀ i, i < vertsPerFace.length →
        uvCounts.getD i 0 = 0 ∨ uvCounts.getD i 0 = vertsPerFace.getD i 0)
    ∧ (uvIds.length : Int) = uvCounts.sum

/-- The host mesh with another answer to `getFaceVertexColors`. -/
def MFnMesh.withFaceVertexColors (fnMesh : MFnMesh)
    (g : String → Option (List MColor)) : MFnMesh :=
  { fnMesh with getFaceVertexColors := g }

/-! ### Concrete inputs -/

/-- Outward normals of the six faces of the unit cube. -/
def cubeFaceNormals : List V3f :=
  [⟨0, 0, 1⟩, ⟨0, 1, 0⟩, ⟨0, 0, -1⟩, ⟨0, -1, 0⟩, ⟨1, 0, 0⟩, ⟨-1, 0, 0⟩]

/-- A unit cube as the host reports it: 8 vertices, 6 quads, 24 face corners, one
normal per corner, one UV set "map1" with 14 UVs, no colour set and no
"ieMeshInterpolation" attribute. -/
def cubeMesh : MFnMesh :=
  { numVertices := 8
    numPolygons := 6
    numFaceVertices := 24
    getVertices :=
      ([4, 4, 4, 4, 4, 4],
       [0, 1, 3, 2, 2, 3, 5, 4, 4, 5, 7, 6, 6, 7, 1, 0, 1, 7, 5, 3, 6, 0, 2, 4])
    getRawPoints :=
      [⟨0, 0, 1⟩, ⟨1, 0, 1⟩, ⟨0, 1, 1⟩, ⟨1, 1, 1⟩, ⟨0, 1, 0⟩, ⟨1, 1, 0⟩, ⟨0, 0, 0⟩, ⟨1, 0, 0⟩]
    getPoints := fun _ =>
      [⟨0, 0, 1, 1⟩, ⟨1, 0, 1, 1⟩, ⟨0, 1, 1, 1⟩, ⟨1, 1, 1, 1⟩, ⟨0, 1, 0, 1⟩, ⟨1, 1, 0, 1⟩,
       ⟨0, 0, 0, 1⟩, ⟨1, 0, 0, 1⟩]
    getRawNormals :=
      (cubeFaceNormals.flatMap (fun n => List.replicate 4 n)).flatMap (fun n => [n.x, n.y, n.z])
    getFaceNormalIds := fun i => [4 * i, 4 * i + 1, 4 * i + 2, 4 * i + 3]
    getFaceVertexNormals := fun i _ => List.replicate 4 (cubeFaceNormals.getD i ⟨0, 0, 0⟩)
    getCurrentUVSetName := "map1"
    getUVSetNames := ["map1"]
    getAssignedUVs := fun _ =>
      ([4, 4, 4, 4, 4, 4],
       [0, 1, 3, 2, 2, 3, 5, 4, 4, 5, 7, 6, 6, 7, 9, 8, 1, 10, 11, 3, 12, 0, 2, 13])
    getUVs := fun _ =>
      ([0, 1, 0, 1, 0, 1, 0, 1, 0, 1, 2, 2, -1, -1], [0, 0, 1, 1, 2, 2, 3, 3, 4, 4, 0, 1, 0, 1])
    getColorRepresentation := fun _ => MColorRepresentation.kRGBA
    getFaceVertexColors := fun _ => none
    getCurrentColorSetName := ""
    getColorSetNames := []
    findPlug := fun _ => none }

/-- Conversion of a polygon mesh ("poly" preset) in object space, without colours. -/
def polyParameters : Parameters :=
  { interpolation := "linear", colors := false, extraColors := false, space := MSpace.kObject }

/-- The face-varying normals expected for the cube: the normal of each face, once
per corner. -/
def cubeNormals : PrimitiveVariable :=
  { interpolation := Interpolation.FaceVarying
    data := Data.V3fVectorData (cubeFaceNormals.flatMap (fun n => List.replicate 4 n))
    indices := none }

/-- The mesh primitive expected for the cube converted with `polyParameters`. -/
def cubeResult : MeshPrimitive :=
  { verticesPerFace := [4, 4, 4, 4, 4, 4]
    vertexIds := [0, 1, 3, 2, 2, 3, 5, 4, 4, 5, 7, 6, 6, 7, 1, 0, 1, 7, 5, 3, 6, 0, 2, 4]
    interpolation := "linear"
    primitiveVariables :=
      [ ("P", { interpolation := Interpolation.Vertex
                data := Data.V3fVectorData cubeMesh.getRawPoints
                indices := none }),
        ("N", cubeNormals),
        ("uv", { interpolation := Interpolation.FaceVarying
                 data := Data.V2fVectorData
                   [⟨0, 0⟩, ⟨1, 0⟩, ⟨0, 1⟩, ⟨1, 1⟩, ⟨0, 2⟩, ⟨1, 2⟩, ⟨0, 3⟩, ⟨1, 3⟩, ⟨0, 4⟩, ⟨1, 4⟩,
                    ⟨2, 0⟩, ⟨2, 1⟩, ⟨-1, 0⟩, ⟨-1, 1⟩]
                 indices := some
                   [0, 1, 3, 2, 2, 3, 5, 4, 4, 5, 7, 6, 6, 7, 9, 8, 1, 10, 11, 3, 12, 0, 2, 13] }) ] }

/-- Conversion with the "interpolation" parameter left at "default". -/
def defaultParameters : Parameters :=
  { interpolation := "default", colors := false, extraColors := false, space := MSpace.kObject }

/-- Conversion of a subdivision mesh ("subdiv" preset). -/
def subdivParameters : Parameters :=
  { interpolation := "catmullClark", colors := false, extraColors := false,
    space := MSpace.kObject }

/-- Conversion of a polygon mesh with both colour parameters on. -/
def colorParameters : Parameters :=
  { interpolation := "linear", colors := true, extraColors := true, space := MSpace.kObject }

/-- The cube with a readable "ieMeshInterpolation" attribute whose value cannot be
read as an integer. -/
def unreadablePlugMesh : MFnMesh :=
  { cubeMesh with findPlug := fun name =>
      if name = "ieMeshInterpolation" then some { asInt := none } else none }

/-- The cube with two more UV sets, named "N" and "P", beside its current set. -/
def uvSetNamedNMesh : MFnMesh :=
  { cubeMesh with getUVSetNames := ["map1", "N", "P"] }

/-- The cube with an alpha-only colour set "mask" for which the host returns two
colours, and an RGBA set "paint" for which it returns 25, one more than there are
face corners. -/
def paintedCubeMesh : MFnMesh :=
  { cubeMesh with
    getColorRepresentation := fun colorSet =>
      if colorSet = "mask" then MColorRepresentation.kAlpha else MColorRepresentation.kRGBA
    getFaceVertexColors := fun colorSet =>
      if colorSet = "mask" then some [⟨0, 0, 0, 3⟩, ⟨1, 1, 1, 5⟩]
      else if colorSet = "paint" then some (List.replicate 25 ⟨2, 3, 4, 1⟩)
      else none
    getCurrentColorSetName := "mask"
    getColorSetNames := ["mask", "paint"] }

/-- The painted cube with a third colour set the host lists but cannot read. -/
def brokenColorSetMesh : MFnMesh :=
  { paintedCubeMesh with getColorSetNames := ["mask", "paint", "broken"] }

/-- The cube with an "ieMeshInterpolation" attribute of integer value `v`. -/
def plugValueMesh (v : Int) : MFnMesh :=
  { cubeMesh with findPlug := fun name =>
      if name = "ieMeshInterpolation" then some { asInt := some v } else none }

/-- The painted cube with three more UV sets, named "uv", "Cs" and "paint_Cs", none
of them assigned to any face, beside its current set "map1". -/
def clashingNamesMesh : MFnMesh :=
  { paintedCubeMesh with
    getUVSetNames := ["map1", "uv", "Cs", "paint_Cs"]
    getAssignedUVs := fun uvSet =>
      if uvSet = "map1" then cubeMesh.getAssignedUVs "map1"
      else ([0, 0, 0, 0, 0, 0], [])
    getUVs := fun uvSet => if uvSet = "map1" then cubeMesh.getUVs "map1" else ([], []) }

/-- Conversion of a polygon mesh with only "extraColors" on. -/
def extraColorParameters : Parameters :=
  { interpolation := "linear", colors := false, extraColors := true, space := MSpace.kObject }

/-- Three faces of 3, 4 and 3 corners; the middle one has no UVs. -/
def partlyMappedFaces : List Int := [3, 4, 3]

/-- The UV counts of `partlyMappedFaces`. -/
def partlyMappedCounts : List Int := [3, 0, 3]

/-- The UV ids of `partlyMappedFaces`. -/
def partlyMappedIds : List Int := [10, 11, 12, 20, 21, 22]

end IECoreMaya
namespace IECoreGL

/-! ## Theorems about `Primitive::render` -/

/-- The uniform cache is kept for a shader at the cached address, whatever that
shader holds by now. -/
theorem setupVertexAttributesAsUniform_cached (p : Primitive) (s : Shader)
    (h : p.m_vertexToUniform.shader = some s.address) :
    p.setupVertexAttributesAsUniform (some s) = p := by
  simp [Primitive.setupVertexAttributesAsUniform, h]

/-- A guarded block throws exactly when it runs and its virtual call throws. -/
theorem thrownBy_eq_some {α : Type} (enabled : Bool) (result : Except Exception α)
    (e : Exception) :
    thrownBy enabled result = some e ↔ enabled = true ∧ result = Except.error e := by
  cases enabled <;> cases result <;> simp [thrownBy]

/-- A guarded block ends normally exactly when it does not run or its virtual call
returns. -/
theorem thrownBy_eq_none {α : Type} (enabled : Bool) (result : Except Exception α) :
    thrownBy enabled result = none ↔ (enabled = true → ∃ a, result = Except.ok a) := by
  cases enabled <;> cases result <;> simp [thrownBy]

/-- The six ways `render` ends for a complete state: at the first guarded block whose
virtual call throws, with the calls made up to there, or after the last call. -/
theorem render_cases (p : Primitive) (gl : GLContext) (state : State)
    (h : state.isComplete = true) :
    (∃ e, thrownBy state.PrimitiveSolid (p.renderTyped TypeId.PrimitiveSolid) = some e
        ∧ p.render gl state
          = { result := Except.error e
              primitive := p.setupVertexAttributesAsUniform state.shader
              calls := pushCalls ++ depthMaskCalls state ++ solidCalls state })
      ∨ (∃ e, thrownBy state.PrimitiveSolid (p.renderTyped TypeId.PrimitiveSolid) = none
        ∧ thrownBy state.PrimitiveOutline (p.renderTyped TypeId.PrimitiveOutline) = some e
        ∧ p.render gl state
          = { result := Except.error e
              primitive := p.setupVertexAttributesAsUniform state.shader
              calls := pushCalls ++ depthMaskCalls state ++ solidCalls state
                ++ unlitCalls gl ++ outlineCalls state })
      ∨ (∃ e, thrownBy state.PrimitiveSolid (p.renderTyped TypeId.PrimitiveSolid) = none
        ∧ thrownBy state.PrimitiveOutline (p.renderTyped TypeId.PrimitiveOutline) = none
        ∧ thrownBy state.PrimitiveWireframe (p.renderTyped TypeId.PrimitiveWireframe) = some e
        ∧ p.render gl state
          = { result := Except.error e
              primitive := p.setupVertexAttributesAsUniform state.shader
              calls := pushCalls ++ depthMaskCalls state ++ solidCalls state
                ++ unlitCalls gl ++ outlineCalls state ++ wireframeCalls state })
      ∨ (∃ e, thrownBy state.PrimitiveSolid (p.renderTyped TypeId.PrimitiveSolid) = none
        ∧ thrownBy state.PrimitiveOutline (p.renderTyped TypeId.PrimitiveOutline) = none
        ∧ thrownBy state.PrimitiveWireframe (p.renderTyped TypeId.PrimitiveWireframe) = none
        ∧ thrownBy state.PrimitivePoints (p.renderTyped TypeId.PrimitivePoints) = some e
        ∧ p.render gl state
          = { result := Except.error e
              primitive := p.setupVertexAttributesAsUniform state.shader
              calls := pushCalls ++ depthMaskCalls state ++ solidCalls state
                ++ unlitCalls gl ++ outlineCalls state ++ wireframeCalls state
                ++ pointsCalls state })
      ∨ (∃ e, thrownBy state.PrimitiveSolid (p.renderTyped TypeId.PrimitiveSolid) = none
        ∧ thrownBy state.PrimitiveOutline (p.renderTyped TypeId.PrimitiveOutline) = none
        ∧ thrownBy state.PrimitiveWireframe (p.renderTyped TypeId.PrimitiveWireframe) = none
        ∧ thrownBy state.PrimitivePoints (p.renderTyped TypeId.PrimitivePoints) = none
        ∧ thrownBy state.PrimitiveBound p.bound = some e
        ∧ p.render gl state
          = { result := Except.error e
              primitive := p.setupVertexAttributesAsUniform state.shader
              calls := pushCalls ++ depthMaskCalls state ++ solidCalls state
                ++ unlitCalls gl ++ outlineCalls state ++ wireframeCalls state
                ++ pointsCalls state ++ boundCalls p state })
      ∨ (thrownBy state.PrimitiveSolid (p.renderTyped TypeId.PrimitiveSolid) = none
        ∧ thrownBy state.PrimitiveOutline (p.renderTyped TypeId.PrimitiveOutline) = none
        ∧ thrownBy state.PrimitiveWireframe (p.renderTyped TypeId.PrimitiveWireframe) = none
        ∧ thrownBy state.PrimitivePoints (p.renderTyped TypeId.PrimitivePoints) = none
        ∧ thrownBy state.PrimitiveBound p.bound = none
        ∧ p.render gl state
          = { result := Except.ok ()
              primitive := p.setupVertexAttributesAsUniform state.shader
              calls := pushCalls ++ depthMaskCalls state ++ solidCalls state
                ++ unlitCalls gl ++ outlineCalls state ++ wireframeCalls state
                ++ pointsCalls state ++ boundCalls p state ++ restoreCalls gl }) := by
  have hc : (!state.isComplete) = false := by simp [h]
  simp only [Primitive.render, hc, Bool.false_eq_true, if_false]
  cases h1 : thrownBy state.PrimitiveSolid (p.renderTyped TypeId.PrimitiveSolid) with
  | some e => exact Or.inl ⟨e, rfl, rfl⟩
  | none =>
    cases h2 : thrownBy state.PrimitiveOutline (p.renderTyped TypeId.PrimitiveOutline) with
    | some e => exact Or.inr (Or.inl ⟨e, rfl, rfl, rfl⟩)
    | none =>
      cases h3 : thrownBy state.PrimitiveWireframe (p.renderTyped TypeId.PrimitiveWireframe) with
      | some e => exact Or.inr (Or.inr (Or.inl ⟨e, rfl, rfl, rfl, rfl⟩))
      | none =>
        cases h4 : thrownBy state.PrimitivePoints (p.renderTyped TypeId.PrimitivePoints) with
        | some e => exact Or.inr (Or.inr (Or.inr (Or.inl ⟨e, rfl, rfl, rfl, rfl, rfl⟩)))
        | none =>
          cases h5 : thrownBy state.PrimitiveBound p.bound with
          | some e =>
            exact Or.inr (Or.inr (Or.inr (Or.inr (Or.inl ⟨e, rfl, rfl, rfl, rfl, rfl, rfl⟩))))
          | none =>
            exact Or.inr (Or.inr (Or.inr (Or.inr (Or.inr ⟨rfl, rfl, rfl, rfl, rfl, rfl⟩))))

/-- C1: for every primitive, GL context and state whose `isComplete()` is false,
`Primitive::render` throws its "incomplete state" exception, has made no call at all
(neither a GL call nor a call of the type-specific hook), and leaves the primitive,
in particular `m_vertexToUniform`, exactly as it was. -/
theorem render_incomplete_state_fails_without_effect (p : Primitive) (gl : GLContext)
    (state : State) (h : state.isComplete = false) :
    (p.render gl state).result
        = Except.error ⟨"Primitive::render called with incomplete state object."⟩
      ∧ (p.render gl state).calls = []
      ∧ (p.render gl state).primitive.m_vertexToUniform = p.m_vertexToUniform
      ∧ (p.render gl state).primitive = p := by
  simp [Primitive.render, h]

/-- C1, at a concrete input: the incomplete variant of `exampleState` makes `render`
throw with no call made and the cache untouched, while the same state marked complete
makes `render` return, issue calls and rebuild the cache. -/
theorem render_incomplete_state_fails_without_effect_witness :
    ({ exampleState with isComplete := false } : State).isComplete = false
      ∧ ((examplePrimitive.render exampleContext { exampleState with isComplete := false }).result
            = Except.error ⟨"Primitive::render called with incomplete state object."⟩
          ∧ (examplePrimitive.render exampleContext
                { exampleState with isComplete := false }).calls = []
          ∧ (examplePrimitive.render exampleContext
                { exampleState with isComplete := false }).primitive.m_vertexToUniform
              = examplePrimitive.m_vertexToUniform
          ∧ (examplePrimitive.render exampleContext
                { exampleState with isComplete := false }).primitive = examplePrimitive)
      ∧ (examplePrimitive.render exampleContext exampleState).primitive.m_vertexToUniform
          = { shader := some exampleShader.address, intDataMap := [(2, [4, 5, 6])] } :=
  ⟨rfl,
   render_incomplete_state_fails_without_effect examplePrimitive exampleContext
     { exampleState with isComplete := false } rfl,
   by decide⟩

/-- The `glDepthMask` calls of `render` for a complete state. -/
theorem render_depthMask_calls (p : Primitive) (gl : GLContext) (state : State)
    (h : state.isComplete = true) :
    (p.render gl state).calls.filter GLCall.isDepthMask = depthMaskCalls state := by
  have hb : (boundCalls p state).filter GLCall.isDepthMask = [] := by
    unfold boundCalls
    cases p.bound <;>
      simp [apply_ite (List.filter GLCall.isDepthMask), List.filter_cons, GLCall.isDepthMask]
  rcases render_cases p gl state h with
    ⟨e, -, hr⟩ | ⟨e, -, -, hr⟩ | ⟨e, -, -, -, hr⟩ | ⟨e, -, -, -, -, hr⟩
      | ⟨e, -, -, -, -, -, hr⟩ | ⟨-, -, -, -, -, hr⟩ <;>
    · rw [hr]
      simp only [List.filter_append, hb]
      simp [pushCalls, depthMaskCalls, solidCalls, unlitCalls, outlineCalls, wireframeCalls,
        pointsCalls, restoreCalls, List.filter_append,
        apply_ite (List.filter GLCall.isDepthMask), List.filter_cons, GLCall.isDepthMask]

/-- C2: for every complete state, `Primitive::render` issues `glDepthMask( false )`
exactly when both the `PrimitiveTransparencySortStateComponent` value and the
`TransparentShadingStateComponent` value are true: the `glDepthMask` calls of the
sequence are then the single call `glDepthMask( false )`, and with either value
false, or both, the sequence contains no `glDepthMask` call at all. Equivalently
`depthSortRequested` is the conjunction of the two values. -/
theorem render_depthMask_iff_both_flags (p : Primitive) (gl : GLContext) (state : State)
    (h : state.isComplete = true) :
    (GLCall.glDepthMask false ∈ (p.render gl state).calls
        ↔ (state.PrimitiveTransparencySortStateComponent = true
            ∧ state.TransparentShadingStateComponent = true))
      ∧ (p.render gl state).calls.filter GLCall.isDepthMask
          = (if state.PrimitiveTransparencySortStateComponent = true
                ∧ state.TransparentShadingStateComponent = true
             then [GLCall.glDepthMask false] else [])
      ∧ depthSortRequested state
          = (state.PrimitiveTransparencySortStateComponent
              && state.TransparentShadingStateComponent) := by
  have hf := render_depthMask_calls p gl state h
  have hm : GLCall.glDepthMask false ∈ (p.render gl state).calls
      ↔ GLCall.glDepthMask false ∈ (p.render gl state).calls.filter GLCall.isDepthMask := by
    simp [List.mem_filter, GLCall.isDepthMask]
  refine ⟨?_, ?_, rfl⟩
  · rw [hm, hf]
    simp [depthMaskCalls, depthSortRequested, List.mem_ite_nil_right]
  · rw [hf]
    simp [depthMaskCalls, depthSortRequested]

/-- C2, at a concrete input: in `exampleState` both flags are set and the rendered
sequence contains `glDepthMask( false )`. -/
theorem render_depthMask_iff_both_flags_witness :
    exampleState.isComplete = true
      ∧ GLCall.glDepthMask false ∈ (examplePrimitive.render exampleContext exampleState).calls :=
  ⟨rfl,
   (render_depthMask_iff_both_flags examplePrimitive exampleContext exampleState rfl).1.mpr
     ⟨rfl, rfl⟩⟩

/-- A guarded block that ends normally did not run, or ran a virtual call that
returned. -/
theorem thrownBy_none_cases {α : Type} {enabled : Bool} {result : Except Exception α}
    (h : thrownBy enabled result = none) :
    enabled = false ∨ (enabled = true ∧ result.isOk = true) := by
  cases enabled <;> cases result <;> simp_all [thrownBy, Except.isOk, Except.toBool]

/-- A guarded block that throws ran a virtual call that threw. -/
theorem thrownBy_some_cases {α : Type} {enabled : Bool} {result : Except Exception α}
    {e : Exception} (h : thrownBy enabled result = some e) :
    enabled = true ∧ result.isOk = false := by
  cases enabled <;> cases result <;> simp_all [thrownBy, Except.isOk, Except.toBool]

/-- The virtual calls in each block of `render`, as passes. -/
theorem blocks_pass (p : Primitive) (gl : GLContext) (state : State) :
    pushCalls.filterMap GLCall.pass? = []
      ∧ (depthMaskCalls state).filterMap GLCall.pass? = []
      ∧ (solidCalls state).filterMap GLCall.pass?
          = (if state.PrimitiveSolid = true then [Pass.solid] else [])
      ∧ (unlitCalls gl).filterMap GLCall.pass? = []
      ∧ (outlineCalls state).filterMap GLCall.pass?
          = (if state.PrimitiveOutline = true then [Pass.outline] else [])
      ∧ (wireframeCalls state).filterMap GLCall.pass?
          = (if state.PrimitiveWireframe = true then [Pass.wireframe] else [])
      ∧ (pointsCalls state).filterMap GLCall.pass?
          = (if state.PrimitivePoints = true then [Pass.points] else [])
      ∧ (boundCalls p state).filterMap GLCall.pass?
          = (if state.PrimitiveBound = true then [Pass.bound] else [])
      ∧ (restoreCalls gl).filterMap GLCall.pass? = [] := by
  refine ⟨by simp [pushCalls, GLCall.pass?], ?_, ?_, ?_, ?_, ?_, ?_, ?_, ?_⟩
  · simp [depthMaskCalls, apply_ite (List.filterMap GLCall.pass?), GLCall.pass?]
  · simp [solidCalls, apply_ite (List.filterMap GLCall.pass?), GLCall.pass?]
  · simp [unlitCalls, List.filterMap_append, apply_ite (List.filterMap GLCall.pass?),
      GLCall.pass?]
  · simp [outlineCalls, apply_ite (List.filterMap GLCall.pass?), GLCall.pass?]
  · simp [wireframeCalls, apply_ite (List.filterMap GLCall.pass?), GLCall.pass?]
  · simp [pointsCalls, apply_ite (List.filterMap GLCall.pass?), GLCall.pass?]
  · unfold boundCalls
    cases p.bound <;>
      simp [apply_ite (List.filterMap GLCall.pass?), List.filterMap_cons, GLCall.pass?]
  · simp [restoreCalls, List.filterMap_append, apply_ite (List.filterMap GLCall.pass?),
      GLCall.pass?]

/-- The passes `render` performs for a complete state: the enabled ones, in order, up
to and including the first whose virtual call throws. -/
theorem render_passes (p : Primitive) (gl : GLContext) (state : State)
    (h : state.isComplete = true) :
    (p.render gl state).calls.filterMap GLCall.pass?
      = takeThrough (Pass.throws p)
          ([Pass.solid, Pass.outline, Pass.wireframe, Pass.points, Pass.bound].filter
            (Pass.enabled state)) := by
  obtain ⟨b1, b2, b3, b4, b5, b6, b7, b8, b9⟩ := blocks_pass p gl state
  rcases render_cases p gl state h with
    ⟨e, h1, hr⟩ | ⟨e, h1, h2, hr⟩ | ⟨e, h1, h2, h3, hr⟩ | ⟨e, h1, h2, h3, h4, hr⟩
      | ⟨e, h1, h2, h3, h4, h5, hr⟩ | ⟨h1, h2, h3, h4, h5, hr⟩
  · rw [hr]
    simp only [List.filterMap_append, b1, b2, b3, b4, b5, b6, b7, b8, b9]
    obtain ⟨t1, r1⟩ := thrownBy_some_cases h1
    simp [takeThrough, Pass.throws, Pass.enabled, List.filter_cons, t1, r1]
  · rw [hr]
    simp only [List.filterMap_append, b1, b2, b3, b4, b5, b6, b7, b8, b9]
    obtain ⟨t2, r2⟩ := thrownBy_some_cases h2
    rcases thrownBy_none_cases h1 with t1 | ⟨t1, r1⟩ <;>
      simp [takeThrough, Pass.throws, Pass.enabled, List.filter_cons, *]
  · rw [hr]
    simp only [List.filterMap_append, b1, b2, b3, b4, b5, b6, b7, b8, b9]
    obtain ⟨t3, r3⟩ := thrownBy_some_cases h3
    rcases thrownBy_none_cases h1 with t1 | ⟨t1, r1⟩ <;>
      rcases thrownBy_none_cases h2 with t2 | ⟨t2, r2⟩ <;>
      simp [takeThrough, Pass.throws, Pass.enabled, List.filter_cons, *]
  · rw [hr]
    simp only [List.filterMap_append, b1, b2, b3, b4, b5, b6, b7, b8, b9]
    obtain ⟨t4, r4⟩ := thrownBy_some_cases h4
    rcases thrownBy_none_cases h1 with t1 | ⟨t1, r1⟩ <;>
      rcases thrownBy_none_cases h2 with t2 | ⟨t2, r2⟩ <;>
      rcases thrownBy_none_cases h3 with t3 | ⟨t3, r3⟩ <;>
      simp [takeThrough, Pass.throws, Pass.enabled, List.filter_cons, *]
  · rw [hr]
    simp only [List.filterMap_append, b1, b2, b3, b4, b5, b6, b7, b8, b9]
    obtain ⟨t5, r5⟩ := thrownBy_some_cases h5
    rcases thrownBy_none_cases h1 with t1 | ⟨t1, r1⟩ <;>
      rcases thrownBy_none_cases h2 with t2 | ⟨t2, r2⟩ <;>
      rcases thrownBy_none_cases h3 with t3 | ⟨t3, r3⟩ <;>
      rcases thrownBy_none_cases h4 with t4 | ⟨t4, r4⟩ <;>
      simp [takeThrough, Pass.throws, Pass.enabled, List.filter_cons, *]
  · rw [hr]
    simp only [List.filterMap_append, b1, b2, b3, b4, b5, b6, b7, b8, b9]
    rcases thrownBy_none_cases h1 with t1 | ⟨t1, r1⟩ <;>
      rcases thrownBy_none_cases h2 with t2 | ⟨t2, r2⟩ <;>
      rcases thrownBy_none_cases h3 with t3 | ⟨t3, r3⟩ <;>
      rcases thrownBy_none_cases h4 with t4 | ⟨t4, r4⟩ <;>
      rcases thrownBy_none_cases h5 with t5 | ⟨t5, r5⟩ <;>
      simp [takeThrough, Pass.throws, Pass.enabled, List.filter_cons, *]

/-- The delegations in each block of `render`. -/
theorem blocks_hook (p : Primitive) (gl : GLContext) (state : State) :
    pushCalls.filterMap GLCall.hook? = []
      ∧ (depthMaskCalls state).filterMap GLCall.hook? = []
      ∧ (solidCalls state).filterMap GLCall.hook?
          = (if state.PrimitiveSolid = true then [TypeId.PrimitiveSolid] else [])
      ∧ (unlitCalls gl).filterMap GLCall.hook? = []
      ∧ (outlineCalls state).filterMap GLCall.hook?
          = (if state.PrimitiveOutline = true then [TypeId.PrimitiveOutline] else [])
      ∧ (wireframeCalls state).filterMap GLCall.hook?
          = (if state.PrimitiveWireframe = true then [TypeId.PrimitiveWireframe] else [])
      ∧ (pointsCalls state).filterMap GLCall.hook?
          = (if state.PrimitivePoints = true then [TypeId.PrimitivePoints] else [])
      ∧ (boundCalls p state).filterMap GLCall.hook? = []
      ∧ (restoreCalls gl).filterMap GLCall.hook? = [] := by
  refine ⟨by simp [pushCalls, GLCall.hook?], ?_, ?_, ?_, ?_, ?_, ?_, ?_, ?_⟩
  · simp [depthMaskCalls, apply_ite (List.filterMap GLCall.hook?), GLCall.hook?]
  · simp [solidCalls, apply_ite (List.filterMap GLCall.hook?), GLCall.hook?]
  · simp [unlitCalls, List.filterMap_append, apply_ite (List.filterMap GLCall.hook?),
      GLCall.hook?]
  · simp [outlineCalls, apply_ite (List.filterMap GLCall.hook?), GLCall.hook?]
  · simp [wireframeCalls, apply_ite (List.filterMap GLCall.hook?), GLCall.hook?]
  · simp [pointsCalls, apply_ite (List.filterMap GLCall.hook?), GLCall.hook?]
  · unfold boundCalls
    cases p.bound <;>
      simp [apply_ite (List.filterMap GLCall.hook?), List.filterMap_cons, GLCall.hook?]
  · simp [restoreCalls, List.filterMap_append, apply_ite (List.filterMap GLCall.hook?),
      GLCall.hook?]

/-- The delegations `render` makes for a complete state: one per enabled pass among
the first four, in order, up to and including the first that throws. -/
theorem render_hooks (p : Primitive) (gl : GLContext) (state : State)
    (h : state.isComplete = true) :
    (p.render gl state).calls.filterMap GLCall.hook?
      = (takeThrough (Pass.throws p)
          ([Pass.solid, Pass.outline, Pass.wireframe, Pass.points].filter
            (Pass.enabled state))).map Pass.typeId := by
  obtain ⟨b1, b2, b3, b4, b5, b6, b7, b8, b9⟩ := blocks_hook p gl state
  rcases render_cases p gl state h with
    ⟨e, h1, hr⟩ | ⟨e, h1, h2, hr⟩ | ⟨e, h1, h2, h3, hr⟩ | ⟨e, h1, h2, h3, h4, hr⟩
      | ⟨e, h1, h2, h3, h4, h5, hr⟩ | ⟨h1, h2, h3, h4, h5, hr⟩
  · rw [hr]
    simp only [List.filterMap_append, b1, b2, b3, b4, b5, b6, b7, b8, b9]
    obtain ⟨t1, r1⟩ := thrownBy_some_cases h1
    simp [takeThrough, Pass.throws, Pass.enabled, Pass.typeId, List.filter_cons, t1, r1]
  · rw [hr]
    simp only [List.filterMap_append, b1, b2, b3, b4, b5, b6, b7, b8, b9]
    obtain ⟨t2, r2⟩ := thrownBy_some_cases h2
    rcases thrownBy_none_cases h1 with t1 | ⟨t1, r1⟩ <;>
      simp [takeThrough, Pass.throws, Pass.enabled, Pass.typeId, List.filter_cons, *]
  · rw [hr]
    simp only [List.filterMap_append, b1, b2, b3, b4, b5, b6, b7, b8, b9]
    obtain ⟨t3, r3⟩ := thrownBy_some_cases h3
    rcases thrownBy_none_cases h1 with t1 | ⟨t1, r1⟩ <;>
      rcases thrownBy_none_cases h2 with t2 | ⟨t2, r2⟩ <;>
      simp [takeThrough, Pass.throws, Pass.enabled, Pass.typeId, List.filter_cons, *]
  · rw [hr]
    simp only [List.filterMap_append, b1, b2, b3, b4, b5, b6, b7, b8, b9]
    obtain ⟨t4, r4⟩ := thrownBy_some_cases h4
    rcases thrownBy_none_cases h1 with t1 | ⟨t1, r1⟩ <;>
      rcases thrownBy_none_cases h2 with t2 | ⟨t2, r2⟩ <;>
      rcases thrownBy_none_cases h3 with t3 | ⟨t3, r3⟩ <;>
      simp [takeThrough, Pass.throws, Pass.enabled, Pass.typeId, List.filter_cons, *]
  · rw [hr]
    simp only [List.filterMap_append, b1, b2, b3, b4, b5, b6, b7, b8, b9]
    rcases thrownBy_none_cases h1 with t1 | ⟨t1, r1⟩ <;>
      rcases thrownBy_none_cases h2 with t2 | ⟨t2, r2⟩ <;>
      rcases thrownBy_none_cases h3 with t3 | ⟨t3, r3⟩ <;>
      rcases thrownBy_none_cases h4 with t4 | ⟨t4, r4⟩ <;>
      simp [takeThrough, Pass.throws, Pass.enabled, Pass.typeId, List.filter_cons, *]
  · rw [hr]
    simp only [List.filterMap_append, b1, b2, b3, b4, b5, b6, b7, b8, b9]
    rcases thrownBy_none_cases h1 with t1 | ⟨t1, r1⟩ <;>
      rcases thrownBy_none_cases h2 with t2 | ⟨t2, r2⟩ <;>
      rcases thrownBy_none_cases h3 with t3 | ⟨t3, r3⟩ <;>
      rcases thrownBy_none_cases h4 with t4 | ⟨t4, r4⟩ <;>
      simp [takeThrough, Pass.throws, Pass.enabled, Pass.typeId, List.filter_cons, *]

/-- The attribute-stack calls in each block of `render`. -/
theorem blocks_attribStack (p : Primitive) (gl : GLContext) (state : State) :
    pushCalls.filter GLCall.isAttribStackCall = pushCalls
      ∧ (depthMaskCalls state).filter GLCall.isAttribStackCall = []
      ∧ (solidCalls state).filter GLCall.isAttribStackCall = []
      ∧ (unlitCalls gl).filter GLCall.isAttribStackCall = []
      ∧ (outlineCalls state).filter GLCall.isAttribStackCall = []
      ∧ (wireframeCalls state).filter GLCall.isAttribStackCall = []
      ∧ (pointsCalls state).filter GLCall.isAttribStackCall = []
      ∧ (boundCalls p state).filter GLCall.isAttribStackCall = []
      ∧ (restoreCalls gl).filter GLCall.isAttribStackCall
          = [GLCall.glPopClientAttrib, GLCall.glPopAttrib] := by
  refine ⟨by simp [pushCalls, GLCall.isAttribStackCall], ?_, ?_, ?_, ?_, ?_, ?_, ?_, ?_⟩
  · simp [depthMaskCalls, apply_ite (List.filter GLCall.isAttribStackCall),
      GLCall.isAttribStackCall]
  · simp [solidCalls, apply_ite (List.filter GLCall.isAttribStackCall),
      GLCall.isAttribStackCall]
  · simp [unlitCalls, List.filter_append, apply_ite (List.filter GLCall.isAttribStackCall),
      GLCall.isAttribStackCall]
  · simp [outlineCalls, apply_ite (List.filter GLCall.isAttribStackCall),
      GLCall.isAttribStackCall]
  · simp [wireframeCalls, apply_ite (List.filter GLCall.isAttribStackCall),
      GLCall.isAttribStackCall]
  · simp [pointsCalls, apply_ite (List.filter GLCall.isAttribStackCall),
      GLCall.isAttribStackCall]
  · unfold boundCalls
    cases p.bound <;>
      simp [apply_ite (List.filter GLCall.isAttribStackCall), List.filter_cons,
        GLCall.isAttribStackCall]
  · simp [restoreCalls, List.filter_append, apply_ite (List.filter GLCall.isAttribStackCall),
      GLCall.isAttribStackCall]

/-- The attribute-stack calls of `render` for a complete state: the two pushes, and
the two pops exactly when `render` returns. -/
theorem render_attribStack (p : Primitive) (gl : GLContext) (state : State)
    (h : state.isComplete = true) :
    (p.render gl state).calls.filter GLCall.isAttribStackCall
      = pushCalls
        ++ (if (p.render gl state).result.isOk = true then
              [GLCall.glPopClientAttrib, GLCall.glPopAttrib]
            else []) := by
  obtain ⟨b1, b2, b3, b4, b5, b6, b7, b8, b9⟩ := blocks_attribStack p gl state
  rcases render_cases p gl state h with
    ⟨e, -, hr⟩ | ⟨e, -, -, hr⟩ | ⟨e, -, -, -, hr⟩ | ⟨e, -, -, -, -, hr⟩
      | ⟨e, -, -, -, -, -, hr⟩ | ⟨-, -, -, -, -, hr⟩ <;>
    · rw [hr]
      simp only [List.filter_append, b1, b2, b3, b4, b5, b6, b7, b8, b9]
      simp [Except.isOk, Except.toBool]

/-- The first two calls of `render` for a complete state are the two pushes. -/
theorem render_starts_with_pushes (p : Primitive) (gl : GLContext) (state : State)
    (h : state.isComplete = true) :
    (p.render gl state).calls.take 2 = pushCalls := by
  rcases render_cases p gl state h with
    ⟨e, -, hr⟩ | ⟨e, -, -, hr⟩ | ⟨e, -, -, -, hr⟩ | ⟨e, -, -, -, -, hr⟩
      | ⟨e, -, -, -, -, -, hr⟩ | ⟨-, -, -, -, -, hr⟩ <;>
    · rw [hr]
      simp [pushCalls]

/-- For a complete state `render` returns exactly when no enabled pass has a virtual
call that throws. -/
theorem render_returns_iff (p : Primitive) (gl : GLContext) (state : State)
    (h : state.isComplete = true) :
    (p.render gl state).result = Except.ok ()
      ↔ ∀ π : Pass, Pass.enabled state π = true → Pass.throws p π = false := by
  rcases render_cases p gl state h with
    ⟨e, h1, hr⟩ | ⟨e, h1, h2, hr⟩ | ⟨e, h1, h2, h3, hr⟩ | ⟨e, h1, h2, h3, h4, hr⟩
      | ⟨e, h1, h2, h3, h4, h5, hr⟩ | ⟨h1, h2, h3, h4, h5, hr⟩
  · rw [hr]
    obtain ⟨t, r⟩ := thrownBy_some_cases h1
    constructor
    · intro hx
      cases hx
    · intro hx
      have := hx Pass.solid t
      simp [Pass.throws, r] at this
  · rw [hr]
    obtain ⟨t, r⟩ := thrownBy_some_cases h2
    constructor
    · intro hx
      cases hx
    · intro hx
      have := hx Pass.outline t
      simp [Pass.throws, r] at this
  · rw [hr]
    obtain ⟨t, r⟩ := thrownBy_some_cases h3
    constructor
    · intro hx
      cases hx
    · intro hx
      have := hx Pass.wireframe t
      simp [Pass.throws, r] at this
  · rw [hr]
    obtain ⟨t, r⟩ := thrownBy_some_cases h4
    constructor
    · intro hx
      cases hx
    · intro hx
      have := hx Pass.points t
      simp [Pass.throws, r] at this
  · rw [hr]
    obtain ⟨t, r⟩ := thrownBy_some_cases h5
    constructor
    · intro hx
      cases hx
    · intro hx
      have := hx Pass.bound t
      simp [Pass.throws, r] at this
  · rw [hr]
    refine ⟨fun _ => ?_, fun _ => rfl⟩
    intro π hπ
    cases π
    · rcases thrownBy_none_cases h1 with t | ⟨t, r⟩
      · rw [Pass.enabled, t] at hπ
        cases hπ
      · simp [Pass.throws, r]
    · rcases thrownBy_none_cases h2 with t | ⟨t, r⟩
      · rw [Pass.enabled, t] at hπ
        cases hπ
      · simp [Pass.throws, r]
    · rcases thrownBy_none_cases h3 with t | ⟨t, r⟩
      · rw [Pass.enabled, t] at hπ
        cases hπ
      · simp [Pass.throws, r]
    · rcases thrownBy_none_cases h4 with t | ⟨t, r⟩
      · rw [Pass.enabled, t] at hπ
        cases hπ
      · simp [Pass.throws, r]
    · rcases thrownBy_none_cases h5 with t | ⟨t, r⟩
      · rw [Pass.enabled, t] at hπ
        cases hπ
      · simp [Pass.throws, r]

/-- When `render` returns for a complete state, its last two calls are the two pops. -/
theorem render_ends_with_pops (p : Primitive) (gl : GLContext) (state : State)
    (h : state.isComplete = true) (hr : (p.render gl state).result = Except.ok ()) :
    (p.render gl state).calls.reverse.take 2
      = [GLCall.glPopAttrib, GLCall.glPopClientAttrib] := by
  rcases render_cases p gl state h with
    ⟨e, -, hc⟩ | ⟨e, -, -, hc⟩ | ⟨e, -, -, -, hc⟩ | ⟨e, -, -, -, -, hc⟩
      | ⟨e, -, -, -, -, -, hc⟩ | ⟨-, -, -, -, -, hc⟩
  all_goals rw [hc] at hr ⊢
  all_goals first
    | exact Except.noConfusion hr
    | simp [restoreCalls]

/-- Dropping everything after the first stop of a list without a stop changes
nothing. -/
theorem takeThrough_eq_self {α : Type} (stop : α → Bool) (l : List α)
    (h : ∀ a ∈ l, stop a = false) : takeThrough stop l = l := by
  induction l with
  | nil => rfl
  | cons a rest ih =>
    rw [takeThrough, h a (List.mem_cons_self a rest)]
    simp only [Bool.false_eq_true, if_false]
    rw [ih (fun b hb => h b (List.mem_cons_of_mem a hb))]

/-- C3, as amended: for every complete state, the passes `Primitive::render` performs,
read off the call sequence in order, are those of solid, outline, wireframe, points,
bound whose toggle is true, in that order, up to and including the first whose
virtual call (the type-specific `render( state, typeId )`, or `bound()` for the bound
pass) throws; the calls of the type-specific `render` are one per performed pass
among the first four, with the type id of that pass, in the same order; the sequence
starts with `glPushAttrib` then `glPushClientAttrib`, and its attribute-stack calls are
these two followed by the two pops exactly when `render` returns. `render` returns
exactly when no enabled pass has a virtual call that throws, and then the passes are
all the enabled ones, the delegations one per enabled pass among the first four, the
sequence ends with `glPopClientAttrib` then `glPopAttrib`, and the two pushes and the
two pops are its only attribute-stack calls. When `render` throws, the sequence
contains no pop. -/
theorem render_passes_until_first_throw (p : Primitive) (gl : GLContext) (state : State)
    (h : state.isComplete = true) :
    (p.render gl state).calls.filterMap GLCall.pass?
        = takeThrough (Pass.throws p)
            ([Pass.solid, Pass.outline, Pass.wireframe, Pass.points, Pass.bound].filter
              (Pass.enabled state))
      ∧ (p.render gl state).calls.filterMap GLCall.hook?
        = (takeThrough (Pass.throws p)
            ([Pass.solid, Pass.outline, Pass.wireframe, Pass.points].filter
              (Pass.enabled state))).map Pass.typeId
      ∧ (p.render gl state).calls.take 2 = pushCalls
      ∧ (p.render gl state).calls.filter GLCall.isAttribStackCall
        = pushCalls
          ++ (if (p.render gl state).result.isOk = true then
                [GLCall.glPopClientAttrib, GLCall.glPopAttrib]
              else [])
      ∧ ((p.render gl state).result = Except.ok ()
          ↔ ∀ π : Pass, Pass.enabled state π = true → Pass.throws p π = false)
      ∧ ((p.render gl state).result = Except.ok () →
          (p.render gl state).calls.filterMap GLCall.pass?
              = [Pass.solid, Pass.outline, Pass.wireframe, Pass.points, Pass.bound].filter
                  (Pass.enabled state)
            ∧ (p.render gl state).calls.filterMap GLCall.hook?
              = ([Pass.solid, Pass.outline, Pass.wireframe, Pass.points].filter
                  (Pass.enabled state)).map Pass.typeId
            ∧ (p.render gl state).calls.reverse.take 2
              = [GLCall.glPopAttrib, GLCall.glPopClientAttrib]
            ∧ (p.render gl state).calls.filter GLCall.isAttribStackCall
              = [GLCall.glPushAttrib [GLbit.GL_TEXTURE_BIT, GLbit.GL_CURRENT_BIT,
                    GLbit.GL_DEPTH_BUFFER_BIT, GLbit.GL_POLYGON_BIT, GLbit.GL_LINE_BIT,
                    GLbit.GL_LIGHTING_BIT],
                 GLCall.glPushClientAttrib [GLbit.GL_CLIENT_VERTEX_ARRAY_BIT],
                 GLCall.glPopClientAttrib, GLCall.glPopAttrib])
      ∧ (∀ e, (p.render gl state).result = Except.error e →
          (p.render gl state).calls.filter GLCall.isAttribStackCall = pushCalls
            ∧ GLCall.glPopClientAttrib ∉ (p.render gl state).calls
            ∧ GLCall.glPopAttrib ∉ (p.render gl state).calls) := by
  have hp := render_passes p gl state h
  have hk := render_hooks p gl state h
  have ha := render_attribStack p gl state h
  have hi := render_returns_iff p gl state h
  refine ⟨hp, hk, render_starts_with_pushes p gl state h, ha, hi, ?_, ?_⟩
  · intro hr
    have hno := hi.mp hr
    refine ⟨?_, ?_, render_ends_with_pops p gl state h hr, ?_⟩
    · rw [hp, takeThrough_eq_self]
      intro π hπ
      exact hno π (List.mem_filter.mp hπ).2
    · rw [hk, takeThrough_eq_self]
      intro π hπ
      exact hno π (List.mem_filter.mp hπ).2
    · rw [ha, hr]
      rfl
  · intro e hr
    have hf : (p.render gl state).calls.filter GLCall.isAttribStackCall = pushCalls := by
      rw [ha, hr]
      simp [Except.isOk, Except.toBool]
    refine ⟨hf, ?_, ?_⟩
    · intro hm
      have : GLCall.glPopClientAttrib
          ∈ (p.render gl state).calls.filter GLCall.isAttribStackCall :=
        List.mem_filter.mpr ⟨hm, rfl⟩
      rw [hf] at this
      simp [pushCalls] at this
    · intro hm
      have : GLCall.glPopAttrib
          ∈ (p.render gl state).calls.filter GLCall.isAttribStackCall :=
        List.mem_filter.mpr ⟨hm, rfl⟩
      rw [hf] at this
      simp [pushCalls] at this

/-- C3, the amended statement at a concrete input: `exampleState` has every pass but
the point pass enabled and the virtual members of `examplePrimitive` return; the
passes read off the rendered sequence are solid, outline, wireframe, bound, and the
sequence ends with the two pops. -/
theorem render_passes_until_first_throw_witness :
    exampleState.isComplete = true
      ∧ (examplePrimitive.render exampleContext exampleState).calls.filterMap GLCall.pass?
          = [Pass.solid, Pass.outline, Pass.wireframe, Pass.bound]
      ∧ (examplePrimitive.render exampleContext exampleState).calls.reverse.take 2
          = [GLCall.glPopAttrib, GLCall.glPopClientAttrib] :=
  ⟨rfl,
   (render_passes_until_first_throw examplePrimitive exampleContext exampleState rfl).1.trans
     (by decide),
   ((render_passes_until_first_throw examplePrimitive exampleContext exampleState
      rfl).2.2.2.2.2.1 (by decide)).2.2.1⟩

/-- C3 as stated fails: `exampleState` is complete and enables solid, outline,
wireframe and bound, but the type-specific `render` of `throwingPrimitive` throws in
the outline pass; `render` then throws that exception, the passes performed are solid
and outline only, and the two pushes are not followed by any pop. -/
theorem render_throwing_hook_counterexample :
    exampleState.isComplete = true
      ∧ [Pass.solid, Pass.outline, Pass.wireframe, Pass.points, Pass.bound].filter
          (Pass.enabled exampleState)
        = [Pass.solid, Pass.outline, Pass.wireframe, Pass.bound]
      ∧ (throwingPrimitive.render exampleContext exampleState).result
        = Except.error ⟨"no outline"⟩
      ∧ (throwingPrimitive.render exampleContext exampleState).calls.filterMap GLCall.pass?
        = [Pass.solid, Pass.outline]
      ∧ (throwingPrimitive.render exampleContext exampleState).calls.filter
          GLCall.isAttribStackCall
        = [GLCall.glPushAttrib [GLbit.GL_TEXTURE_BIT, GLbit.GL_CURRENT_BIT,
              GLbit.GL_DEPTH_BUFFER_BIT, GLbit.GL_POLYGON_BIT, GLbit.GL_LINE_BIT,
              GLbit.GL_LIGHTING_BIT],
           GLCall.glPushClientAttrib [GLbit.GL_CLIENT_VERTEX_ARRAY_BIT]] :=
  ⟨rfl, by decide, by decide,
   (render_passes throwingPrimitive exampleContext exampleState rfl).trans (by decide),
   (render_attribStack throwingPrimitive exampleContext exampleState rfl).trans (by decide)⟩

/-! ## Theorems about the polygon offsets of `Primitive::render` -/

/-- Only the polygon-offset calls and the delegations matter to
`polygonOffsetFactorAt`. -/
theorem polygonOffsetFactorAt_filter (typeId : TypeId) (calls : List GLCall) :
    ∀ current, polygonOffsetFactorAt typeId calls current
      = polygonOffsetFactorAt typeId (calls.filter GLCall.isOffsetOrHook) current := by
  induction calls with
  | nil => intro current; rfl
  | cons c rest ih =>
    intro current
    cases c <;>
      simp only [List.filter_cons, GLCall.isOffsetOrHook, polygonOffsetFactorAt, ih,
        Bool.false_eq_true, if_false, if_true]

/-- A factor found in a call sequence is found in every extension of it. -/
theorem polygonOffsetFactorAt_append (typeId : TypeId) (calls rest : List GLCall) (f : ℚ) :
    ∀ current, polygonOffsetFactorAt typeId calls current = some f →
      polygonOffsetFactorAt typeId (calls ++ rest) current = some f := by
  induction calls with
  | nil =>
    intro current hf
    simp [polygonOffsetFactorAt] at hf
  | cons c tail ih =>
    intro current hf
    cases c
    case render t =>
      simp only [List.cons_append, polygonOffsetFactorAt] at hf ⊢
      by_cases ht : t = typeId
      · rw [if_pos ht] at hf ⊢
        exact hf
      · rw [if_neg ht] at hf ⊢
        exact ih current hf
    all_goals
      simp only [List.cons_append, polygonOffsetFactorAt] at hf ⊢
      exact ih _ hf

/-- The polygon-offset calls and delegations in each block of `render`. -/
theorem blocks_offsetOrHook (p : Primitive) (gl : GLContext) (state : State) :
    pushCalls.filter GLCall.isOffsetOrHook = []
      ∧ (depthMaskCalls state).filter GLCall.isOffsetOrHook = []
      ∧ (solidCalls state).filter GLCall.isOffsetOrHook
          = (if state.PrimitiveSolid = true then [GLCall.render TypeId.PrimitiveSolid] else [])
      ∧ (unlitCalls gl).filter GLCall.isOffsetOrHook = []
      ∧ (outlineCalls state).filter GLCall.isOffsetOrHook
          = (if state.PrimitiveOutline = true then
              [GLCall.glPolygonOffset (2 * (2 * state.PrimitiveOutlineWidth)) 1,
               GLCall.render TypeId.PrimitiveOutline]
             else [])
      ∧ (wireframeCalls state).filter GLCall.isOffsetOrHook
          = (if state.PrimitiveWireframe = true then
              [GLCall.glPolygonOffset (-1 * state.PrimitiveWireframeWidth) (-1),
               GLCall.render TypeId.PrimitiveWireframe]
             else [])
      ∧ (pointsCalls state).filter GLCall.isOffsetOrHook
          = (if state.PrimitivePoints = true then
              [GLCall.glPolygonOffset (-2 * state.PrimitivePointWidth) (-1),
               GLCall.render TypeId.PrimitivePoints]
             else [])
      ∧ (boundCalls p state).filter GLCall.isOffsetOrHook = []
      ∧ (restoreCalls gl).filter GLCall.isOffsetOrHook = [] := by
  refine ⟨by simp [pushCalls, GLCall.isOffsetOrHook], ?_, ?_, ?_, ?_, ?_, ?_, ?_, ?_⟩
  · simp [depthMaskCalls, apply_ite (List.filter GLCall.isOffsetOrHook),
      GLCall.isOffsetOrHook]
  · simp [solidCalls, apply_ite (List.filter GLCall.isOffsetOrHook), GLCall.isOffsetOrHook]
  · simp [unlitCalls, List.filter_append, apply_ite (List.filter GLCall.isOffsetOrHook),
      GLCall.isOffsetOrHook]
  · simp [outlineCalls, apply_ite (List.filter GLCall.isOffsetOrHook), GLCall.isOffsetOrHook]
  · simp [wireframeCalls, apply_ite (List.filter GLCall.isOffsetOrHook),
      GLCall.isOffsetOrHook]
  · simp [pointsCalls, apply_ite (List.filter GLCall.isOffsetOrHook), GLCall.isOffsetOrHook]
  · unfold boundCalls
    cases p.bound <;>
      simp [apply_ite (List.filter GLCall.isOffsetOrHook), List.filter_cons,
        GLCall.isOffsetOrHook]
  · simp [restoreCalls, List.filter_append, apply_ite (List.filter GLCall.isOffsetOrHook),
      GLCall.isOffsetOrHook]

/-- The calls of `render` for a complete state begin with those up to the end of each
block that is reached: a block is reached when no earlier block throws. -/
theorem render_calls_through (p : Primitive) (gl : GLContext) (state : State)
    (h : state.isComplete = true)
    (h1 : thrownBy state.PrimitiveSolid (p.renderTyped TypeId.PrimitiveSolid) = none) :
    (∃ rest, (p.render gl state).calls
        = pushCalls ++ depthMaskCalls state ++ solidCalls state ++ unlitCalls gl
          ++ outlineCalls state ++ rest)
      ∧ (thrownBy state.PrimitiveOutline (p.renderTyped TypeId.PrimitiveOutline) = none →
          (∃ rest, (p.render gl state).calls
            = pushCalls ++ depthMaskCalls state ++ solidCalls state ++ unlitCalls gl
              ++ outlineCalls state ++ wireframeCalls state ++ rest)
          ∧ (thrownBy state.PrimitiveWireframe (p.renderTyped TypeId.PrimitiveWireframe)
                = none →
              ∃ rest, (p.render gl state).calls
                = pushCalls ++ depthMaskCalls state ++ solidCalls state ++ unlitCalls gl
                  ++ outlineCalls state ++ wireframeCalls state ++ pointsCalls state
                  ++ rest)) := by
  rcases render_cases p gl state h with
    ⟨e, k1, hr⟩ | ⟨e, k1, k2, hr⟩ | ⟨e, k1, k2, k3, hr⟩ | ⟨e, k1, k2, k3, k4, hr⟩
      | ⟨e, k1, k2, k3, k4, k5, hr⟩ | ⟨k1, k2, k3, k4, k5, hr⟩
  · rw [h1] at k1
    cases k1
  · rw [hr]
    refine ⟨⟨[], by simp⟩, fun h2 => ?_⟩
    rw [h2] at k2
    cases k2
  · rw [hr]
    refine ⟨⟨wireframeCalls state, by simp⟩, fun _ => ⟨⟨[], by simp⟩, fun h3 => ?_⟩⟩
    rw [h3] at k3
    cases k3
  · rw [hr]
    exact ⟨⟨wireframeCalls state ++ pointsCalls state, by simp⟩,
      fun _ => ⟨⟨pointsCalls state, by simp⟩, fun _ => ⟨[], by simp⟩⟩⟩
  · rw [hr]
    exact ⟨⟨wireframeCalls state ++ pointsCalls state ++ boundCalls p state, by simp⟩,
      fun _ => ⟨⟨pointsCalls state ++ boundCalls p state, by simp⟩,
        fun _ => ⟨boundCalls p state, by simp⟩⟩⟩
  · rw [hr]
    exact ⟨⟨wireframeCalls state ++ pointsCalls state ++ boundCalls p state
        ++ restoreCalls gl, by simp⟩,
      fun _ => ⟨⟨pointsCalls state ++ boundCalls p state ++ restoreCalls gl, by simp⟩,
        fun _ => ⟨boundCalls p state ++ restoreCalls gl, by simp⟩⟩⟩

/-- The polygon-offset factor in force at each delegated pass of a complete state that
is reached. -/
theorem render_polygonOffsetFactorAt (p : Primitive) (gl : GLContext) (state : State)
    (h : state.isComplete = true)
    (h1 : thrownBy state.PrimitiveSolid (p.renderTyped TypeId.PrimitiveSolid) = none) :
    (state.PrimitiveOutline = true →
        polygonOffsetFactorAt TypeId.PrimitiveOutline (p.render gl state).calls none
          = some (2 * (2 * state.PrimitiveOutlineWidth)))
      ∧ (state.PrimitiveWireframe = true →
        thrownBy state.PrimitiveOutline (p.renderTyped TypeId.PrimitiveOutline) = none →
        polygonOffsetFactorAt TypeId.PrimitiveWireframe (p.render gl state).calls none
          = some (-1 * state.PrimitiveWireframeWidth))
      ∧ (state.PrimitivePoints = true →
        thrownBy state.PrimitiveOutline (p.renderTyped TypeId.PrimitiveOutline) = none →
        thrownBy state.PrimitiveWireframe (p.renderTyped TypeId.PrimitiveWireframe) = none →
        polygonOffsetFactorAt TypeId.PrimitivePoints (p.render gl state).calls none
          = some (-2 * state.PrimitivePointWidth)) := by
  obtain ⟨b1, b2, b3, b4, b5, b6, b7, b8, b9⟩ := blocks_offsetOrHook p gl state
  obtain ⟨⟨r1, e1⟩, hrest⟩ := render_calls_through p gl state h h1
  refine ⟨?_, ?_, ?_⟩
  · intro ho
    rw [e1]
    apply polygonOffsetFactorAt_append
    rw [polygonOffsetFactorAt_filter]
    simp only [List.filter_append, b1, b2, b3, b4, b5, ho]
    cases state.PrimitiveSolid <;> simp [polygonOffsetFactorAt]
  · intro hw h2
    obtain ⟨⟨r2, e2⟩, -⟩ := hrest h2
    rw [e2]
    apply polygonOffsetFactorAt_append
    rw [polygonOffsetFactorAt_filter]
    simp only [List.filter_append, b1, b2, b3, b4, b5, b6, hw]
    cases state.PrimitiveSolid <;> cases state.PrimitiveOutline <;>
      simp [polygonOffsetFactorAt]
  · intro hpt h2 h3
    obtain ⟨r3, e3⟩ := (hrest h2).2 h3
    rw [e3]
    apply polygonOffsetFactorAt_append
    rw [polygonOffsetFactorAt_filter]
    simp only [List.filter_append, b1, b2, b3, b4, b5, b6, b7, hpt]
    cases state.PrimitiveSolid <;> cases state.PrimitiveOutline <;>
      cases state.PrimitiveWireframe <;> simp [polygonOffsetFactorAt]

/-- C18, as amended: for every complete state, each delegated pass that is enabled and
reached, no type-specific `render` of an earlier enabled pass having thrown, is
delegated under the polygon-offset factor `render` set for it: 4 times the outline
width for the outline pass; `-1 * wireframe width` for the wireframe pass, negative
when that width is positive; `-2 * point width` for the point pass, negative when
that width is positive. When the wireframe and the point pass are both enabled and
reached, the point factor is below the wireframe factor exactly when the wireframe
width is less than twice the point width. -/
theorem render_polygonOffset_factors (p : Primitive) (gl : GLContext) (state : State)
    (h : state.isComplete = true) :
    (state.PrimitiveOutline = true →
        (state.PrimitiveSolid = true → p.renderTyped TypeId.PrimitiveSolid = Except.ok ()) →
        polygonOffsetFactorAt TypeId.PrimitiveOutline (p.render gl state).calls none
          = some (4 * state.PrimitiveOutlineWidth))
      ∧ (state.PrimitiveWireframe = true →
        (state.PrimitiveSolid = true → p.renderTyped TypeId.PrimitiveSolid = Except.ok ()) →
        (state.PrimitiveOutline = true →
          p.renderTyped TypeId.PrimitiveOutline = Except.ok ()) →
        ∃ fw : ℚ,
          polygonOffsetFactorAt TypeId.PrimitiveWireframe (p.render gl state).calls none
              = some fw
            ∧ fw = -1 * state.PrimitiveWireframeWidth
            ∧ (0 < state.PrimitiveWireframeWidth → fw < 0))
      ∧ (state.PrimitivePoints = true →
        (state.PrimitiveSolid = true → p.renderTyped TypeId.PrimitiveSolid = Except.ok ()) →
        (state.PrimitiveOutline = true →
          p.renderTyped TypeId.PrimitiveOutline = Except.ok ()) →
        (state.PrimitiveWireframe = true →
          p.renderTyped TypeId.PrimitiveWireframe = Except.ok ()) →
        ∃ fp : ℚ,
          polygonOffsetFactorAt TypeId.PrimitivePoints (p.render gl state).calls none
              = some fp
            ∧ fp = -2 * state.PrimitivePointWidth
            ∧ (0 < state.PrimitivePointWidth → fp < 0))
      ∧ (state.PrimitiveWireframe = true → state.PrimitivePoints = true →
        (state.PrimitiveSolid = true → p.renderTyped TypeId.PrimitiveSolid = Except.ok ()) →
        (state.PrimitiveOutline = true →
          p.renderTyped TypeId.PrimitiveOutline = Except.ok ()) →
        p.renderTyped TypeId.PrimitiveWireframe = Except.ok () →
        ∃ fw fp : ℚ,
          polygonOffsetFactorAt TypeId.PrimitiveWireframe (p.render gl state).calls none
              = some fw
            ∧ polygonOffsetFactorAt TypeId.PrimitivePoints (p.render gl state).calls none
              = some fp
            ∧ (fp < fw
                ↔ state.PrimitiveWireframeWidth < 2 * state.PrimitivePointWidth)) := by
  have key : ∀ (enabled : Bool) (result : Except Exception Unit),
      (enabled = true → result = Except.ok ()) → thrownBy enabled result = none :=
    fun enabled result hx => (thrownBy_eq_none enabled result).mpr (fun he => ⟨(), hx he⟩)
  refine ⟨?_, ?_, ?_, ?_⟩
  · intro ho hs
    rw [(render_polygonOffsetFactorAt p gl state h (key _ _ hs)).1 ho]
    congr 1
    ring
  · intro hw hs ho
    exact ⟨_, (render_polygonOffsetFactorAt p gl state h (key _ _ hs)).2.1 hw (key _ _ ho),
      rfl, fun hpos => by linarith⟩
  · intro hpt hs ho hw
    exact ⟨_, (render_polygonOffsetFactorAt p gl state h (key _ _ hs)).2.2 hpt (key _ _ ho)
      (key _ _ hw), rfl, fun hpos => by linarith⟩
  · intro hw hpt hs ho hwr
    refine ⟨_, _,
      (render_polygonOffsetFactorAt p gl state h (key _ _ hs)).2.1 hw (key _ _ ho),
      (render_polygonOffsetFactorAt p gl state h (key _ _ hs)).2.2 hpt (key _ _ ho)
        (key _ _ (fun _ => hwr)), ?_⟩
    constructor <;> intro hlt <;> linarith

/-- C18, the amended statement at concrete inputs: `exampleState` with the point pass
switched on has both widths 1 and the type-specific `render` of `examplePrimitive`
returns; the factors are -1 and -2. In `wideWireframeState`, with wireframe width 3,
the wireframe factor is negative and the outline factor is 4 times the outline
width. -/
theorem render_polygonOffset_factors_witness :
    ({ exampleState with PrimitivePoints := true } : State).isComplete = true
      ∧ (∃ fw : ℚ,
          polygonOffsetFactorAt TypeId.PrimitiveWireframe
              (examplePrimitive.render exampleContext
                { exampleState with PrimitivePoints := true }).calls none = some fw
            ∧ fw = -1 * 1 ∧ fw < 0)
      ∧ (∃ fw fp : ℚ,
          polygonOffsetFactorAt TypeId.PrimitiveWireframe
              (examplePrimitive.render exampleContext
                { exampleState with PrimitivePoints := true }).calls none = some fw
            ∧ polygonOffsetFactorAt TypeId.PrimitivePoints
                (examplePrimitive.render exampleContext
                  { exampleState with PrimitivePoints := true }).calls none = some fp
            ∧ fp < fw)
      ∧ (∃ fw : ℚ,
          polygonOffsetFactorAt TypeId.PrimitiveWireframe
              (examplePrimitive.render exampleContext wideWireframeState).calls none = some fw
            ∧ fw < 0)
      ∧ polygonOffsetFactorAt TypeId.PrimitiveOutline
          (examplePrimitive.render exampleContext wideWireframeState).calls none
          = some (4 * wideWireframeState.PrimitiveOutlineWidth) := by
  refine ⟨rfl, ?_, ?_, ?_, ?_⟩
  · obtain ⟨fw, a, b, c⟩ :=
      (render_polygonOffset_factors examplePrimitive exampleContext
        { exampleState with PrimitivePoints := true } rfl).2.1 rfl (fun _ => rfl)
        (fun _ => rfl)
    exact ⟨fw, a, b, c (by norm_num [exampleState])⟩
  · obtain ⟨fw, fp, a, b, c⟩ :=
      (render_polygonOffset_factors examplePrimitive exampleContext
        { exampleState with PrimitivePoints := true } rfl).2.2.2 rfl rfl (fun _ => rfl)
        (fun _ => rfl) rfl
    exact ⟨fw, fp, a, b, c.mpr (by norm_num [exampleState])⟩
  · obtain ⟨fw, a, -, c⟩ :=
      (render_polygonOffset_factors examplePrimitive exampleContext wideWireframeState
        rfl).2.1 rfl (fun _ => rfl) (fun _ => rfl)
    exact ⟨fw, a, c (by norm_num [wideWireframeState])⟩
  · exact (render_polygonOffset_factors examplePrimitive exampleContext wideWireframeState
      rfl).1 rfl (fun _ => rfl)

/-- C18 as stated fails, in two ways. `wideWireframeState` is complete, has both passes
enabled and positive widths (wireframe 3, point 1), and every virtual member of
`examplePrimitive` returns, yet the factor in force at the point delegation, -2, is
not smaller than the one at the wireframe delegation, -3. And with
`throwingPrimitive`, whose type-specific `render` throws in the outline pass, the
wireframe pass of the same state is never delegated, so no factor is set for it. -/
theorem render_polygonOffset_counterexample :
    wideWireframeState.isComplete = true
      ∧ wideWireframeState.PrimitiveWireframe = true
      ∧ wideWireframeState.PrimitivePoints = true
      ∧ 0 < wideWireframeState.PrimitiveWireframeWidth
      ∧ 0 < wideWireframeState.PrimitivePointWidth
      ∧ polygonOffsetFactorAt TypeId.PrimitiveWireframe
          (examplePrimitive.render exampleContext wideWireframeState).calls none = some (-3)
      ∧ polygonOffsetFactorAt TypeId.PrimitivePoints
          (examplePrimitive.render exampleContext wideWireframeState).calls none = some (-2)
      ∧ ¬ ((-2 : ℚ) < -3)
      ∧ polygonOffsetFactorAt TypeId.PrimitiveWireframe
          (throwingPrimitive.render exampleContext wideWireframeState).calls none = none := by
  obtain ⟨-, h2, h3⟩ :=
    render_polygonOffsetFactorAt examplePrimitive exampleContext wideWireframeState rfl rfl
  refine ⟨rfl, rfl, rfl, by norm_num [wideWireframeState], by norm_num [wideWireframeState],
    ?_, ?_, by norm_num, by rfl⟩
  · rw [h2 rfl rfl]
    norm_num [wideWireframeState]
  · rw [h3 rfl rfl rfl]
    norm_num [wideWireframeState]

end IECoreGL


namespace IECoreMaya

/-! ## Lemmas about the converter -/

theorem bind_eq_ok {α β : Type} (x : Except Failure α) (f : α → Except Failure β) (b : β) :
    (x >>= f) = Except.ok b ↔ ∃ a, x = Except.ok a ∧ f a = Except.ok b := by
  cases x with
  | error e => simp [bind, Except.bind]
  | ok a => simp [bind, Except.bind]

theorem ok_bind {α β : Type} (a : α) (f : α → Except Failure β) :
    (Except.ok a >>= f) = f a := rfl

theorem error_bind {α β : Type} (e : Failure) (f : α → Except Failure β) :
    ((Except.error e : Except Failure α) >>= f) = Except.error e := rfl

theorem copy_eq_ok {α : Type} (src dst : List α) (h : src.length ≤ dst.length) :
    copy src dst = Except.ok (src ++ dst.drop src.length) := by
  simp [copy, h]

/-- The fields of the result that no later step of the conversion assigns. -/
theorem setVariable_frame (r : MeshPrimitive) (k : String) (v : PrimitiveVariable) :
    (r.setVariable k v).verticesPerFace = r.verticesPerFace
      ∧ (r.setVariable k v).vertexIds = r.vertexIds
      ∧ (r.setVariable k v).interpolation = r.interpolation :=
  ⟨rfl, rfl, rfl⟩

/-- A guarded step "if c, convert a variable and store it under k": what its
success means. -/
theorem ifStep_eq_ok {c : Prop} [Decidable c] (x : Except Failure PrimitiveVariable)
    (r r2 : MeshPrimitive) (k : String)
    (h : (if c then (x >>= fun v => pure (r.setVariable k v)) else pure r) = Except.ok r2) :
    (c ∧ ∃ v, x = Except.ok v ∧ r2 = r.setVariable k v) ∨ (¬ c ∧ r2 = r) := by
  split_ifs at h with hc
  · left
    rw [bind_eq_ok] at h
    obtain ⟨v, hv, hr⟩ := h
    exact ⟨hc, v, hv, by cases hr; rfl⟩
  · right
    exact ⟨hc, by cases h; rfl⟩

theorem ifStep_frame {c : Prop} [Decidable c] (x : Except Failure PrimitiveVariable)
    (r r2 : MeshPrimitive) (k : String)
    (h : (if c then (x >>= fun v => pure (r.setVariable k v)) else pure r) = Except.ok r2) :
    r2.verticesPerFace = r.verticesPerFace ∧ r2.vertexIds = r.vertexIds
      ∧ r2.interpolation = r.interpolation := by
  rcases ifStep_eq_ok x r r2 k h with ⟨-, v, -, rfl⟩ | ⟨-, rfl⟩
  · exact setVariable_frame r k v
  · exact ⟨rfl, rfl, rfl⟩

theorem uvSetsLoop_frame (fnMesh : MFnMesh) (cur : String) (vpf : List Int)
    (sets : List String) :
    ∀ (r r2 : MeshPrimitive), uvSetsLoop fnMesh cur vpf sets r = Except.ok r2 →
      r2.verticesPerFace = r.verticesPerFace ∧ r2.vertexIds = r.vertexIds
        ∧ r2.interpolation = r.interpolation := by
  induction sets with
  | nil =>
    intro r r2 h
    simp only [uvSetsLoop] at h
    cases h
    exact ⟨rfl, rfl, rfl⟩
  | cons s rest ih =>
    intro r r2 h
    simp only [uvSetsLoop] at h
    split_ifs at h with hs
    · exact ih r r2 h
    · rw [bind_eq_ok] at h
      obtain ⟨v, -, hr⟩ := h
      exact ih (r.setVariable s v) r2 hr

theorem colorSetsLoop_frame (fnMesh : MFnMesh) (cc ce : Bool) (cur : String)
    (sets : List String) :
    ∀ (r r2 : MeshPrimitive), colorSetsLoop fnMesh cc ce cur sets r = Except.ok r2 →
      r2.verticesPerFace = r.verticesPerFace ∧ r2.vertexIds = r.vertexIds
        ∧ r2.interpolation = r.interpolation := by
  induction sets with
  | nil =>
    intro r r2 h
    simp only [colorSetsLoop] at h
    cases h
    exact ⟨rfl, rfl, rfl⟩
  | cons s rest ih =>
    intro r r2 h
    simp only [colorSetsLoop, bind_eq_ok] at h
    obtain ⟨r3, h3, r4, h4, hr⟩ := h
    obtain ⟨a1, a2, a3⟩ := ifStep_frame _ _ _ _ h3
    obtain ⟨b1, b2, b3⟩ := ifStep_frame _ _ _ _ h4
    obtain ⟨c1, c2, c3⟩ := ih _ r2 hr
    exact ⟨by rw [c1, b1, a1], by rw [c2, b2, a2], by rw [c3, b3, a3]⟩

/-- The steps of a conversion that returned, one after the other. -/
theorem doPrimitiveConversion_eq_ok (fnMesh : MFnMesh) (ps : Parameters) (r : MeshPrimitive)
    (h : doPrimitiveConversion fnMesh ps = Except.ok r) :
    ∃ (topo : List Int × List Int) (p : PrimitiveVariable) (r1 r2 r3 : MeshPrimitive),
      topology fnMesh = Except.ok topo
      ∧ points fnMesh ps.space = Except.ok p
      ∧ (if resolveInterpolation fnMesh ps.interpolation = "linear" then
            (normals fnMesh ps.space >>= fun n =>
              pure ((({ verticesPerFace := topo.1, vertexIds := topo.2,
                        interpolation := resolveInterpolation fnMesh ps.interpolation,
                        primitiveVariables := [] } : MeshPrimitive).setVariable "P" p).setVariable
                      "N" n))
          else pure (({ verticesPerFace := topo.1, vertexIds := topo.2,
                        interpolation := resolveInterpolation fnMesh ps.interpolation,
                        primitiveVariables := [] } : MeshPrimitive).setVariable "P" p))
          = Except.ok r1
      ∧ (if fnMesh.getCurrentUVSetName.length ≠ 0 then
            (uvs fnMesh fnMesh.getCurrentUVSetName topo.1 >>= fun v =>
              pure (r1.setVariable "uv" v))
          else pure r1) = Except.ok r2
      ∧ uvSetsLoop fnMesh fnMesh.getCurrentUVSetName topo.1 fnMesh.getUVSetNames r2
          = Except.ok r3
      ∧ (if ps.colors = true ∨ ps.extraColors = true then
            colorSetsLoop fnMesh ps.colors ps.extraColors fnMesh.getCurrentColorSetName
              fnMesh.getColorSetNames r3
          else pure r3) = Except.ok r := by
  simp only [doPrimitiveConversion, bind_eq_ok] at h
  obtain ⟨topo, ht, p, hp, r1, h1, r2, h2, r3, h3, h4⟩ := h
  exact ⟨topo, p, r1, r2, r3, ht, hp, h1, h2, h3, h4⟩

/-- The topology fields of a returned mesh are the result of the topology step. -/
theorem doPrimitiveConversion_topology (fnMesh : MFnMesh) (ps : Parameters)
    (r : MeshPrimitive) (h : doPrimitiveConversion fnMesh ps = Except.ok r) :
    topology fnMesh = Except.ok (r.verticesPerFace, r.vertexIds)
      ∧ r.interpolation = resolveInterpolation fnMesh ps.interpolation := by
  obtain ⟨topo, p, r1, r2, r3, ht, -, h1, h2, h3, h4⟩ :=
    doPrimitiveConversion_eq_ok fnMesh ps r h
  obtain ⟨a1, a2, a3⟩ := ifStep_frame _ _ _ _ h1
  obtain ⟨b1, b2, b3⟩ := ifStep_frame _ _ _ _ h2
  obtain ⟨c1, c2, c3⟩ := uvSetsLoop_frame _ _ _ _ _ _ h3
  have hd : r.verticesPerFace = r3.verticesPerFace ∧ r.vertexIds = r3.vertexIds
      ∧ r.interpolation = r3.interpolation := by
    split_ifs at h4 with hc
    · exact colorSetsLoop_frame _ _ _ _ _ _ _ h4
    · cases h4
      exact ⟨rfl, rfl, rfl⟩
  obtain ⟨d1, d2, d3⟩ := hd
  refine ⟨?_, ?_⟩
  · rw [ht, d1, d2, c1, c2, b1, b2, a1, a2]
    rfl
  · rw [d3, c3, b3, a3]
    rfl

/-! ### Lengths of the converted channels -/

theorem map_range_getD {α β : Type} (l : List α) (d : α) (g : α → β) :
    (List.range l.length).map (fun i => g (l.getD i d)) = l.map g := by
  apply List.ext_getElem
  · simp
  · intro i h1 h2
    simp only [List.length_map, List.length_range] at h1
    simp [List.getElem?_eq_getElem h1]

theorem colorsLoop_length {β : Type} (conv : MColor → β) (cols : List MColor) :
    ∀ (n : Nat) (vec out : List β), colorsLoop conv cols n vec = Except.ok out →
      out.length = vec.length := by
  intro n
  induction n with
  | zero =>
    intro vec out h
    simp only [colorsLoop] at h
    cases h
    rfl
  | succ n ih =>
    intro vec out h
    simp only [colorsLoop, bind_eq_ok] at h
    obtain ⟨filled, hf, c, -, hw⟩ := h
    unfold writeAt at hw
    split_ifs at hw
    cases hw
    simp [ih vec filled hf]

theorem colors_faceVaryingLength (fnMesh : MFnMesh) (colorSet : String) (forceRgb : Bool)
    (v : PrimitiveVariable) (h : colors fnMesh colorSet forceRgb = Except.ok v) :
    v.interpolation = Interpolation.FaceVarying ∧ v.indices = none
      ∧ v.faceVaryingLength = some fnMesh.numFaceVertices := by
  unfold colors at h
  cases hg : fnMesh.getFaceVertexColors colorSet with
  | none => simp [hg] at h
  | some cols =>
    simp only [hg] at h
    split_ifs at h <;>
    · rw [bind_eq_ok] at h
      obtain ⟨vec, hvec, hv⟩ := h
      cases hv
      have := colorsLoop_length _ _ _ _ _ hvec
      simp [PrimitiveVariable.faceVaryingLength, vectorTypedDataSize, this]

theorem mem_mapSet {κ β : Type} [DecidableEq κ] (m : List (κ × β)) (k : κ) (v : β)
    (x : κ × β) (h : x ∈ mapSet m k v) : x = (k, v) ∨ x ∈ m := by
  induction m with
  | nil =>
    simp only [mapSet, List.mem_singleton] at h
    exact Or.inl h
  | cons y rest ih =>
    obtain ⟨k0, v0⟩ := y
    simp only [mapSet] at h
    split_ifs at h with hk
    · rcases List.mem_cons.mp h with h1 | h1
      · exact Or.inl h1
      · exact Or.inr (List.mem_cons_of_mem _ h1)
    · rcases List.mem_cons.mp h with h1 | h1
      · exact Or.inr (by rw [h1]; exact List.mem_cons_self _ _)
      · rcases ih h1 with h2 | h2
        · exact Or.inl h2
        · exact Or.inr (List.mem_cons_of_mem _ h2)

theorem points_interpolation (fnMesh : MFnMesh) (space : MSpace) (p : PrimitiveVariable)
    (h : points fnMesh space = Except.ok p) :
    p.interpolation = Interpolation.Vertex ∧ p.indices = none := by
  unfold points at h
  simp only at h
  split_ifs at h
  all_goals
    first
    | cases h
    | (rw [bind_eq_ok] at h
       obtain ⟨f, -, hf⟩ := h
       cases hf
       exact ⟨rfl, rfl⟩)

theorem FaceVaryingSized.setVariable (r : MeshPrimitive) (size : PrimitiveVariable → Nat)
    (k : String) (v : PrimitiveVariable) (hr : r.FaceVaryingSized size)
    (hv : v.interpolation = Interpolation.FaceVarying →
      v.faceVaryingLength = some (size v)) :
    (r.setVariable k v).FaceVaryingSized size := by
  intro x hx
  rcases mem_mapSet _ _ _ _ hx with h1 | h1
  · rw [h1]
    exact hv
  · exact hr x h1

theorem FaceVaryingSized.ifStep {c : Prop} [Decidable c]
    (x : Except Failure PrimitiveVariable) (r r2 : MeshPrimitive) (k : String)
    (size : PrimitiveVariable → Nat)
    (h : (if c then (x >>= fun v => pure (r.setVariable k v)) else pure r) = Except.ok r2)
    (hr : r.FaceVaryingSized size)
    (hx : ∀ v, x = Except.ok v → v.faceVaryingLength = some (size v)) :
    r2.FaceVaryingSized size := by
  rcases ifStep_eq_ok x r r2 k h with ⟨-, v, hv, rfl⟩ | ⟨-, rfl⟩
  · exact FaceVaryingSized.setVariable r size k v hr (fun _ => hx v hv)
  · exact hr

theorem FaceVaryingSized.uvSetsLoop (fnMesh : MFnMesh) (cur : String) (vpf : List Int)
    (size : PrimitiveVariable → Nat)
    (hsize : ∀ s v, uvs fnMesh s vpf = Except.ok v → v.faceVaryingLength = some (size v))
    (sets : List String) :
    ∀ (r r2 : MeshPrimitive), uvSetsLoop fnMesh cur vpf sets r = Except.ok r2 →
      r.FaceVaryingSized size → r2.FaceVaryingSized size := by
  induction sets with
  | nil =>
    intro r r2 h hr
    simp only [IECoreMaya.uvSetsLoop] at h
    cases h
    exact hr
  | cons s rest ih =>
    intro r r2 h hr
    simp only [IECoreMaya.uvSetsLoop] at h
    split_ifs at h with hs
    · exact ih r r2 h hr
    · rw [bind_eq_ok] at h
      obtain ⟨v, hv, h2⟩ := h
      exact ih (r.setVariable s v) r2 h2
        (FaceVaryingSized.setVariable r _ s v hr (fun _ => hsize s v hv))

theorem FaceVaryingSized.colorSetsLoop (fnMesh : MFnMesh) (cc ce : Bool) (cur : String)
    (size : PrimitiveVariable → Nat)
    (hsize : ∀ s f v, colors fnMesh s f = Except.ok v →
      v.faceVaryingLength = some (size v))
    (sets : List String) :
    ∀ (r r2 : MeshPrimitive), colorSetsLoop fnMesh cc ce cur sets r = Except.ok r2 →
      r.FaceVaryingSized size → r2.FaceVaryingSized size := by
  induction sets with
  | nil =>
    intro r r2 h hr
    simp only [IECoreMaya.colorSetsLoop] at h
    cases h
    exact hr
  | cons s rest ih =>
    intro r r2 h hr
    simp only [IECoreMaya.colorSetsLoop, bind_eq_ok] at h
    obtain ⟨r3, h3, r4, h4, h5⟩ := h
    have a3 := FaceVaryingSized.ifStep _ _ _ _ _ h3 hr (fun v hv => hsize cur true v hv)
    have a4 := FaceVaryingSized.ifStep _ _ _ _ _ h4 a3 (fun v hv => hsize s false v hv)
    exact ih r4 r2 h5 a4

/-- The conversion uses its "interpolation" parameter only through
`resolveInterpolation`. -/
theorem doPrimitiveConversion_congr_interpolation (fnMesh : MFnMesh) (ps qs : Parameters)
    (hi : resolveInterpolation fnMesh ps.interpolation
            = resolveInterpolation fnMesh qs.interpolation)
    (hc : ps.colors = qs.colors) (he : ps.extraColors = qs.extraColors)
    (hs : ps.space = qs.space) :
    doPrimitiveConversion fnMesh ps = doPrimitiveConversion fnMesh qs := by
  simp only [doPrimitiveConversion, hi, hc, he, hs]

/-- C6: for every host mesh converted with the "interpolation" parameter set to
"default", if the mesh has no "ieMeshInterpolation" attribute, or has one whose
integer value cannot be read, the interpolation is resolved to "linear"; the
conversion then behaves exactly as with the parameter set to "linear" (it returns
the same primitive, and fails only where that conversion fails), and every primitive
it returns has interpolation "linear". -/
theorem doPrimitiveConversion_default_falls_back_to_linear (fnMesh : MFnMesh)
    (parameters : Parameters) (hd : parameters.interpolation = "default")
    (hplug : fnMesh.findPlug "ieMeshInterpolation" = none
      ∨ ∃ plug, fnMesh.findPlug "ieMeshInterpolation" = some plug ∧ plug.asInt = none) :
    resolveInterpolation fnMesh parameters.interpolation = "linear"
      ∧ doPrimitiveConversion fnMesh parameters
          = doPrimitiveConversion fnMesh { parameters with interpolation := "linear" }
      ∧ ∀ r, doPrimitiveConversion fnMesh parameters = Except.ok r →
          r.interpolation = "linear" := by
  have h1 : resolveInterpolation fnMesh parameters.interpolation = "linear" := by
    rw [hd]
    rcases hplug with hn | ⟨plug, hp, ha⟩
    · simp [resolveInterpolation, hn]
    · simp [resolveInterpolation, hp, ha]
  have h2 : resolveInterpolation fnMesh "linear" = "linear" := by
    simp [resolveInterpolation]
  refine ⟨h1, ?_, ?_⟩
  · exact doPrimitiveConversion_congr_interpolation fnMesh parameters _
      (by rw [h1, h2]) rfl rfl rfl
  · intro r hr
    rw [(doPrimitiveConversion_topology fnMesh parameters r hr).2, h1]

/-- C6, at concrete inputs: the cube has no "ieMeshInterpolation" attribute, and
converted with "default" it yields the primitive of the "linear" conversion, with
interpolation "linear"; so does the cube whose attribute cannot be read. -/
theorem doPrimitiveConversion_default_falls_back_to_linear_witness :
    defaultParameters.interpolation = "default"
      ∧ cubeMesh.findPlug "ieMeshInterpolation" = none
      ∧ doPrimitiveConversion cubeMesh defaultParameters = Except.ok cubeResult
      ∧ cubeResult.interpolation = "linear"
      ∧ resolveInterpolation unreadablePlugMesh "default" = "linear" :=
  ⟨rfl, rfl,
   ((doPrimitiveConversion_default_falls_back_to_linear cubeMesh defaultParameters rfl
      (Or.inl rfl)).2.1).trans (by decide),
   rfl,
   (doPrimitiveConversion_default_falls_back_to_linear unreadablePlugMesh defaultParameters
      rfl (Or.inr ⟨{ asInt := none }, by decide, rfl⟩)).1⟩

/-! ### Which variable is stored under a name -/

theorem mapFind_mapSet {κ β : Type} [DecidableEq κ] (m : List (κ × β)) (k k2 : κ) (v : β) :
    mapFind (mapSet m k v) k2 = if k = k2 then some v else mapFind m k2 := by
  induction m with
  | nil => simp [mapSet, mapFind]
  | cons y rest ih =>
    obtain ⟨k0, v0⟩ := y
    simp only [mapSet]
    split_ifs with h1 h2 h2
    · simp [mapFind, h2]
    · subst h1
      simp [mapFind, h2]
    · subst h2
      simp [mapFind, h1, ih]
    · simp only [mapFind, ih, if_neg h2]

theorem variable_setVariable (r : MeshPrimitive) (k k2 : String) (v : PrimitiveVariable) :
    (r.setVariable k v).variable k2 = if k = k2 then some v else r.variable k2 := by
  simp [MeshPrimitive.variable, MeshPrimitive.setVariable, mapFind_mapSet]

theorem ifStep_variable_ne {c : Prop} [Decidable c] (x : Except Failure PrimitiveVariable)
    (r r2 : MeshPrimitive) (k k2 : String) (hk : k ≠ k2)
    (h : (if c then (x >>= fun v => pure (r.setVariable k v)) else pure r) = Except.ok r2) :
    r2.variable k2 = r.variable k2 := by
  rcases ifStep_eq_ok x r r2 k h with ⟨-, v, -, rfl⟩ | ⟨-, rfl⟩
  · rw [variable_setVariable, if_neg hk]
  · rfl

theorem uvSetsLoop_variable (fnMesh : MFnMesh) (cur : String) (vpf : List Int) (k : String)
    (sets : List String) :
    ∀ (r r2 : MeshPrimitive), (∀ s ∈ sets, s ≠ cur → s ≠ k) →
      uvSetsLoop fnMesh cur vpf sets r = Except.ok r2 → r2.variable k = r.variable k := by
  induction sets with
  | nil =>
    intro r r2 _ h
    simp only [uvSetsLoop] at h
    cases h
    rfl
  | cons s rest ih =>
    intro r r2 hk h
    have hrest : ∀ t ∈ rest, t ≠ cur → t ≠ k :=
      fun t ht => hk t (List.mem_cons_of_mem s ht)
    simp only [uvSetsLoop] at h
    split_ifs at h with hs
    · exact ih r r2 hrest h
    · rw [bind_eq_ok] at h
      obtain ⟨v, -, h2⟩ := h
      rw [ih (r.setVariable s v) r2 hrest h2, variable_setVariable,
        if_neg (hk s (List.mem_cons_self s rest) hs)]

theorem colorSetsLoop_variable (fnMesh : MFnMesh) (cc ce : Bool) (cur : String) (k : String)
    (hCs : "Cs" ≠ k) (hk : ∀ s : String, s ++ "_Cs" ≠ k) (sets : List String) :
    ∀ (r r2 : MeshPrimitive),
      colorSetsLoop fnMesh cc ce cur sets r = Except.ok r2 → r2.variable k = r.variable k := by
  induction sets with
  | nil =>
    intro r r2 h
    simp only [colorSetsLoop] at h
    cases h
    rfl
  | cons s rest ih =>
    intro r r2 h
    simp only [colorSetsLoop, bind_eq_ok] at h
    obtain ⟨r3, h3, r4, h4, h5⟩ := h
    rw [ih r4 r2 h5, ifStep_variable_ne _ _ _ _ _ (hk s) h4,
      ifStep_variable_ne _ _ _ _ _ hCs h3]

theorem append_Cs_length (s : String) : (s ++ "_Cs").length = s.length + 3 := by
  rw [String.length_append]
  rfl

theorem append_Cs_ne_of_length (s k : String) (hk : k.length < 3) : s ++ "_Cs" ≠ k := by
  intro h
  have := append_Cs_length s
  rw [h] at this
  omega

/-- The variables "P" and "N" of a returned primitive, for a mesh none of whose UV
sets other than the current one bears the name. -/
theorem variable_of_reserved_name (fnMesh : MFnMesh) (ps : Parameters) (r : MeshPrimitive)
    (k : String) (hlen : k.length < 3) (huv : "uv" ≠ k) (hCs : "Cs" ≠ k)
    (hsets : ∀ s ∈ fnMesh.getUVSetNames, s ≠ fnMesh.getCurrentUVSetName → s ≠ k)
    (h : doPrimitiveConversion fnMesh ps = Except.ok r) :
    ∃ (topo : List Int × List Int) (p : PrimitiveVariable) (r1 : MeshPrimitive),
      points fnMesh ps.space = Except.ok p
      ∧ (if resolveInterpolation fnMesh ps.interpolation = "linear" then
            (normals fnMesh ps.space >>= fun n =>
              pure ((({ verticesPerFace := topo.1, vertexIds := topo.2,
                        interpolation := resolveInterpolation fnMesh ps.interpolation,
                        primitiveVariables := [] } : MeshPrimitive).setVariable "P" p).setVariable
                      "N" n))
          else pure (({ verticesPerFace := topo.1, vertexIds := topo.2,
                        interpolation := resolveInterpolation fnMesh ps.interpolation,
                        primitiveVariables := [] } : MeshPrimitive).setVariable "P" p))
          = Except.ok r1
      ∧ r.variable k = r1.variable k := by
  obtain ⟨topo, p, r1, r2, r3, -, hp, h1, h2, h3, h4⟩ :=
    doPrimitiveConversion_eq_ok fnMesh ps r h
  refine ⟨topo, p, r1, hp, h1, ?_⟩
  have e2 := ifStep_variable_ne _ _ _ _ _ huv h2
  have e3 := uvSetsLoop_variable _ _ _ k _ _ _ hsets h3
  have e4 : r.variable k = r3.variable k := by
    split_ifs at h4 with hc
    · exact colorSetsLoop_variable _ _ _ _ k hCs
        (fun s => append_Cs_ne_of_length s k hlen) _ _ _ h4
    · cases h4
      rfl
  rw [e4, e3, e2]

/-- A variable once stored stays stored: assignment. -/
theorem variable_isSome_setVariable (r : MeshPrimitive) (k k2 : String)
    (v : PrimitiveVariable) (h : (r.variable k2).isSome = true) :
    ((r.setVariable k v).variable k2).isSome = true := by
  rw [variable_setVariable]
  split_ifs
  · rfl
  · exact h

/-- A variable once stored stays stored: a guarded step. -/
theorem variable_isSome_ifStep {c : Prop} [Decidable c] (x : Except Failure PrimitiveVariable)
    (r r2 : MeshPrimitive) (k k2 : String)
    (h : (if c then (x >>= fun v => pure (r.setVariable k v)) else pure r) = Except.ok r2)
    (hk : (r.variable k2).isSome = true) : (r2.variable k2).isSome = true := by
  rcases ifStep_eq_ok x r r2 k h with ⟨-, v, -, rfl⟩ | ⟨-, rfl⟩
  · exact variable_isSome_setVariable r k k2 v hk
  · exact hk

/-- A variable once stored stays stored: the loop over the UV sets. -/
theorem variable_isSome_uvSetsLoop (fnMesh : MFnMesh) (cur : String) (vpf : List Int)
    (k : String) (sets : List String) :
    ∀ (r r2 : MeshPrimitive), uvSetsLoop fnMesh cur vpf sets r = Except.ok r2 →
      (r.variable k).isSome = true → (r2.variable k).isSome = true := by
  induction sets with
  | nil =>
    intro r r2 h hk
    simp only [uvSetsLoop] at h
    cases h
    exact hk
  | cons s rest ih =>
    intro r r2 h hk
    simp only [uvSetsLoop] at h
    split_ifs at h with hs
    · exact ih r r2 h hk
    · rw [bind_eq_ok] at h
      obtain ⟨v, -, h2⟩ := h
      exact ih _ r2 h2 (variable_isSome_setVariable r s k v hk)

/-- A variable once stored stays stored: the loop over the colour sets. -/
theorem variable_isSome_colorSetsLoop (fnMesh : MFnMesh) (cc ce : Bool) (cur : String)
    (k : String) (sets : List String) :
    ∀ (r r2 : MeshPrimitive), colorSetsLoop fnMesh cc ce cur sets r = Except.ok r2 →
      (r.variable k).isSome = true → (r2.variable k).isSome = true := by
  induction sets with
  | nil =>
    intro r r2 h hk
    simp only [colorSetsLoop] at h
    cases h
    exact hk
  | cons s rest ih =>
    intro r r2 h hk
    simp only [colorSetsLoop, bind_eq_ok] at h
    obtain ⟨r3, h3, r4, h4, h5⟩ := h
    exact ih r4 r2 h5
      (variable_isSome_ifStep _ _ _ _ k h4 (variable_isSome_ifStep _ _ _ _ k h3 hk))

/-- Every returned primitive has a variable "P", and a variable "N" when its
interpolation is "linear". -/
theorem variable_P_N_isSome (fnMesh : MFnMesh) (ps : Parameters) (r : MeshPrimitive)
    (h : doPrimitiveConversion fnMesh ps = Except.ok r) :
    (r.variable "P").isSome = true
      ∧ (r.interpolation = "linear" → (r.variable "N").isSome = true) := by
  have hi := (doPrimitiveConversion_topology fnMesh ps r h).2
  obtain ⟨topo, p, r1, r2, r3, -, hp, h1, h2, h3, h4⟩ :=
    doPrimitiveConversion_eq_ok fnMesh ps r h
  have later : ∀ k, (r1.variable k).isSome = true → (r.variable k).isSome = true := by
    intro k hk
    have a2 := variable_isSome_ifStep _ _ _ _ k h2 hk
    have a3 := variable_isSome_uvSetsLoop _ _ _ k _ _ _ h3 a2
    split_ifs at h4 with hc
    · exact variable_isSome_colorSetsLoop _ _ _ _ k _ _ _ h4 a3
    · cases h4
      exact a3
  refine ⟨later "P" ?_, fun hl => later "N" ?_⟩
  · apply variable_isSome_ifStep _ _ _ _ "P" h1
    rw [variable_setVariable, if_pos rfl]
    rfl
  · rw [hi] at hl
    rw [if_pos hl, bind_eq_ok] at h1
    obtain ⟨n, -, hr1⟩ := h1
    cases hr1
    rw [variable_setVariable, if_pos rfl]
    rfl

/-- C7, as amended: for every host mesh, every parameter setting and every primitive
the conversion returns: if the mesh has no UV set named "N" other than its current
UV set, then a primitive whose interpolation is "linear" has under "N" the
face-varying variable made by `normals()`, and a primitive with any other
interpolation (such as "catmullClark") has no variable "N"; if the mesh has no UV
set named "P" other than its current UV set, then "P" is the vertex-rate variable
made by `points()`. In every case a variable "P" is present, and a variable "N" is
present when the interpolation is "linear". -/
theorem doPrimitiveConversion_normals_iff_linear (fnMesh : MFnMesh)
    (parameters : Parameters) (r : MeshPrimitive)
    (h : doPrimitiveConversion fnMesh parameters = Except.ok r) :
    ((∀ s ∈ fnMesh.getUVSetNames, s ≠ fnMesh.getCurrentUVSetName → s ≠ "N") →
        (r.interpolation = "linear" →
            ∃ n, normals fnMesh parameters.space = Except.ok n ∧ r.variable "N" = some n
              ∧ n.interpolation = Interpolation.FaceVarying)
          ∧ (r.interpolation ≠ "linear" → r.variable "N" = none))
      ∧ ((∀ s ∈ fnMesh.getUVSetNames, s ≠ fnMesh.getCurrentUVSetName → s ≠ "P") →
          ∃ p, points fnMesh parameters.space = Except.ok p ∧ r.variable "P" = some p
            ∧ p.interpolation = Interpolation.Vertex)
      ∧ (r.variable "P").isSome = true
      ∧ (r.interpolation = "linear" → (r.variable "N").isSome = true) := by
  have hi := (doPrimitiveConversion_topology fnMesh parameters r h).2
  obtain ⟨hPsome, hNsome⟩ := variable_P_N_isSome fnMesh parameters r h
  refine ⟨?_, ?_, hPsome, hNsome⟩
  · intro hN
    obtain ⟨topo, p, r1, hp, h1, e1⟩ :=
      variable_of_reserved_name fnMesh parameters r "N" (by decide) (by decide) (by decide)
        hN h
    refine ⟨?_, ?_⟩
    · intro hl
      rw [hi] at hl
      rw [if_pos hl, bind_eq_ok] at h1
      obtain ⟨n, hn, hr1⟩ := h1
      cases hr1
      refine ⟨n, hn, ?_, ?_⟩
      · rw [e1, variable_setVariable, if_pos rfl]
      · unfold normals at hn
        split_ifs at hn
        · rw [bind_eq_ok] at hn
          obtain ⟨l, -, hv⟩ := hn
          cases hv
          rfl
        · cases hn
          rfl
    · intro hl
      rw [hi] at hl
      rw [if_neg hl] at h1
      cases h1
      rw [e1, variable_setVariable, if_neg (by decide)]
      rfl
  · intro hP
    obtain ⟨topo2, p2, r12, hp2, h12, e2⟩ :=
      variable_of_reserved_name fnMesh parameters r "P" (by decide) (by decide) (by decide)
        hP h
    refine ⟨p2, hp2, ?_, (points_interpolation _ _ _ hp2).1⟩
    rw [e2]
    rcases ifStep_eq_ok _ _ _ _ h12 with ⟨-, n, -, rfl⟩ | ⟨-, rfl⟩
    · rw [variable_setVariable, if_neg (by decide), variable_setVariable, if_pos rfl]
    · rw [variable_setVariable, if_pos rfl]

/-- C7, the amended statement at concrete inputs: the cube has only its current UV
set; converted as a polygon mesh it has the normals under "N", and converted as a
subdivision mesh the conversion returns a primitive without "N". The cube with two
more UV sets named "N" and "P" still has a variable "P". -/
theorem doPrimitiveConversion_normals_iff_linear_witness :
    (∀ s ∈ cubeMesh.getUVSetNames, s ≠ cubeMesh.getCurrentUVSetName → s ≠ "N")
      ∧ doPrimitiveConversion cubeMesh polyParameters = Except.ok cubeResult
      ∧ (∃ n, normals cubeMesh polyParameters.space = Except.ok n
          ∧ cubeResult.variable "N" = some n ∧ n.interpolation = Interpolation.FaceVarying)
      ∧ (doPrimitiveConversion cubeMesh subdivParameters).toOption.map
          (fun r => (r.interpolation, r.variable "N")) = some ("catmullClark", none) :=
  ⟨by decide, by decide,
   ((doPrimitiveConversion_normals_iff_linear cubeMesh polyParameters cubeResult
      (by decide)).1 (by decide)).1 rfl,
   by decide⟩

/-- C7 as stated fails: the cube with two more UV sets named "N" and "P", converted as
a subdivision mesh, returns a primitive of interpolation "catmullClark" that has a
face-varying variable "N" (the UV set of that name); converted as a polygon mesh, the
variable under "N" is that UV set (it has an index list) and not the normals; and the
variable under "P" is face-varying, not the vertex-rate positions. -/
theorem doPrimitiveConversion_uv_set_named_N_counterexample :
    (doPrimitiveConversion uvSetNamedNMesh subdivParameters).toOption.map
        (fun r => (r.interpolation, (r.variable "N").map (fun v => v.interpolation)))
        = some ("catmullClark", some Interpolation.FaceVarying)
      ∧ (doPrimitiveConversion uvSetNamedNMesh polyParameters).toOption.map
          (fun r => (r.interpolation, (r.variable "N").map (fun v => v.indices.isSome)))
          = some ("linear", some true)
      ∧ (normals uvSetNamedNMesh polyParameters.space).toOption.map
          (fun v => v.indices.isSome) = some false
      ∧ (doPrimitiveConversion uvSetNamedNMesh polyParameters).toOption.map
          (fun r => (r.variable "P").map (fun v => v.interpolation))
          = some (some Interpolation.FaceVarying) := by
  refine ⟨by decide, by decide, by decide, by decide⟩

/-! ### The colour channels -/

theorem readAt_eq_ok {α : Type} (a : List α) (i : Nat) (h : i < a.length) :
    readAt a i = Except.ok (a.get ⟨i, h⟩) := by
  simp [readAt, List.getElem?_eq_getElem h]

/-- The loop of `colors()` succeeds when it stays inside both arrays, and then entry
`i` of the result is the converted colour for `i` below the bound and the old entry
otherwise. -/
theorem colorsLoop_spec {β : Type} (conv : MColor → β) (cols : List MColor) :
    ∀ (n : Nat) (vec : List β), n ≤ cols.length → n ≤ vec.length →
      ∃ out, colorsLoop conv cols n vec = Except.ok out ∧ out.length = vec.length
        ∧ ∀ i, out[i]? = if i < n then (cols[i]?).map conv else vec[i]? := by
  intro n
  induction n with
  | zero =>
    intro vec _ _
    exact ⟨vec, rfl, rfl, fun i => by simp⟩
  | succ n ih =>
    intro vec h1 h2
    obtain ⟨filled, hf, hl, hi⟩ := ih vec (by omega) (by omega)
    have hn : n < cols.length := by omega
    refine ⟨filled.set n (conv (cols.get ⟨n, hn⟩)), ?_, ?_, ?_⟩
    · simp only [colorsLoop, hf, bind, Except.bind, readAt_eq_ok cols n hn, writeAt]
      rw [if_pos (by omega)]
    · simp [hl]
    · intro i
      rw [List.getElem?_set]
      by_cases hin : n = i
      · subst hin
        simp [hl, h2, List.getElem?_eq_getElem hn]
        omega
      · rw [if_neg hin, hi i]
        by_cases h3 : i < n
        · simp [h3, Nat.lt_succ_of_lt h3]
        · have : ¬ i < n + 1 := by omega
          simp [h3, this]

theorem colorsLoop_eq_padded {β : Type} (conv : MColor → β) (dflt : β) (cols : List MColor)
    (n : Nat) :
    colorsLoop conv cols (if cols.length > n then n else cols.length) (List.replicate n dflt)
      = Except.ok (paddedColors conv dflt cols n) := by
  have ha : (if cols.length > n then n else cols.length) ≤ cols.length := by
    split_ifs <;> omega
  have hb : (if cols.length > n then n else cols.length) ≤ (List.replicate n dflt).length := by
    rw [List.length_replicate]
    split_ifs <;> omega
  obtain ⟨out, ho, hl, hi⟩ := colorsLoop_spec conv cols _ _ ha hb
  rw [ho]
  congr 1
  apply List.ext_getElem?
  intro i
  rw [hi i]
  simp only [paddedColors, List.getElem?_map, List.getElem?_replicate]
  by_cases hin : i < n
  · rw [List.getElem?_range hin]
    simp only [hin, if_true, Option.map_some']
    by_cases hic : i < cols.length
    · have h1 : i < (if cols.length > n then n else cols.length) := by
        split_ifs <;> omega
      simp [h1, List.getElem?_eq_getElem hic]
    · have h1 : ¬ i < (if cols.length > n then n else cols.length) := by
        split_ifs <;> omega
      have h2 : cols[i]? = none := List.getElem?_eq_none (by omega)
      simp [h1, h2]
  · have h1 : ¬ i < (if cols.length > n then n else cols.length) := by
      split_ifs <;> omega
    have h2 : (List.range n)[i]? = none := List.getElem?_eq_none (by simp; omega)
    simp [h1, h2, hin]

theorem paddedColors_length {β : Type} (conv : MColor → β) (dflt : β) (cols : List MColor)
    (n : Nat) : (paddedColors conv dflt cols n).length = n := by
  simp [paddedColors]

theorem paddedColors_getElem? {β : Type} (conv : MColor → β) (dflt : β) (cols : List MColor)
    (n i : Nat) (hi : i < n) :
    (paddedColors conv dflt cols n)[i]? = some (((cols[i]?).map conv).getD dflt) := by
  simp [paddedColors, List.getElem?_range hi]

/-- What `colors()` returns when the host reads the colour set. -/
theorem colors_of_read (fnMesh : MFnMesh) (colorSet : String) (forceRgb : Bool)
    (cols : List MColor) (h : fnMesh.getFaceVertexColors colorSet = some cols) :
    colors fnMesh colorSet forceRgb
      = if fnMesh.getColorRepresentation colorSet = MColorRepresentation.kAlpha then
          if forceRgb = true then
            Except.ok ⟨Interpolation.FaceVarying,
              Data.Color3fVectorData (paddedColors (fun c => (⟨c.a, c.a, c.a⟩ : Color3f))
                ⟨1, 1, 1⟩ cols fnMesh.numFaceVertices), none⟩
          else
            Except.ok ⟨Interpolation.FaceVarying,
              Data.FloatVectorData (paddedColors (fun c => c.a) 1 cols
                fnMesh.numFaceVertices), none⟩
        else
          if fnMesh.getColorRepresentation colorSet = MColorRepresentation.kRGB
              ∨ forceRgb = true then
            Except.ok ⟨Interpolation.FaceVarying,
              Data.Color3fVectorData (paddedColors (fun c => (⟨c.r, c.g, c.b⟩ : Color3f))
                ⟨0, 0, 0⟩ cols fnMesh.numFaceVertices), none⟩
          else
            Except.ok ⟨Interpolation.FaceVarying,
              Data.Color4fVectorData (paddedColors (fun c => (⟨c.r, c.g, c.b, c.a⟩ : Color4f))
                ⟨0, 0, 0, 1⟩ cols fnMesh.numFaceVertices), none⟩ := by
  simp only [colors, h, colorsLoop_eq_padded, bind, Except.bind, pure, Except.pure]

theorem colors_of_read_failure (fnMesh : MFnMesh) (colorSet : String) (forceRgb : Bool)
    (h : fnMesh.getFaceVertexColors colorSet = none) :
    colors fnMesh colorSet forceRgb
      = Except.error (Failure.exception (colorsFailure colorSet)) := by
  simp only [colors, h]

theorem colors_isOk_of_read (fnMesh : MFnMesh) (colorSet : String) (forceRgb : Bool)
    (cols : List MColor) (h : fnMesh.getFaceVertexColors colorSet = some cols) :
    ∃ v, colors fnMesh colorSet forceRgb = Except.ok v := by
  rw [colors_of_read fnMesh colorSet forceRgb cols h]
  split_ifs <;> exact ⟨_, rfl⟩

/-- C8: for every colour set whose representation is alpha-only and which the host
reads, `colors( colorSet, true )` returns a face-varying `Color3fVectorData` with one
colour per face corner (`numFaceVertices()` entries), and for every corner index `i`
for which the host returned a colour, the three components of entry `i` equal
component 3 (alpha) of that colour. -/
theorem colors_alpha_forceRgb (fnMesh : MFnMesh) (colorSet : String) (cols : List MColor)
    (hrep : fnMesh.getColorRepresentation colorSet = MColorRepresentation.kAlpha)
    (hread : fnMesh.getFaceVertexColors colorSet = some cols) :
    ∃ vec : List Color3f,
      colors fnMesh colorSet true
          = Except.ok ⟨Interpolation.FaceVarying, Data.Color3fVectorData vec, none⟩
        ∧ vec.length = fnMesh.numFaceVertices
        ∧ ∀ i c, i < fnMesh.numFaceVertices → cols[i]? = some c →
            vec[i]? = some ⟨c.a, c.a, c.a⟩ := by
  refine ⟨paddedColors (fun c => (⟨c.a, c.a, c.a⟩ : Color3f)) ⟨1, 1, 1⟩ cols
    fnMesh.numFaceVertices, ?_, paddedColors_length _ _ _ _, ?_⟩
  · rw [colors_of_read fnMesh colorSet true cols hread, if_pos hrep, if_pos rfl]
  · intro i c hi hc
    rw [paddedColors_getElem? _ _ _ _ _ hi, hc]
    rfl

/-- C8, at a concrete input: the alpha-only set "mask" of the painted cube, for which
the host returns alphas 3 and 5, gives (3,3,3) and (5,5,5) in the first two of 24
entries. -/
theorem colors_alpha_forceRgb_witness :
    paintedCubeMesh.getColorRepresentation "mask" = MColorRepresentation.kAlpha
      ∧ paintedCubeMesh.getFaceVertexColors "mask" = some [⟨0, 0, 0, 3⟩, ⟨1, 1, 1, 5⟩]
      ∧ ∃ vec : List Color3f,
          colors paintedCubeMesh "mask" true
              = Except.ok ⟨Interpolation.FaceVarying, Data.Color3fVectorData vec, none⟩
            ∧ vec.length = 24 ∧ vec[0]? = some ⟨3, 3, 3⟩ ∧ vec[1]? = some ⟨5, 5, 5⟩ := by
  refine ⟨by decide, by decide, ?_⟩
  obtain ⟨vec, h1, h2, h3⟩ :=
    colors_alpha_forceRgb paintedCubeMesh "mask" [⟨0, 0, 0, 3⟩, ⟨1, 1, 1, 5⟩]
      (by decide) (by decide)
  exact ⟨vec, h1, h2, h3 0 ⟨0, 0, 0, 3⟩ (by decide) rfl, h3 1 ⟨1, 1, 1, 5⟩ (by decide) rfl⟩

/-- C9: for every colour set the host reads, whatever number of colours it returned,
`colors()` returns a face-varying variable whose data is the padded array of exactly
`numFaceVertices()` entries: entry `i` is the converted host colour `i` when the host
returned one (so surplus host colours are dropped) and the fixed default otherwise.
The conversion and default are: alpha replicated and (1,1,1) for an alpha-only set
forced to RGB; alpha and 1 for an alpha-only set; (r,g,b) and (0,0,0) for RGB output;
(r,g,b,a) and (0,0,0,1) for RGBA output. -/
theorem colors_padded_to_numFaceVertices (fnMesh : MFnMesh) (colorSet : String)
    (forceRgb : Bool) (cols : List MColor)
    (hread : fnMesh.getFaceVertexColors colorSet = some cols) :
    colors fnMesh colorSet forceRgb
        = (if fnMesh.getColorRepresentation colorSet = MColorRepresentation.kAlpha then
            if forceRgb = true then
              Except.ok ⟨Interpolation.FaceVarying,
                Data.Color3fVectorData (paddedColors (fun c => (⟨c.a, c.a, c.a⟩ : Color3f))
                  ⟨1, 1, 1⟩ cols fnMesh.numFaceVertices), none⟩
            else
              Except.ok ⟨Interpolation.FaceVarying,
                Data.FloatVectorData (paddedColors (fun c => c.a) 1 cols
                  fnMesh.numFaceVertices), none⟩
          else
            if fnMesh.getColorRepresentation colorSet = MColorRepresentation.kRGB
                ∨ forceRgb = true then
              Except.ok ⟨Interpolation.FaceVarying,
                Data.Color3fVectorData (paddedColors (fun c => (⟨c.r, c.g, c.b⟩ : Color3f))
                  ⟨0, 0, 0⟩ cols fnMesh.numFaceVertices), none⟩
            else
              Except.ok ⟨Interpolation.FaceVarying,
                Data.Color4fVectorData
                  (paddedColors (fun c => (⟨c.r, c.g, c.b, c.a⟩ : Color4f))
                    ⟨0, 0, 0, 1⟩ cols fnMesh.numFaceVertices), none⟩)
      ∧ (∀ v, colors fnMesh colorSet forceRgb = Except.ok v →
          vectorTypedDataSize v.data = some fnMesh.numFaceVertices)
      ∧ (∀ (β : Type) (conv : MColor → β) (dflt : β),
          (paddedColors conv dflt cols fnMesh.numFaceVertices).length = fnMesh.numFaceVertices
            ∧ (∀ i c, i < fnMesh.numFaceVertices → cols[i]? = some c →
                (paddedColors conv dflt cols fnMesh.numFaceVertices)[i]? = some (conv c))
            ∧ (∀ i, i < fnMesh.numFaceVertices → cols.length ≤ i →
                (paddedColors conv dflt cols fnMesh.numFaceVertices)[i]? = some dflt)) := by
  refine ⟨colors_of_read fnMesh colorSet forceRgb cols hread, ?_, ?_⟩
  · intro v hv
    obtain ⟨-, hi, hl⟩ := colors_faceVaryingLength fnMesh colorSet forceRgb v hv
    simpa [PrimitiveVariable.faceVaryingLength, hi] using hl
  · intro β conv dflt
    refine ⟨paddedColors_length _ _ _ _, ?_, ?_⟩
    · intro i c hi hc
      rw [paddedColors_getElem? _ _ _ _ _ hi, hc]
      rfl
    · intro i hi hc
      rw [paddedColors_getElem? _ _ _ _ _ hi, List.getElem?_eq_none hc]
      rfl

/-- C9, at concrete inputs: for the painted cube (24 face corners) the alpha-only set
"mask", with two host colours, converts without forcing to 3, 5 and then 22 times the
default 1; the RGBA set "paint", with 25 host colours, converts to exactly 24 entries
(2,3,4,1). -/
theorem colors_padded_to_numFaceVertices_witness :
    paintedCubeMesh.getFaceVertexColors "mask" = some [⟨0, 0, 0, 3⟩, ⟨1, 1, 1, 5⟩]
      ∧ colors paintedCubeMesh "mask" false
          = Except.ok ⟨Interpolation.FaceVarying,
              Data.FloatVectorData (3 :: 5 :: List.replicate 22 1), none⟩
      ∧ colors paintedCubeMesh "paint" false
          = Except.ok ⟨Interpolation.FaceVarying,
              Data.Color4fVectorData (List.replicate 24 ⟨2, 3, 4, 1⟩), none⟩ :=
  ⟨by decide,
   ((colors_padded_to_numFaceVertices paintedCubeMesh "mask" false
      [⟨0, 0, 0, 3⟩, ⟨1, 1, 1, 5⟩] (by decide)).1).trans (by decide),
   by decide⟩

/-! ### Failure of a colour set read -/

theorem colors_error_iff (fnMesh : MFnMesh) (colorSet : String) (forceRgb : Bool) :
    (∃ e, colors fnMesh colorSet forceRgb = Except.error e)
      ↔ fnMesh.getFaceVertexColors colorSet = none := by
  constructor
  · rintro ⟨e, he⟩
    cases hg : fnMesh.getFaceVertexColors colorSet with
    | none => rfl
    | some cols =>
      obtain ⟨v, hv⟩ := colors_isOk_of_read fnMesh colorSet forceRgb cols hg
      rw [hv] at he
      cases he
  · intro h
    exact ⟨_, colors_of_read_failure fnMesh colorSet forceRgb h⟩

/-- A guarded step that converts a colour set either fails with the exception of
`colors()`, the read having failed, or returns. -/
theorem ifStep_colors {c : Prop} [Decidable c] (fnMesh : MFnMesh) (colorSet : String)
    (forceRgb : Bool) (r : MeshPrimitive) (k : String) :
    (c ∧ fnMesh.getFaceVertexColors colorSet = none
        ∧ (if c then (colors fnMesh colorSet forceRgb >>= fun v => pure (r.setVariable k v))
            else pure r)
          = Except.error (Failure.exception (colorsFailure colorSet)))
      ∨ ((c → fnMesh.getFaceVertexColors colorSet ≠ none)
        ∧ ∃ r2, (if c then (colors fnMesh colorSet forceRgb >>= fun v =>
                    pure (r.setVariable k v))
                  else pure r) = Except.ok r2) := by
  by_cases hc : c
  · cases hg : fnMesh.getFaceVertexColors colorSet with
    | none =>
      left
      refine ⟨hc, rfl, ?_⟩
      rw [if_pos hc, colors_of_read_failure fnMesh colorSet forceRgb hg]
      rfl
    | some cols =>
      right
      obtain ⟨v, hv⟩ := colors_isOk_of_read fnMesh colorSet forceRgb cols hg
      refine ⟨fun _ h => Option.noConfusion h, r.setVariable k v, ?_⟩
      rw [if_pos hc, hv]
      rfl
  · right
    exact ⟨fun h => absurd h hc, r, by rw [if_neg hc]; rfl⟩

/-- The loop over the colour sets fails with the exception of `colors()` for the
first set it reads whose read fails. -/
theorem colorSetsLoop_error (fnMesh : MFnMesh) (cc ce : Bool) (cur : String)
    (sets : List String) :
    ∀ (r : MeshPrimitive),
      (∃ cs ∈ sets, ((cc = true ∧ cs = cur) ∨ ce = true)
        ∧ fnMesh.getFaceVertexColors cs = none) →
      ∃ cs ∈ sets, ((cc = true ∧ cs = cur) ∨ ce = true)
        ∧ fnMesh.getFaceVertexColors cs = none
        ∧ colorSetsLoop fnMesh cc ce cur sets r
            = Except.error (Failure.exception (colorsFailure cs)) := by
  induction sets with
  | nil =>
    rintro r ⟨cs, hcs, -⟩
    cases hcs
  | cons s rest ih =>
    rintro r ⟨cs, hcs, hreq, hfail⟩
    rcases ifStep_colors (c := cc = true ∧ s = cur) fnMesh cur true r "Cs" with
      ⟨hc, hg, hX⟩ | ⟨hok1, r1, hX⟩
    · have hs : s = cur := hc.2
      refine ⟨s, List.mem_cons_self s rest, Or.inl hc, (by rw [hs]; exact hg), ?_⟩
      simp only [colorSetsLoop]
      rw [hX, error_bind, hs]
    · rcases ifStep_colors (c := ce = true) fnMesh s false r1 (s ++ "_Cs") with
        ⟨hc, hg, hY⟩ | ⟨hok2, r2, hY⟩
      · refine ⟨s, List.mem_cons_self s rest, Or.inr hc, hg, ?_⟩
        simp only [colorSetsLoop]
        rw [hX, ok_bind, hY, error_bind]
      · have hrest : ∃ cs ∈ rest, ((cc = true ∧ cs = cur) ∨ ce = true)
            ∧ fnMesh.getFaceVertexColors cs = none := by
          rcases List.mem_cons.mp hcs with h1 | h1
          · subst h1
            rcases hreq with hl | hr
            · exact absurd (by rw [← hl.2]; exact hfail) (hok1 hl)
            · exact absurd hfail (hok2 hr)
          · exact ⟨cs, h1, hreq, hfail⟩
        obtain ⟨cs2, hm, hq, hf, hE⟩ := ih r2 hrest
        refine ⟨cs2, List.mem_cons_of_mem s hm, hq, hf, ?_⟩
        simp only [colorSetsLoop]
        rw [hX, ok_bind, hY, ok_bind]
        exact hE

/-! ### Independence of the steps before the colour sets from the colour queries -/

theorem objectNormalsLoop_withFaceVertexColors (fnMesh : MFnMesh)
    (g : String → Option (List MColor)) (n : Nat) :
    objectNormalsLoop (fnMesh.withFaceVertexColors g) n = objectNormalsLoop fnMesh n := by
  induction n with
  | zero => rfl
  | succ n ih =>
    simp only [objectNormalsLoop, ih]
    rfl

theorem spaceNormalsLoop_withFaceVertexColors (fnMesh : MFnMesh)
    (g : String → Option (List MColor)) (space : MSpace) (n : Nat) :
    spaceNormalsLoop (fnMesh.withFaceVertexColors g) space n
      = spaceNormalsLoop fnMesh space n := by
  induction n with
  | zero => rfl
  | succ n ih =>
    simp only [spaceNormalsLoop, ih]
    rfl

theorem normals_withFaceVertexColors (fnMesh : MFnMesh)
    (g : String → Option (List MColor)) (space : MSpace) :
    normals (fnMesh.withFaceVertexColors g) space = normals fnMesh space := by
  simp only [normals, objectNormalsLoop_withFaceVertexColors,
    spaceNormalsLoop_withFaceVertexColors]
  rfl

theorem uvSetsLoop_withFaceVertexColors (fnMesh : MFnMesh)
    (g : String → Option (List MColor)) (cur : String) (vpf : List Int)
    (sets : List String) :
    ∀ r, uvSetsLoop (fnMesh.withFaceVertexColors g) cur vpf sets r
      = uvSetsLoop fnMesh cur vpf sets r := by
  induction sets with
  | nil => intro r; rfl
  | cons s rest ih =>
    intro r
    simp only [uvSetsLoop, ih]
    rfl

theorem doPrimitiveConversion_withFaceVertexColors (fnMesh : MFnMesh)
    (g : String → Option (List MColor)) (ps : Parameters)
    (hc : ps.colors = false) (he : ps.extraColors = false) :
    doPrimitiveConversion (fnMesh.withFaceVertexColors g) ps
      = doPrimitiveConversion fnMesh ps := by
  simp only [doPrimitiveConversion, hc, he, normals_withFaceVertexColors,
    uvSetsLoop_withFaceVertexColors]
  rfl

/-- The conversion with the colour parameters on is the conversion with them off
followed by the loop over the colour sets. -/
theorem doPrimitiveConversion_colors_off (fnMesh : MFnMesh) (ps : Parameters)
    (hreq : ps.colors = true ∨ ps.extraColors = true) :
    doPrimitiveConversion fnMesh ps
      = (doPrimitiveConversion fnMesh { ps with colors := false, extraColors := false }
          >>= fun r => colorSetsLoop fnMesh ps.colors ps.extraColors
            fnMesh.getCurrentColorSetName fnMesh.getColorSetNames r) := by
  simp only [doPrimitiveConversion, if_pos hreq, bind_assoc]
  simp

/-- C10: `colors( colorSet, forceRgb )` fails if and only if the host's
`getFaceVertexColors` for that set fails, and then with the exception "Failed to
obtain colors from color set ...". When `doPrimitiveConversion` reads a colour set
(one the host lists, being the current set with "colors" on, or any with
"extraColors" on) whose read fails, the conversion returns no primitive, and where
the conversion without colours returns one, it fails with the exception of `colors()`
for such a set. With both parameters off no colour set is read: the conversion does
not depend on what `getFaceVertexColors` answers. -/
theorem colors_read_failure_is_hard_error (fnMesh : MFnMesh) :
    (∀ colorSet forceRgb,
        (∃ e, colors fnMesh colorSet forceRgb = Except.error e)
          ↔ fnMesh.getFaceVertexColors colorSet = none)
      ∧ (∀ colorSet forceRgb, fnMesh.getFaceVertexColors colorSet = none →
          colors fnMesh colorSet forceRgb
            = Except.error (Failure.exception (colorsFailure colorSet)))
      ∧ (∀ parameters colorSet, requestsColorSet fnMesh parameters colorSet →
          fnMesh.getFaceVertexColors colorSet = none →
            (∀ r, doPrimitiveConversion fnMesh parameters ≠ Except.ok r)
              ∧ (∀ r0, doPrimitiveConversion fnMesh
                    { parameters with colors := false, extraColors := false } = Except.ok r0 →
                  ∃ cs, requestsColorSet fnMesh parameters cs
                    ∧ fnMesh.getFaceVertexColors cs = none
                    ∧ doPrimitiveConversion fnMesh parameters
                        = Except.error (Failure.exception (colorsFailure cs))))
      ∧ (∀ parameters, parameters.colors = false → parameters.extraColors = false →
          (∀ colorSet, ¬ requestsColorSet fnMesh parameters colorSet)
            ∧ ∀ g, doPrimitiveConversion (fnMesh.withFaceVertexColors g) parameters
                = doPrimitiveConversion fnMesh parameters) := by
  refine ⟨fun colorSet forceRgb => colors_error_iff fnMesh colorSet forceRgb,
    fun colorSet forceRgb h => colors_of_read_failure fnMesh colorSet forceRgb h, ?_, ?_⟩
  · intro parameters colorSet hreq hfail
    obtain ⟨hmem, hwhy⟩ := hreq
    have hon : parameters.colors = true ∨ parameters.extraColors = true := by
      rcases hwhy with h | h
      · exact Or.inl h.1
      · exact Or.inr h
    have hsplit := doPrimitiveConversion_colors_off fnMesh parameters hon
    have hloop := fun r0 => colorSetsLoop_error fnMesh parameters.colors parameters.extraColors
      fnMesh.getCurrentColorSetName fnMesh.getColorSetNames r0 ⟨colorSet, hmem, hwhy, hfail⟩
    refine ⟨?_, ?_⟩
    · intro r hr
      rw [hsplit, bind_eq_ok] at hr
      obtain ⟨r0, -, h2⟩ := hr
      obtain ⟨cs, -, -, -, hE⟩ := hloop r0
      rw [hE] at h2
      cases h2
    · intro r0 h0
      obtain ⟨cs, hm, hq, hf, hE⟩ := hloop r0
      refine ⟨cs, ⟨hm, hq⟩, hf, ?_⟩
      rw [hsplit, h0, ok_bind, hE]
  · intro parameters hc he
    refine ⟨?_, fun g => doPrimitiveConversion_withFaceVertexColors fnMesh g parameters hc he⟩
    rintro colorSet ⟨-, h | h⟩
    · rw [hc] at h
      exact Bool.noConfusion h.1
    · rw [he] at h
      exact Bool.noConfusion h

/-- C10, at a concrete input: the painted cube lists a third colour set "broken" that
the host cannot read; with both colour parameters on that set is read and the
conversion returns no primitive but fails with the exception of `colors()` for
"broken", while with both parameters off the conversion returns. -/
theorem colors_read_failure_is_hard_error_witness :
    requestsColorSet brokenColorSetMesh colorParameters "broken"
      ∧ brokenColorSetMesh.getFaceVertexColors "broken" = none
      ∧ (∀ r, doPrimitiveConversion brokenColorSetMesh colorParameters ≠ Except.ok r)
      ∧ doPrimitiveConversion brokenColorSetMesh colorParameters
          = Except.error (Failure.exception (colorsFailure "broken"))
      ∧ (doPrimitiveConversion brokenColorSetMesh polyParameters).isOk = true :=
  ⟨by unfold requestsColorSet; decide,
   by decide,
   ((colors_read_failure_is_hard_error brokenColorSetMesh).2.2.1 colorParameters "broken"
      (by unfold requestsColorSet; decide) (by decide)).1,
   by decide,
   by decide⟩

end IECoreMaya
namespace IECoreGL

/-! ## Theorems about `Primitive::addVertexAttribute` -/

/-- The three ways `addVertexAttribute` ends, by the tests it makes. -/
theorem addVertexAttribute_cases (p : Primitive) (name : String) (data : Data) :
    (p.vertexAttributeSize = 0
        ∧ p.addVertexAttribute name data
          = { result := Except.error ⟨p.typeName ++ " does not support vertex attributes."⟩
              primitive := p })
      ∨ (p.vertexAttributeSize ≠ 0 ∧ vectorTypedDataSize data = none
        ∧ p.addVertexAttribute name data
          = { result := Except.error
                ⟨"Data provided is not suitable for use as a vertex attribute."⟩
              primitive := p })
      ∨ (∃ s, p.vertexAttributeSize ≠ 0 ∧ vectorTypedDataSize data = some s
        ∧ s ≠ p.vertexAttributeSize
        ∧ p.addVertexAttribute name data
          = { result := Except.error
                ⟨"Vertex attribute \x22" ++ name ++ "\x22 has wrong number of elements ("
                  ++ toString s ++ " but expected " ++ toString p.vertexAttributeSize ++ ")."⟩
              primitive := p })
      ∨ (p.vertexAttributeSize ≠ 0 ∧ vectorTypedDataSize data = some p.vertexAttributeSize
        ∧ p.addVertexAttribute name data
          = { result := Except.ok ()
              primitive :=
                { p with m_vertexAttributes := mapSet p.m_vertexAttributes name data } }) := by
  by_cases h0 : p.vertexAttributeSize = 0
  · left
    exact ⟨h0, by simp [Primitive.addVertexAttribute, h0]⟩
  · right
    cases hs : vectorTypedDataSize data with
    | none =>
      left
      exact ⟨h0, rfl, by simp [Primitive.addVertexAttribute, h0, hs]⟩
    | some s =>
      right
      by_cases he : s = p.vertexAttributeSize
      · right
        subst he
        exact ⟨h0, rfl, by simp [Primitive.addVertexAttribute, h0, hs]⟩
      · left
        exact ⟨s, h0, rfl, he, by simp [Primitive.addVertexAttribute, h0, hs, he]⟩

/-- C14: `Primitive::addVertexAttribute( name, data )` throws if and only if the
primitive's `vertexAttributeSize()` is zero, or the size of the data cannot be
determined because it is not vector typed, or its element count differs from
`vertexAttributeSize()`; it returns exactly when the size is non-zero and equals the
element count of the data. In particular, for a primitive whose `vertexAttributeSize()`
is that of the base class, every call throws "... does not support vertex
attributes", whatever the name and data. -/
theorem addVertexAttribute_fails_iff (p : Primitive) (name : String) (data : Data) :
    ((∃ e, (p.addVertexAttribute name data).result = Except.error e)
        ↔ (p.vertexAttributeSize = 0 ∨ vectorTypedDataSize data = none
            ∨ ∃ s, vectorTypedDataSize data = some s ∧ s ≠ p.vertexAttributeSize))
      ∧ ((p.addVertexAttribute name data).result = Except.ok ()
        ↔ (p.vertexAttributeSize ≠ 0
            ∧ vectorTypedDataSize data = some p.vertexAttributeSize))
      ∧ (p.vertexAttributeSize = Primitive.vertexAttributeSizeBase →
          (p.addVertexAttribute name data).result
            = Except.error ⟨p.typeName ++ " does not support vertex attributes."⟩) := by
  rcases addVertexAttribute_cases p name data with
    ⟨h0, ha⟩ | ⟨h0, hs, ha⟩ | ⟨s, h0, hs, he, ha⟩ | ⟨h0, hs, ha⟩
  · refine ⟨⟨fun _ => Or.inl h0, fun _ => ⟨_, by rw [ha]⟩⟩, ⟨?_, fun h => absurd h0 h.1⟩,
      fun _ => by rw [ha]⟩
    intro hr
    rw [ha] at hr
    cases hr
  · refine ⟨⟨fun _ => Or.inr (Or.inl hs), fun _ => ⟨_, by rw [ha]⟩⟩, ⟨?_, ?_⟩,
      fun hb => absurd hb h0⟩
    · intro hr
      rw [ha] at hr
      cases hr
    · intro h
      rw [hs] at h
      cases h.2
  · refine ⟨⟨fun _ => Or.inr (Or.inr ⟨s, hs, he⟩), fun _ => ⟨_, by rw [ha]⟩⟩, ⟨?_, ?_⟩,
      fun hb => absurd hb h0⟩
    · intro hr
      rw [ha] at hr
      cases hr
    · intro h
      rw [hs] at h
      exact absurd (Option.some.inj h.2) he
  · refine ⟨⟨?_, ?_⟩, ⟨fun _ => ⟨h0, hs⟩, fun _ => by rw [ha]⟩, fun hb => absurd hb h0⟩
    · rintro ⟨e, hr⟩
      rw [ha] at hr
      cases hr
    · rintro (h | h | ⟨s, h1, h2⟩)
      · exact absurd h h0
      · rw [hs] at h
        cases h
      · rw [hs] at h1
        exact absurd (Option.some.inj h1).symm h2

/-- C14, at concrete inputs: `basePrimitive` keeps the base `vertexAttributeSize()` and
refuses a three-element attribute, while `examplePrimitive`, whose size is 3, accepts
it and refuses a two-element one and a string. -/
theorem addVertexAttribute_fails_iff_witness :
    basePrimitive.vertexAttributeSize = Primitive.vertexAttributeSizeBase
      ∧ (basePrimitive.addVertexAttribute "id" (Data.IntVectorData [1, 2, 3])).result
          = Except.error ⟨"MeshPrimitive does not support vertex attributes."⟩
      ∧ (examplePrimitive.addVertexAttribute "id" (Data.IntVectorData [1, 2, 3])).result
          = Except.ok ()
      ∧ (examplePrimitive.addVertexAttribute "id" (Data.IntVectorData [1, 2])).result
          ≠ Except.ok ()
      ∧ (examplePrimitive.addVertexAttribute "id" (Data.StringData "x")).result
          ≠ Except.ok () :=
  ⟨rfl,
   ((addVertexAttribute_fails_iff basePrimitive "id" (Data.IntVectorData [1, 2, 3])).2.2
      rfl).trans (by decide),
   by decide, by decide, by decide⟩

/-- C15: `Primitive::addVertexAttribute` changes the primitive only on success. When it
throws, the primitive, and so its vertex attribute table, is as before. When it
returns, the table maps `name` to the given data, the entry under every other name is
as before, every entry of the new table is an entry of the old one or the new entry,
nothing but the table has changed, and the data has exactly `vertexAttributeSize()`
elements; so if every entry of the old table had that many elements, every entry of
the new table does. -/
theorem addVertexAttribute_atomic (p : Primitive) (name : String) (data : Data) :
    (∀ e, (p.addVertexAttribute name data).result = Except.error e →
        (p.addVertexAttribute name data).primitive = p)
      ∧ ((p.addVertexAttribute name data).result = Except.ok () →
          mapFind (p.addVertexAttribute name data).primitive.m_vertexAttributes name
              = some data
            ∧ (∀ k, k ≠ name →
                mapFind (p.addVertexAttribute name data).primitive.m_vertexAttributes k
                  = mapFind p.m_vertexAttributes k)
            ∧ (∀ x ∈ (p.addVertexAttribute name data).primitive.m_vertexAttributes,
                x = (name, data) ∨ x ∈ p.m_vertexAttributes)
            ∧ (p.addVertexAttribute name data).primitive
                = { p with m_vertexAttributes :=
                      (p.addVertexAttribute name data).primitive.m_vertexAttributes }
            ∧ vectorTypedDataSize data = some p.vertexAttributeSize
            ∧ ((∀ x ∈ p.m_vertexAttributes,
                  vectorTypedDataSize x.2 = some p.vertexAttributeSize) →
                ∀ x ∈ (p.addVertexAttribute name data).primitive.m_vertexAttributes,
                  vectorTypedDataSize x.2 = some p.vertexAttributeSize)) := by
  rcases addVertexAttribute_cases p name data with
    ⟨h0, ha⟩ | ⟨h0, hs, ha⟩ | ⟨s, h0, hs, he, ha⟩ | ⟨h0, hs, ha⟩
  · rw [ha]
    exact ⟨fun _ _ => rfl, fun hr => by cases hr⟩
  · rw [ha]
    exact ⟨fun _ _ => rfl, fun hr => by cases hr⟩
  · rw [ha]
    exact ⟨fun _ _ => rfl, fun hr => by cases hr⟩
  · rw [ha]
    refine ⟨fun e hr => Except.noConfusion hr, fun _ => ⟨?_, ?_, ?_, rfl, hs, ?_⟩⟩
    · simp [IECoreMaya.mapFind_mapSet]
    · intro k hk
      simp only [IECoreMaya.mapFind_mapSet]
      rw [if_neg (fun h => hk h.symm)]
    · intro x hx
      exact IECoreMaya.mem_mapSet _ _ _ _ hx
    · intro hold x hx
      rcases IECoreMaya.mem_mapSet _ _ _ _ hx with h1 | h1
      · rw [h1]
        exact hs
      · exact hold x h1

/-- C15, at a concrete input: `examplePrimitive` holds "id"; adding a three-element
"Cs" succeeds and leaves "id" in place, adding a two-element "Cs" throws and leaves
the primitive as it was. -/
theorem addVertexAttribute_atomic_witness :
    (examplePrimitive.addVertexAttribute "Cs" (Data.IntVectorData [7, 8, 9])).result
        = Except.ok ()
      ∧ mapFind (examplePrimitive.addVertexAttribute "Cs"
            (Data.IntVectorData [7, 8, 9])).primitive.m_vertexAttributes "id"
          = some (Data.IntVectorData [4, 5, 6])
      ∧ (examplePrimitive.addVertexAttribute "Cs" (Data.IntVectorData [7, 8])).primitive
          = examplePrimitive :=
  ⟨by decide,
   (((addVertexAttribute_atomic examplePrimitive "Cs" (Data.IntVectorData [7, 8, 9])).2
      (by decide)).2.1 "id" (by decide)).trans (by decide),
   by decide⟩

end IECoreGL

namespace IECoreMaya

/-! ## Theorems about the interpolation attribute -/

/-- The preset lookup of `doPrimitiveConversion`, by the value of the index. -/
theorem preset_of_index (interpolationIndex : Nat) :
    (if h : interpolationIndex < interpolationPresets.length - 1 then
        (interpolationPresets.get
          ⟨interpolationIndex, Nat.lt_of_lt_of_le h (Nat.sub_le _ _)⟩).2
      else "linear")
      = if interpolationIndex = 0 then "linear"
        else if interpolationIndex = 1 then "catmullClark" else "linear" := by
  match interpolationIndex with
  | 0 => rfl
  | 1 => rfl
  | n + 2 =>
    have hn : ¬ (n + 2 < interpolationPresets.length - 1) := by
      simp [interpolationPresets]
    rw [dif_neg hn]
    simp

theorem resolveInterpolation_default_of_value (fnMesh : MFnMesh) (plug : MPlug) (v : Int)
    (hfind : fnMesh.findPlug "ieMeshInterpolation" = some plug)
    (hread : plug.asInt = some v) :
    resolveInterpolation fnMesh "default"
      = if (v % 2 ^ 32).toNat = 0 then "linear"
        else if (v % 2 ^ 32).toNat = 1 then "catmullClark" else "linear" := by
  simp only [resolveInterpolation, hfind, hread, if_true]
  exact preset_of_index _

theorem resolveInterpolation_default_ne_default (fnMesh : MFnMesh) :
    resolveInterpolation fnMesh "default" = "linear"
      ∨ resolveInterpolation fnMesh "default" = "catmullClark" := by
  cases hfind : fnMesh.findPlug "ieMeshInterpolation" with
  | none => left; simp [resolveInterpolation, hfind]
  | some plug =>
    cases hread : plug.asInt with
    | none => left; simp [resolveInterpolation, hfind, hread]
    | some v =>
      rw [resolveInterpolation_default_of_value fnMesh plug v hfind hread]
      split_ifs
      · left; rfl
      · right; rfl
      · left; rfl

/-- C16: for every host mesh converted with interpolation "default" whose
"ieMeshInterpolation" attribute is readable, with a value `v` that is an `int` (32
bits): the interpolation is resolved to "linear" when `v = 0`, to "catmullClark" when
`v = 1`, and to "linear" for every other value, 2 and every negative value included;
every primitive the conversion returns has that interpolation, and it is never
"default". -/
theorem resolveInterpolation_of_plug_value (fnMesh : MFnMesh) (plug : MPlug) (v : Int)
    (hfind : fnMesh.findPlug "ieMeshInterpolation" = some plug)
    (hread : plug.asInt = some v) (hlo : -2 ^ 31 ≤ v) (hhi : v < 2 ^ 31) :
    resolveInterpolation fnMesh "default"
        = (if v = 0 then "linear" else if v = 1 then "catmullClark" else "linear")
      ∧ (v = 2 ∨ v < 0 → resolveInterpolation fnMesh "default" = "linear")
      ∧ resolveInterpolation fnMesh "default" ≠ "default"
      ∧ ∀ parameters r, parameters.interpolation = "default" →
          doPrimitiveConversion fnMesh parameters = Except.ok r →
            r.interpolation
                = (if v = 0 then "linear" else if v = 1 then "catmullClark" else "linear")
              ∧ r.interpolation ≠ "default" := by
  have h0 : (v % 2 ^ 32).toNat = 0 ↔ v = 0 := by omega
  have h1 : (v % 2 ^ 32).toNat = 1 ↔ v = 1 := by omega
  have hres : resolveInterpolation fnMesh "default"
      = (if v = 0 then "linear" else if v = 1 then "catmullClark" else "linear") := by
    rw [resolveInterpolation_default_of_value fnMesh plug v hfind hread]
    simp only [h0, h1]
  have hne : resolveInterpolation fnMesh "default" ≠ "default" := by
    rcases resolveInterpolation_default_ne_default fnMesh with h | h <;> rw [h] <;> decide
  refine ⟨hres, ?_, hne, ?_⟩
  · intro hv
    rw [hres]
    have a : v ≠ 0 := by omega
    have b : v ≠ 1 := by omega
    rw [if_neg a, if_neg b]
  · intro parameters r hp hr
    have hi := (doPrimitiveConversion_topology fnMesh parameters r hr).2
    rw [hp] at hi
    rw [hi]
    exact ⟨hres, hne⟩

/-- C16, at concrete inputs: the cube with attribute value 1 converts to a
"catmullClark" mesh, and with the values 0, 2 and -1 the interpolation resolves to
"linear". -/
theorem resolveInterpolation_of_plug_value_witness :
    (plugValueMesh 1).findPlug "ieMeshInterpolation" = some { asInt := some 1 }
      ∧ resolveInterpolation (plugValueMesh 1) "default" = "catmullClark"
      ∧ (doPrimitiveConversion (plugValueMesh 1) defaultParameters).toOption.map
          (fun r => r.interpolation) = some "catmullClark"
      ∧ resolveInterpolation (plugValueMesh 0) "default" = "linear"
      ∧ resolveInterpolation (plugValueMesh 2) "default" = "linear"
      ∧ resolveInterpolation (plugValueMesh (-1)) "default" = "linear" :=
  ⟨by decide,
   ((resolveInterpolation_of_plug_value (plugValueMesh 1) { asInt := some 1 } 1
      (by decide) rfl (by norm_num) (by norm_num)).1).trans (by decide),
   by decide,
   by decide,
   (resolveInterpolation_of_plug_value (plugValueMesh 2) { asInt := some 2 } 2
      (by decide) rfl (by norm_num) (by norm_num)).2.1 (Or.inl rfl),
   (resolveInterpolation_of_plug_value (plugValueMesh (-1)) { asInt := some (-1) } (-1)
      (by decide) rfl (by norm_num) (by norm_num)).2.1 (Or.inr (by norm_num))⟩

end IECoreMaya

namespace IECoreMaya

/-! ## Lemmas about the names of the stored variables -/

theorem append_Cs_injective (s t : String) (h : s ++ "_Cs" = t ++ "_Cs") : s = t := by
  have h2 := congrArg String.data h
  simp only [String.data_append] at h2
  exact String.ext (List.append_cancel_right h2)

theorem ifStep_variable_of {c : Prop} [Decidable c] (x : Except Failure PrimitiveVariable)
    (r r2 : MeshPrimitive) (k k2 : String) (hk : c → k ≠ k2)
    (h : (if c then (x >>= fun v => pure (r.setVariable k v)) else pure r) = Except.ok r2) :
    r2.variable k2 = r.variable k2 := by
  rcases ifStep_eq_ok x r r2 k h with ⟨hc, v, -, rfl⟩ | ⟨-, rfl⟩
  · rw [variable_setVariable, if_neg (hk hc)]
  · rfl

theorem mem_colorSetsLoopNames (cc ce : Bool) (cur : String) (sets : List String)
    (k : String) :
    k ∈ colorSetsLoopNames cc ce cur sets
      ↔ ∃ s ∈ sets, (cc = true ∧ s = cur ∧ k = "Cs") ∨ (ce = true ∧ k = s ++ "_Cs") := by
  simp only [colorSetsLoopNames, List.mem_flatMap, List.mem_append]
  constructor
  · rintro ⟨s, hs, h | h⟩
    · split_ifs at h with hc
      · exact ⟨s, hs, Or.inl ⟨hc.1, hc.2, by simpa using h⟩⟩
      · cases h
    · split_ifs at h with hc
      · exact ⟨s, hs, Or.inr ⟨hc, by simpa using h⟩⟩
      · cases h
  · rintro ⟨s, hs, ⟨h1, h2, h3⟩ | ⟨h1, h2⟩⟩
    · exact ⟨s, hs, Or.inl (by rw [if_pos ⟨h1, h2⟩, h3]; exact List.mem_singleton_self _)⟩
    · exact ⟨s, hs, Or.inr (by rw [if_pos h1, h2]; exact List.mem_singleton_self _)⟩

/-- The loop over the colour sets leaves alone every name it does not store under. -/
theorem colorSetsLoop_variable_of_not_written (fnMesh : MFnMesh) (cc ce : Bool)
    (cur : String) (k : String) (sets : List String) :
    ∀ (r r2 : MeshPrimitive), k ∉ colorSetsLoopNames cc ce cur sets →
      colorSetsLoop fnMesh cc ce cur sets r = Except.ok r2 →
        r2.variable k = r.variable k := by
  induction sets with
  | nil =>
    intro r r2 _ h
    simp only [colorSetsLoop] at h
    cases h
    rfl
  | cons s rest ih =>
    intro r r2 hk h
    have hrest : k ∉ colorSetsLoopNames cc ce cur rest := by
      intro hmem
      apply hk
      rw [mem_colorSetsLoopNames] at hmem ⊢
      obtain ⟨t, ht, hw⟩ := hmem
      exact ⟨t, List.mem_cons_of_mem s ht, hw⟩
    simp only [colorSetsLoop, bind_eq_ok] at h
    obtain ⟨r3, h3, r4, h4, h5⟩ := h
    have e3 : r3.variable k = r.variable k := by
      apply ifStep_variable_of _ _ _ _ _ _ h3
      intro hc heq
      apply hk
      rw [mem_colorSetsLoopNames]
      exact ⟨s, List.mem_cons_self s rest, Or.inl ⟨hc.1, hc.2, heq.symm⟩⟩
    have e4 : r4.variable k = r3.variable k := by
      apply ifStep_variable_of _ _ _ _ _ _ h4
      intro hc heq
      apply hk
      rw [mem_colorSetsLoopNames]
      exact ⟨s, List.mem_cons_self s rest, Or.inr ⟨hc, heq.symm⟩⟩
    rw [ih r4 r2 hrest h5, e4, e3]

/-- The loop over the UV sets stores every set but the current one under its name. -/
theorem uvSetsLoop_stores (fnMesh : MFnMesh) (cur : String) (vpf : List Int) (s : String)
    (hs : s ≠ cur) (sets : List String) :
    ∀ (r r2 : MeshPrimitive), s ∈ sets →
      uvSetsLoop fnMesh cur vpf sets r = Except.ok r2 →
        ∃ v, uvs fnMesh s vpf = Except.ok v ∧ r2.variable s = some v := by
  induction sets with
  | nil =>
    intro r r2 hm _
    cases hm
  | cons t rest ih =>
    intro r r2 hm h
    simp only [uvSetsLoop] at h
    split_ifs at h with ht
    · have hin : s ∈ rest := by
        rcases List.mem_cons.mp hm with h1 | h1
        · exact absurd (h1.trans ht) hs
        · exact h1
      exact ih r r2 hin h
    · rw [bind_eq_ok] at h
      obtain ⟨v, hv, h2⟩ := h
      by_cases hin : s ∈ rest
      · exact ih _ r2 hin h2
      · have hst : s = t := by
          rcases List.mem_cons.mp hm with h1 | h1
          · exact h1
          · exact absurd h1 hin
        subst hst
        refine ⟨v, hv, ?_⟩
        rw [uvSetsLoop_variable fnMesh cur vpf s rest _ r2
            (fun u hu _ heq => hin (heq ▸ hu)) h2,
          variable_setVariable, if_pos rfl]

/-- With "colors" on, the loop over the colour sets stores the current set, forced to
RGB, under "Cs". -/
theorem colorSetsLoop_stores_Cs (fnMesh : MFnMesh) (ce : Bool) (cur : String)
    (sets : List String) :
    ∀ (r r2 : MeshPrimitive), cur ∈ sets →
      colorSetsLoop fnMesh true ce cur sets r = Except.ok r2 →
        ∃ v, colors fnMesh cur true = Except.ok v ∧ r2.variable "Cs" = some v := by
  induction sets with
  | nil =>
    intro r r2 hm _
    cases hm
  | cons s rest ih =>
    intro r r2 hm h
    simp only [colorSetsLoop, bind_eq_ok] at h
    obtain ⟨r3, h3, r4, h4, h5⟩ := h
    by_cases hin : cur ∈ rest
    · exact ih r4 r2 hin h5
    · have hsc : s = cur := by
        rcases List.mem_cons.mp hm with h1 | h1
        · exact h1.symm
        · exact absurd h1 hin
      have hnot : "Cs" ∉ colorSetsLoopNames true ce cur rest := by
        rw [mem_colorSetsLoopNames]
        rintro ⟨t, ht, ⟨-, h2, -⟩ | ⟨-, h2⟩⟩
        · exact hin (h2 ▸ ht)
        · exact append_Cs_ne_of_length t "Cs" (by decide) h2.symm
      rcases ifStep_eq_ok _ _ _ _ h3 with ⟨-, v, hv, hr3⟩ | ⟨hn, -⟩
      · refine ⟨v, hv, ?_⟩
        rw [colorSetsLoop_variable_of_not_written fnMesh true ce cur "Cs" rest r4 r2 hnot h5,
          ifStep_variable_ne _ _ _ _ _ (append_Cs_ne_of_length s "Cs" (by decide)) h4, hr3,
          variable_setVariable, if_pos rfl]
      · exact absurd ⟨trivial, hsc⟩ hn

/-- With "extraColors" on, the loop over the colour sets stores every set, not forced
to RGB, under its name followed by "_Cs". -/
theorem colorSetsLoop_stores_extra (fnMesh : MFnMesh) (cc : Bool) (cur : String) (s : String)
    (sets : List String) :
    ∀ (r r2 : MeshPrimitive), s ∈ sets →
      colorSetsLoop fnMesh cc true cur sets r = Except.ok r2 →
        ∃ v, colors fnMesh s false = Except.ok v ∧ r2.variable (s ++ "_Cs") = some v := by
  induction sets with
  | nil =>
    intro r r2 hm _
    cases hm
  | cons t rest ih =>
    intro r r2 hm h
    simp only [colorSetsLoop, bind_eq_ok] at h
    obtain ⟨r3, h3, r4, h4, h5⟩ := h
    by_cases hin : s ∈ rest
    · exact ih r4 r2 hin h5
    · have hst : s = t := by
        rcases List.mem_cons.mp hm with h1 | h1
        · exact h1
        · exact absurd h1 hin
      subst hst
      have hnot : s ++ "_Cs" ∉ colorSetsLoopNames cc true cur rest := by
        rw [mem_colorSetsLoopNames]
        rintro ⟨u, hu, ⟨-, -, h2⟩ | ⟨-, h2⟩⟩
        · exact append_Cs_ne_of_length s "Cs" (by decide) h2
        · exact hin (append_Cs_injective s u h2 ▸ hu)
      rcases ifStep_eq_ok _ _ _ _ h4 with ⟨-, v, hv, hr4⟩ | ⟨hn, -⟩
      · refine ⟨v, hv, ?_⟩
        rw [colorSetsLoop_variable_of_not_written fnMesh cc true cur _ rest r4 r2 hnot h5,
          hr4, variable_setVariable, if_pos rfl]
      · exact absurd trivial hn

end IECoreMaya

namespace IECoreMaya

/-! ### Which variables carry an index list -/

theorem indexedOnlyUnder_setVariable (allowed : String → Prop) (r : MeshPrimitive)
    (k : String) (v : PrimitiveVariable) (hr : r.IndexedOnlyUnder allowed)
    (hv : v.indices ≠ none → allowed k) : (r.setVariable k v).IndexedOnlyUnder allowed := by
  intro k2 v2 h hi
  rw [variable_setVariable] at h
  split_ifs at h with e
  · cases h
    subst e
    exact hv hi
  · exact hr k2 v2 h hi

theorem indexedOnlyUnder_ifStep {c : Prop} [Decidable c] (allowed : String → Prop)
    (x : Except Failure PrimitiveVariable) (r r2 : MeshPrimitive) (k : String)
    (h : (if c then (x >>= fun v => pure (r.setVariable k v)) else pure r) = Except.ok r2)
    (hr : r.IndexedOnlyUnder allowed)
    (hx : ∀ v, x = Except.ok v → v.indices ≠ none → allowed k) :
    r2.IndexedOnlyUnder allowed := by
  rcases ifStep_eq_ok x r r2 k h with ⟨-, v, hv, rfl⟩ | ⟨-, rfl⟩
  · exact indexedOnlyUnder_setVariable allowed r k v hr (hx v hv)
  · exact hr

theorem indexedOnlyUnder_uvSetsLoop (allowed : String → Prop) (fnMesh : MFnMesh)
    (cur : String) (vpf : List Int) (sets : List String) :
    ∀ (r r2 : MeshPrimitive), (∀ s ∈ sets, s ≠ cur → allowed s) →
      uvSetsLoop fnMesh cur vpf sets r = Except.ok r2 →
      r.IndexedOnlyUnder allowed → r2.IndexedOnlyUnder allowed := by
  induction sets with
  | nil =>
    intro r r2 _ h hr
    simp only [IECoreMaya.uvSetsLoop] at h
    cases h
    exact hr
  | cons s rest ih =>
    intro r r2 ha h hr
    have hrest : ∀ t ∈ rest, t ≠ cur → allowed t :=
      fun t ht => ha t (List.mem_cons_of_mem s ht)
    simp only [IECoreMaya.uvSetsLoop] at h
    split_ifs at h with hs
    · exact ih r r2 hrest h hr
    · rw [bind_eq_ok] at h
      obtain ⟨v, -, h2⟩ := h
      exact ih (r.setVariable s v) r2 hrest h2
        (indexedOnlyUnder_setVariable allowed r s v hr
          (fun _ => ha s (List.mem_cons_self s rest) hs))

theorem indexedOnlyUnder_colorSetsLoop (allowed : String → Prop) (fnMesh : MFnMesh)
    (cc ce : Bool) (cur : String) (sets : List String) :
    ∀ (r r2 : MeshPrimitive), colorSetsLoop fnMesh cc ce cur sets r = Except.ok r2 →
      r.IndexedOnlyUnder allowed → r2.IndexedOnlyUnder allowed := by
  induction sets with
  | nil =>
    intro r r2 h hr
    simp only [IECoreMaya.colorSetsLoop] at h
    cases h
    exact hr
  | cons s rest ih =>
    intro r r2 h hr
    simp only [IECoreMaya.colorSetsLoop, bind_eq_ok] at h
    obtain ⟨r3, h3, r4, h4, h5⟩ := h
    have a3 := indexedOnlyUnder_ifStep allowed _ _ _ _ h3 hr
      (fun v hv hi => absurd (colors_faceVaryingLength fnMesh cur true v hv).2.1 hi)
    have a4 := indexedOnlyUnder_ifStep allowed _ _ _ _ h4 a3
      (fun v hv hi => absurd (colors_faceVaryingLength fnMesh s false v hv).2.1 hi)
    exact ih r4 r2 h5 a4

theorem normals_indices (fnMesh : MFnMesh) (space : MSpace) (n : PrimitiveVariable)
    (h : normals fnMesh space = Except.ok n) :
    n.interpolation = Interpolation.FaceVarying ∧ n.indices = none := by
  unfold normals at h
  split_ifs at h
  · rw [bind_eq_ok] at h
    obtain ⟨l, -, hv⟩ := h
    cases hv
    exact ⟨rfl, rfl⟩
  · cases h
    exact ⟨rfl, rfl⟩

/-- The steps of a conversion that returned, as far as the names of the variables are
concerned: after the positions and normals only "P" and "N" are present, neither with
an index list; then come the current UV set, the other UV sets and the colour sets. -/
theorem doPrimitiveConversion_stages (fnMesh : MFnMesh) (ps : Parameters) (r : MeshPrimitive)
    (h : doPrimitiveConversion fnMesh ps = Except.ok r) :
    ∃ (r1 r2 r3 : MeshPrimitive),
      (∀ k, k ≠ "P" → k ≠ "N" → r1.variable k = none)
      ∧ r1.IndexedOnlyUnder (fun _ => False)
      ∧ (if fnMesh.getCurrentUVSetName.length ≠ 0 then
            (uvs fnMesh fnMesh.getCurrentUVSetName r.verticesPerFace >>= fun v =>
              pure (r1.setVariable "uv" v))
          else pure r1) = Except.ok r2
      ∧ uvSetsLoop fnMesh fnMesh.getCurrentUVSetName r.verticesPerFace
          fnMesh.getUVSetNames r2 = Except.ok r3
      ∧ (if ps.colors = true ∨ ps.extraColors = true then
            colorSetsLoop fnMesh ps.colors ps.extraColors fnMesh.getCurrentColorSetName
              fnMesh.getColorSetNames r3
          else pure r3) = Except.ok r := by
  obtain ⟨topo, p, r1, r2, r3, ht, hp, h1, h2, h3, h4⟩ :=
    doPrimitiveConversion_eq_ok fnMesh ps r h
  have htopo : topo.1 = r.verticesPerFace := by
    have := (doPrimitiveConversion_topology fnMesh ps r h).1
    rw [ht] at this
    exact congrArg Prod.fst (Except.ok.inj this)
  rw [htopo] at h2 h3
  refine ⟨r1, r2, r3, ?_, ?_, h2, h3, h4⟩
  · intro k hP hN
    rcases ifStep_eq_ok _ _ _ _ h1 with ⟨-, n, -, rfl⟩ | ⟨-, rfl⟩
    · rw [variable_setVariable, if_neg (Ne.symm hN), variable_setVariable,
        if_neg (Ne.symm hP)]
      rfl
    · rw [variable_setVariable, if_neg (Ne.symm hP)]
      rfl
  · have a0 : (({ verticesPerFace := topo.1, vertexIds := topo.2,
                  interpolation := resolveInterpolation fnMesh ps.interpolation,
                  primitiveVariables := [] } : MeshPrimitive).setVariable "P"
                p).IndexedOnlyUnder (fun _ => False) := by
      apply indexedOnlyUnder_setVariable
      · intro k v hk _
        cases hk
      · intro hi
        exact hi (points_interpolation _ _ _ hp).2
    exact indexedOnlyUnder_ifStep _ _ _ _ _ h1 a0
      (fun n hn hi => hi (normals_indices _ _ n hn).2)

end IECoreMaya

namespace IECoreMaya

theorem indexedOnlyUnder_mono (allowed allowed2 : String → Prop) (r : MeshPrimitive)
    (hr : r.IndexedOnlyUnder allowed) (hm : ∀ k, allowed k → allowed2 k) :
    r.IndexedOnlyUnder allowed2 :=
  fun k v h hi => hm k (hr k v h hi)

/-- The last step of the conversion leaves alone every name that is not the name of a
colour variable. -/
theorem colorStep_variable_of_not_written (fnMesh : MFnMesh) (ps : Parameters)
    (r3 r : MeshPrimitive) (k : String) (hk : k ∉ colorVariableNames fnMesh ps)
    (h4 : (if ps.colors = true ∨ ps.extraColors = true then
            colorSetsLoop fnMesh ps.colors ps.extraColors fnMesh.getCurrentColorSetName
              fnMesh.getColorSetNames r3
          else pure r3) = Except.ok r) :
    r.variable k = r3.variable k := by
  split_ifs at h4 with hc
  · have hk2 : k ∉ colorSetsLoopNames ps.colors ps.extraColors
        fnMesh.getCurrentColorSetName fnMesh.getColorSetNames := by
      rw [colorVariableNames, if_pos hc] at hk
      exact hk
    exact colorSetsLoop_variable_of_not_written _ _ _ _ k _ _ _ hk2 h4
  · cases h4
    rfl

theorem not_mem_colorVariableNames_of_short (fnMesh : MFnMesh) (ps : Parameters)
    (k : String) (hlen : k.length < 3) (hCs : k ≠ "Cs") :
    k ∉ colorVariableNames fnMesh ps := by
  unfold colorVariableNames
  split_ifs
  · rw [mem_colorSetsLoopNames]
    rintro ⟨s, -, ⟨-, -, h⟩ | ⟨-, h⟩⟩
    · exact hCs h
    · exact append_Cs_ne_of_length s k hlen h.symm
  · exact List.not_mem_nil k

theorem colors_forceRgb_data (fnMesh : MFnMesh) (colorSet : String) (v : PrimitiveVariable)
    (h : colors fnMesh colorSet true = Except.ok v) :
    v.interpolation = Interpolation.FaceVarying
      ∧ ∃ vec : List Color3f, v.data = Data.Color3fVectorData vec := by
  cases hg : fnMesh.getFaceVertexColors colorSet with
  | none =>
    rw [colors_of_read_failure fnMesh colorSet true hg] at h
    cases h
  | some cols =>
    rw [colors_of_read fnMesh colorSet true cols hg] at h
    split_ifs at h with h1 h2 h3
    · cases h
      exact ⟨rfl, _, rfl⟩
    · exact absurd rfl h2
    · cases h
      exact ⟨rfl, _, rfl⟩
    · exact absurd (Or.inr rfl) h3

theorem colors_data_of_representation (fnMesh : MFnMesh) (colorSet : String)
    (v : PrimitiveVariable) (h : colors fnMesh colorSet false = Except.ok v) :
    v.interpolation = Interpolation.FaceVarying
      ∧ (fnMesh.getColorRepresentation colorSet = MColorRepresentation.kAlpha →
          ∃ vec : List ℚ, v.data = Data.FloatVectorData vec)
      ∧ (fnMesh.getColorRepresentation colorSet = MColorRepresentation.kRGB →
          ∃ vec : List Color3f, v.data = Data.Color3fVectorData vec)
      ∧ (fnMesh.getColorRepresentation colorSet = MColorRepresentation.kRGBA →
          ∃ vec : List Color4f, v.data = Data.Color4fVectorData vec) := by
  cases hg : fnMesh.getFaceVertexColors colorSet with
  | none =>
    rw [colors_of_read_failure fnMesh colorSet false hg] at h
    cases h
  | some cols =>
    rw [colors_of_read fnMesh colorSet false cols hg] at h
    cases hrep : fnMesh.getColorRepresentation colorSet <;>
      simp only [hrep] at h <;>
      simp at h <;>
      subst h <;>
      refine ⟨rfl, ?_, ?_, ?_⟩ <;>
      intro hc <;>
      first
      | exact ⟨_, rfl⟩
      | cases hc

end IECoreMaya

namespace IECoreMaya

/-! ## Theorems about the UV and colour variables -/

/-- C11, as amended: for every host mesh and every primitive the conversion returns.
When the current UV set name is non-empty there is a variable "uv", and it is the
conversion of the current UV set if the mesh has no other UV set named "uv". The
current set is not additionally stored under its own name: nothing is stored under
that name when it is none of "P", "N", "uv" and the names of the colour variables
the conversion stores, and unless the name is "uv" what is stored under it, if
anything, is not a UV channel (it has no index list). Every other UV set the host
reports whose name is not that of a colour variable the conversion stores is stored
under its own name. When the current UV set name is empty, the current-set step
creates no "uv": there is no variable "uv" if the mesh has no UV set named "uv", and
a variable "uv", if there is one, is the conversion of a UV set of that name. -/
theorem doPrimitiveConversion_uv_variables (fnMesh : MFnMesh) (parameters : Parameters)
    (r : MeshPrimitive) (h : doPrimitiveConversion fnMesh parameters = Except.ok r) :
    (fnMesh.getCurrentUVSetName.length ≠ 0 →
        ∃ v, r.variable "uv" = some v
          ∧ ((∀ s ∈ fnMesh.getUVSetNames, s ≠ fnMesh.getCurrentUVSetName → s ≠ "uv") →
              uvs fnMesh fnMesh.getCurrentUVSetName r.verticesPerFace = Except.ok v))
      ∧ (fnMesh.getCurrentUVSetName ≠ "P" → fnMesh.getCurrentUVSetName ≠ "N" →
          fnMesh.getCurrentUVSetName ≠ "uv" →
          fnMesh.getCurrentUVSetName ∉ colorVariableNames fnMesh parameters →
            r.variable fnMesh.getCurrentUVSetName = none)
      ∧ (fnMesh.getCurrentUVSetName ≠ "uv" →
          ∀ v, r.variable fnMesh.getCurrentUVSetName = some v → v.indices = none)
      ∧ (∀ s ∈ fnMesh.getUVSetNames, s ≠ fnMesh.getCurrentUVSetName →
          s ∉ colorVariableNames fnMesh parameters →
            ∃ v, uvs fnMesh s r.verticesPerFace = Except.ok v ∧ r.variable s = some v)
      ∧ (fnMesh.getCurrentUVSetName.length = 0 →
          ((∀ s ∈ fnMesh.getUVSetNames, s ≠ fnMesh.getCurrentUVSetName → s ≠ "uv") →
              r.variable "uv" = none)
            ∧ (∀ v, r.variable "uv" = some v →
                "uv" ∈ fnMesh.getUVSetNames
                  ∧ uvs fnMesh "uv" r.verticesPerFace = Except.ok v)) := by
  obtain ⟨r1, r2, r3, hr1, hi1, h2, h3, h4⟩ := doPrimitiveConversion_stages fnMesh parameters r h
  have hcolour : r.variable "uv" = r3.variable "uv" :=
    colorStep_variable_of_not_written fnMesh parameters r3 r "uv"
      (not_mem_colorVariableNames_of_short fnMesh parameters "uv" (by decide) (by decide)) h4
  have hkept : (∀ s ∈ fnMesh.getUVSetNames, s ≠ fnMesh.getCurrentUVSetName → s ≠ "uv") →
      r.variable "uv" = r2.variable "uv" := fun huv => by
    rw [hcolour, uvSetsLoop_variable _ _ _ "uv" _ _ _ huv h3]
  have hother : "uv" ∈ fnMesh.getUVSetNames → "uv" ≠ fnMesh.getCurrentUVSetName →
      ∃ v, uvs fnMesh "uv" r.verticesPerFace = Except.ok v ∧ r.variable "uv" = some v :=
    fun hm hne => by
      obtain ⟨v, hv, hr3⟩ := uvSetsLoop_stores fnMesh _ _ "uv" hne _ _ _ hm h3
      exact ⟨v, hv, by rw [hcolour, hr3]⟩
  have hnone : ¬ ("uv" ∈ fnMesh.getUVSetNames ∧ "uv" ≠ fnMesh.getCurrentUVSetName) →
      ∀ s ∈ fnMesh.getUVSetNames, s ≠ fnMesh.getCurrentUVSetName → s ≠ "uv" :=
    fun hno s hs hne heq => hno ⟨heq ▸ hs, heq ▸ hne⟩
  refine ⟨?_, ?_, ?_, ?_, ?_⟩
  · intro hne
    rw [if_pos hne, bind_eq_ok] at h2
    obtain ⟨v, hv, hr2⟩ := h2
    cases hr2
    by_cases hex : "uv" ∈ fnMesh.getUVSetNames ∧ "uv" ≠ fnMesh.getCurrentUVSetName
    · obtain ⟨w, hw, hrw⟩ := hother hex.1 hex.2
      exact ⟨w, hrw, fun huv => absurd rfl (huv "uv" hex.1 hex.2)⟩
    · refine ⟨v, ?_, fun _ => hv⟩
      rw [hkept (hnone hex), variable_setVariable, if_pos rfl]
  · intro hP hN hU hcol
    rw [colorStep_variable_of_not_written fnMesh parameters r3 r _ hcol h4,
      uvSetsLoop_variable _ _ _ fnMesh.getCurrentUVSetName _ _ _
        (fun s _ hne => hne) h3,
      ifStep_variable_ne _ _ _ _ _ (Ne.symm hU) h2]
    exact hr1 _ hP hN
  · intro hcur v hv
    have a2 : r2.IndexedOnlyUnder
        (fun k => k = "uv" ∨ (k ∈ fnMesh.getUVSetNames ∧ k ≠ fnMesh.getCurrentUVSetName)) :=
      indexedOnlyUnder_ifStep _ _ _ _ _ h2
        (indexedOnlyUnder_mono _ _ r1 hi1 (fun _ hf => False.elim hf))
        (fun _ _ _ => Or.inl rfl)
    have a3 := indexedOnlyUnder_uvSetsLoop _ _ _ _ _ _ _
      (fun s hs hne => Or.inr ⟨hs, hne⟩) h3 a2
    have a4 : r.IndexedOnlyUnder
        (fun k => k = "uv" ∨ (k ∈ fnMesh.getUVSetNames ∧ k ≠ fnMesh.getCurrentUVSetName)) := by
      split_ifs at h4 with hc
      · exact indexedOnlyUnder_colorSetsLoop _ _ _ _ _ _ _ _ h4 a3
      · cases h4
        exact a3
    by_contra hi
    rcases a4 _ v hv hi with h1 | ⟨-, h1⟩
    · exact hcur h1
    · exact h1 rfl
  · intro s hs hne hcol
    obtain ⟨v, hv, hr3⟩ := uvSetsLoop_stores fnMesh _ _ s hne _ _ _ hs h3
    exact ⟨v, hv, by
      rw [colorStep_variable_of_not_written fnMesh parameters r3 r s hcol h4, hr3]⟩
  · intro hlen
    rw [if_neg (by rw [hlen]; exact fun hf => hf rfl)] at h2
    cases h2
    have hr1uv : r1.variable "uv" = none := hr1 "uv" (by decide) (by decide)
    refine ⟨fun huv => by rw [hkept huv]; exact hr1uv, ?_⟩
    intro v hv
    by_cases hex : "uv" ∈ fnMesh.getUVSetNames ∧ "uv" ≠ fnMesh.getCurrentUVSetName
    · obtain ⟨w, hw, hrw⟩ := hother hex.1 hex.2
      rw [hrw] at hv
      cases hv
      exact ⟨hex.1, hw⟩
    · rw [hkept (hnone hex), hr1uv] at hv
      cases hv

/-- C11, the amended statement at concrete inputs: the cube has the single UV set
"map1", which is current; its conversion stores that set under "uv" and nothing
under "map1". -/
theorem doPrimitiveConversion_uv_variables_witness :
    doPrimitiveConversion cubeMesh polyParameters = Except.ok cubeResult
      ∧ (∃ v, cubeResult.variable "uv" = some v
          ∧ uvs cubeMesh "map1" cubeResult.verticesPerFace = Except.ok v)
      ∧ cubeResult.variable "map1" = none := by
  have hc := doPrimitiveConversion_uv_variables cubeMesh polyParameters cubeResult
    (by decide)
  obtain ⟨v, hv, hcur⟩ := hc.1 (by decide)
  exact ⟨by decide, ⟨v, hv, hcur (by decide)⟩,
    hc.2.1 (by decide) (by decide) (by decide) (by decide)⟩

/-- C11 as stated fails: `clashingNamesMesh` has the current UV set "map1" and other UV
sets named "uv" and "paint_Cs". Converted without colours, the variable "uv" is the
conversion of the other set named "uv" and not of the current set; converted with
"extraColors" on, the variable "paint_Cs" is the colour set "paint" (no index list)
and not the UV set of that name. -/
theorem doPrimitiveConversion_uv_set_named_uv_counterexample :
    clashingNamesMesh.getCurrentUVSetName = "map1"
      ∧ (doPrimitiveConversion clashingNamesMesh polyParameters).toOption.map
          (fun r => r.variable "uv")
          = (uvs clashingNamesMesh "uv" clashingNamesMesh.getVertices.1).toOption.map some
      ∧ (doPrimitiveConversion clashingNamesMesh polyParameters).toOption.map
          (fun r => r.variable "uv")
          ≠ (uvs clashingNamesMesh "map1" clashingNamesMesh.getVertices.1).toOption.map some
      ∧ (uvs clashingNamesMesh "map1" clashingNamesMesh.getVertices.1).toOption.isSome = true
      ∧ (doPrimitiveConversion clashingNamesMesh extraColorParameters).toOption.map
          (fun r => (r.variable "paint_Cs").map (fun v => v.indices.isSome))
          = some (some false)
      ∧ (uvs clashingNamesMesh "paint_Cs" clashingNamesMesh.getVertices.1).toOption.map
          (fun v => v.indices.isSome) = some true := by
  refine ⟨by decide, by decide, by decide, by decide, by decide, by decide⟩

/-- C12, as amended: for every host mesh and every primitive the conversion returns:
when the "colors" parameter is on and the current colour set is among the colour sets
of the mesh, "Cs" is the result of `colors( currentColorSet, true )`, a face-varying
`Color3fVectorData` whatever the representation of the set; when the parameter is off
and no UV set other than the current one is named "Cs", there is no "Cs". -/
theorem doPrimitiveConversion_Cs_variable (fnMesh : MFnMesh) (parameters : Parameters)
    (r : MeshPrimitive) (h : doPrimitiveConversion fnMesh parameters = Except.ok r) :
    (parameters.colors = true →
        fnMesh.getCurrentColorSetName ∈ fnMesh.getColorSetNames →
          ∃ v, colors fnMesh fnMesh.getCurrentColorSetName true = Except.ok v
            ∧ r.variable "Cs" = some v
            ∧ v.interpolation = Interpolation.FaceVarying
            ∧ ∃ vec : List Color3f, v.data = Data.Color3fVectorData vec)
      ∧ (parameters.colors = false →
          (∀ s ∈ fnMesh.getUVSetNames, s ≠ fnMesh.getCurrentUVSetName → s ≠ "Cs") →
            r.variable "Cs" = none) := by
  obtain ⟨r1, r2, r3, hr1, -, h2, h3, h4⟩ := doPrimitiveConversion_stages fnMesh parameters r h
  refine ⟨?_, ?_⟩
  · intro hc hmem
    rw [if_pos (Or.inl hc), hc] at h4
    obtain ⟨v, hv, hr⟩ := colorSetsLoop_stores_Cs fnMesh _ _ _ _ _ hmem h4
    obtain ⟨hfv, hdata⟩ := colors_forceRgb_data fnMesh _ v hv
    exact ⟨v, hv, hr, hfv, hdata⟩
  · intro hc hsets
    have hnot : "Cs" ∉ colorVariableNames fnMesh parameters := by
      unfold colorVariableNames
      split_ifs
      · rw [mem_colorSetsLoopNames]
        rintro ⟨s, -, ⟨h1, -, -⟩ | ⟨-, h1⟩⟩
        · rw [hc] at h1
          cases h1
        · exact append_Cs_ne_of_length s "Cs" (by decide) h1.symm
      · exact List.not_mem_nil _
    rw [colorStep_variable_of_not_written fnMesh parameters r3 r "Cs" hnot h4,
      uvSetsLoop_variable _ _ _ "Cs" _ _ _ hsets h3,
      ifStep_variable_ne _ _ _ _ _ (by decide) h2]
    exact hr1 "Cs" (by decide) (by decide)

/-- C12, the amended statement at a concrete input: the painted cube's current colour
set "mask" is alpha-only; with "colors" on its conversion has under "Cs" the
three-component result of `colors( "mask", true )`. -/
theorem doPrimitiveConversion_Cs_variable_witness :
    ∃ r v, doPrimitiveConversion paintedCubeMesh colorParameters = Except.ok r
      ∧ colors paintedCubeMesh "mask" true = Except.ok v
      ∧ r.variable "Cs" = some v
      ∧ v.interpolation = Interpolation.FaceVarying
      ∧ ∃ vec : List Color3f, v.data = Data.Color3fVectorData vec := by
  have hok : (doPrimitiveConversion paintedCubeMesh colorParameters).isOk = true := by decide
  cases hr : doPrimitiveConversion paintedCubeMesh colorParameters with
  | error e =>
    rw [hr] at hok
    cases hok
  | ok r =>
    obtain ⟨v, h1, h2, h3, h4⟩ :=
      (doPrimitiveConversion_Cs_variable paintedCubeMesh colorParameters r hr).1
        (by decide) (by decide)
    exact ⟨r, v, rfl, h1, h2, h3, h4⟩

/-- C12 as stated fails: `clashingNamesMesh` has a UV set named "Cs" beside its current
one, and its conversion with "colors" off returns a primitive with a variable "Cs". -/
theorem doPrimitiveConversion_uv_set_named_Cs_counterexample :
    polyParameters.colors = false
      ∧ (doPrimitiveConversion clashingNamesMesh polyParameters).toOption.map
          (fun r => (r.variable "Cs").isSome) = some true := by
  refine ⟨by decide, by decide⟩

/-- C13, as amended: for every host mesh and every primitive the conversion returns:
with "extraColors" on, every colour set `s` the host reports is stored under
`s + "_Cs"` as the result of `colors( s, false )`, whose data is a `FloatVectorData`
for an alpha-only set, a `Color3fVectorData` for an RGB set and a `Color4fVectorData`
for an RGBA set; with "extraColors" off, provided no UV set other than the current
one has a name ending in "_Cs", no variable has a name ending in "_Cs". -/
theorem doPrimitiveConversion_extra_Cs_variables (fnMesh : MFnMesh)
    (parameters : Parameters) (r : MeshPrimitive)
    (h : doPrimitiveConversion fnMesh parameters = Except.ok r) :
    (parameters.extraColors = true → ∀ s ∈ fnMesh.getColorSetNames,
        ∃ v, colors fnMesh s false = Except.ok v
          ∧ r.variable (s ++ "_Cs") = some v
          ∧ v.interpolation = Interpolation.FaceVarying
          ∧ (fnMesh.getColorRepresentation s = MColorRepresentation.kAlpha →
              ∃ vec : List ℚ, v.data = Data.FloatVectorData vec)
          ∧ (fnMesh.getColorRepresentation s = MColorRepresentation.kRGB →
              ∃ vec : List Color3f, v.data = Data.Color3fVectorData vec)
          ∧ (fnMesh.getColorRepresentation s = MColorRepresentation.kRGBA →
              ∃ vec : List Color4f, v.data = Data.Color4fVectorData vec))
      ∧ (parameters.extraColors = false →
          (∀ u ∈ fnMesh.getUVSetNames, u ≠ fnMesh.getCurrentUVSetName →
            ∀ s : String, u ≠ s ++ "_Cs") →
          ∀ s : String, r.variable (s ++ "_Cs") = none) := by
  obtain ⟨r1, r2, r3, hr1, -, h2, h3, h4⟩ := doPrimitiveConversion_stages fnMesh parameters r h
  refine ⟨?_, ?_⟩
  · intro he s hs
    rw [if_pos (Or.inr he), he] at h4
    obtain ⟨v, hv, hr⟩ := colorSetsLoop_stores_extra fnMesh _ _ s _ _ _ hs h4
    obtain ⟨hfv, ha, hb, hc⟩ := colors_data_of_representation fnMesh s v hv
    exact ⟨v, hv, hr, hfv, ha, hb, hc⟩
  · intro he hsets s
    have hnot : s ++ "_Cs" ∉ colorVariableNames fnMesh parameters := by
      unfold colorVariableNames
      split_ifs
      · rw [mem_colorSetsLoopNames]
        rintro ⟨t, -, ⟨-, -, h1⟩ | ⟨h1, -⟩⟩
        · exact append_Cs_ne_of_length s "Cs" (by decide) h1
        · rw [he] at h1
          cases h1
      · exact List.not_mem_nil _
    rw [colorStep_variable_of_not_written fnMesh parameters r3 r _ hnot h4,
      uvSetsLoop_variable _ _ _ (s ++ "_Cs") _ _ _ (fun u hu hne => hsets u hu hne s) h3,
      ifStep_variable_ne _ _ _ _ _
        (Ne.symm (append_Cs_ne_of_length s "uv" (by decide))) h2]
    exact hr1 _ (append_Cs_ne_of_length s "P" (by decide))
      (append_Cs_ne_of_length s "N" (by decide))

/-- C13, the amended statement at a concrete input: the painted cube has the
alpha-only set "mask" and the RGBA set "paint"; with "extraColors" on its conversion
has "mask_Cs" with float data and "paint_Cs" with four-component data. -/
theorem doPrimitiveConversion_extra_Cs_variables_witness :
    ∃ r v1 v2, doPrimitiveConversion paintedCubeMesh colorParameters = Except.ok r
      ∧ r.variable "mask_Cs" = some v1
      ∧ (∃ vec : List ℚ, v1.data = Data.FloatVectorData vec)
      ∧ r.variable "paint_Cs" = some v2
      ∧ ∃ vec : List Color4f, v2.data = Data.Color4fVectorData vec := by
  have hok : (doPrimitiveConversion paintedCubeMesh colorParameters).isOk = true := by decide
  cases hr : doPrimitiveConversion paintedCubeMesh colorParameters with
  | error e =>
    rw [hr] at hok
    cases hok
  | ok r =>
    have hall :=
      (doPrimitiveConversion_extra_Cs_variables paintedCubeMesh colorParameters r hr).1
        (by decide)
    obtain ⟨v1, -, a1, -, b1, -, -⟩ := hall "mask" (by decide)
    obtain ⟨v2, -, a2, -, -, -, b2⟩ := hall "paint" (by decide)
    exact ⟨r, v1, v2, rfl, a1, b1 (by decide), a2, b2 (by decide)⟩

/-- C13 as stated fails: `clashingNamesMesh` has a UV set named "paint_Cs" beside its
current one, and its conversion with "extraColors" off returns a primitive with a
variable "paint_Cs". -/
theorem doPrimitiveConversion_uv_set_named_paint_Cs_counterexample :
    polyParameters.extraColors = false
      ∧ (doPrimitiveConversion clashingNamesMesh polyParameters).toOption.map
          (fun r => (r.variable "paint_Cs").isSome) = some true := by
  refine ⟨by decide, by decide⟩

end IECoreMaya

namespace IECoreMaya

/-! ## Lemmas about the index list of `uvs()` -/

theorem uvIdsBefore_succ (vpf counts : List Int) (i : Nat) :
    uvIdsBefore vpf counts (i + 1)
      = uvIdsBefore vpf counts i
        + (if counts.getD i 0 = 0 then 0 else (vpf.getD i 0).toNat) := by
  simp [uvIdsBefore, List.range_succ]

theorem uvIdsBefore_mono (vpf counts : List Int) (i n : Nat) (h : i ≤ n) :
    uvIdsBefore vpf counts i ≤ uvIdsBefore vpf counts n := by
  induction n with
  | zero =>
    have : i = 0 := by omega
    rw [this]
  | succ n ih =>
    by_cases hi : i = n + 1
    · rw [hi]
    · have := ih (by omega)
      rw [uvIdsBefore_succ]
      omega

/-- For a consistent assignment the UV ids are exactly those of the faces with UVs. -/
theorem uvIdsBefore_length (vpf counts uvIds : List Int)
    (h : UVAssignmentConsistent vpf counts uvIds) :
    uvIdsBefore vpf counts vpf.length = uvIds.length := by
  obtain ⟨hnn, hlen, hc, hsum⟩ := h
  have key : ∀ L : List Nat, (∀ i ∈ L, i < vpf.length) →
      (L.map (fun i => counts.getD i 0)).sum
        = (((L.map (fun f =>
            if counts.getD f 0 = 0 then 0 else (vpf.getD f 0).toNat)).sum : Nat) : Int) := by
    intro L
    induction L with
    | nil => intro _; simp
    | cons a t ih =>
      intro hL
      have ha : a < vpf.length := hL a (List.mem_cons_self a t)
      have ht := ih (fun i hi => hL i (List.mem_cons_of_mem a hi))
      simp only [List.map_cons, List.sum_cons, Nat.cast_add, ht]
      congr 1
      rcases hc a ha with h0 | h1
      · rw [if_pos h0, h0]
        rfl
      · by_cases h0 : counts.getD a 0 = 0
        · rw [if_pos h0, h0]
          rfl
        · have hf : 0 ≤ vpf.getD a 0 := by
            rw [List.getD_eq_getElem _ _ ha]
            exact hnn _ (List.getElem_mem ha)
          rw [if_neg h0, h1, Int.toNat_of_nonneg hf]
  have hcounts : counts = (List.range counts.length).map (fun i => counts.getD i 0) := by
    have := map_range_getD counts 0 id
    simpa using this.symm
  have hs : counts.sum
      = ((List.range vpf.length).map (fun i => counts.getD i 0)).sum := by
    rw [← hlen]
    exact congrArg List.sum hcounts
  have := key (List.range vpf.length) (fun i hi => List.mem_range.mp hi)
  rw [hs, this] at hsum
  unfold uvIdsBefore
  exact_mod_cast hsum.symm

theorem uvsFaceLoop_eq (uvIds : List Int) :
    ∀ (count k : Nat) (acc : List Int), k + count ≤ uvIds.length →
      uvsFaceLoop uvIds count k acc
        = Except.ok (acc ++ (List.range count).map (fun j => uvIds.getD (k + j) 0),
            k + count) := by
  intro count
  induction count with
  | zero =>
    intro k acc _
    simp [uvsFaceLoop]
  | succ n ih =>
    intro k acc hk
    have hlt : k < uvIds.length := by omega
    have hread : readAt uvIds k = Except.ok (uvIds.getD k 0) := by
      simp [readAt, List.getElem?_eq_getElem hlt, List.getD_eq_getElem _ _ hlt]
    simp only [uvsFaceLoop, hread, ok_bind]
    rw [ih (k + 1) (acc ++ [uvIds.getD k 0]) (by omega)]
    congr 1
    rw [List.range_succ_eq_map, List.map_cons, List.map_map, List.append_assoc]
    congr 1
    · congr 1
      simp only [List.singleton_append, List.cons.injEq, Nat.add_zero, true_and]
      apply List.map_congr_left
      intro j _
      simp only [Function.comp]
      congr 1
      omega
    · omega

end IECoreMaya

namespace IECoreMaya

theorem alignedIndex_of_zero (vpf counts uvIds : List Int) (i n : Nat)
    (h0 : counts.getD i 0 = 0) :
    (List.range n).map (alignedIndex vpf counts uvIds i) = List.replicate n 0 := by
  have : alignedIndex vpf counts uvIds i = fun _ => (0 : Int) := by
    funext j
    simp only [alignedIndex, if_pos h0]
  rw [this, List.map_const']
  simp

theorem alignedIndex_of_ne_zero (vpf counts uvIds : List Int) (i n : Nat)
    (h0 : counts.getD i 0 ≠ 0) :
    (List.range n).map (alignedIndex vpf counts uvIds i)
      = (List.range n).map (fun j => uvIds.getD (uvIdsBefore vpf counts i + j) 0) := by
  apply List.map_congr_left
  intro j _
  simp only [alignedIndex, if_neg h0]

/-- The outer loop of `uvs()` from face `i` on, for a consistent assignment: it stays
inside `uvIds`, appends the aligned indices of the remaining faces and ends with
`uvIdIndex` at the end of `uvIds`. -/
theorem uvsLoop_eq (vpf counts uvIds : List Int)
    (h : UVAssignmentConsistent vpf counts uvIds) :
    ∀ (rest : List Int) (i : Nat) (acc : List Int), i ≤ vpf.length → vpf.drop i = rest →
      uvsLoop counts uvIds rest i (uvIdsBefore vpf counts i) acc
        = Except.ok
            (acc ++ (List.range' i rest.length).flatMap (fun f =>
                (List.range (vpf.getD f 0).toNat).map (alignedIndex vpf counts uvIds f)),
              uvIds.length) := by
  have htotal := uvIdsBefore_length vpf counts uvIds h
  obtain ⟨hnn, hlen, hc, hsum⟩ := h
  intro rest
  induction rest with
  | nil =>
    intro i acc hi hdrop
    have hge : vpf.length ≤ i := List.drop_eq_nil_iff.mp hdrop
    have hieq : i = vpf.length := by omega
    simp only [uvsLoop, List.length_nil, List.range'_zero, List.flatMap_nil, List.append_nil]
    rw [hieq, htotal]
  | cons f rest ih =>
    intro i acc hi hdrop
    have hlt : i < vpf.length := by
      by_contra hn
      have : vpf.drop i = [] := List.drop_eq_nil_iff.mpr (by omega)
      rw [this] at hdrop
      cases hdrop
    rw [List.drop_eq_getElem_cons hlt] at hdrop
    have hf : vpf.getD i 0 = f := by
      rw [List.getD_eq_getElem _ _ hlt]
      exact (List.cons.inj hdrop).1
    have hrest : vpf.drop (i + 1) = rest := (List.cons.inj hdrop).2
    have hread : readAt counts i = Except.ok (counts.getD i 0) := by
      have hci : i < counts.length := by omega
      simp [readAt, List.getElem?_eq_getElem hci, List.getD_eq_getElem _ _ hci]
    have hsucc := uvIdsBefore_succ vpf counts i
    simp only [uvsLoop, hread, ok_bind, List.length_cons]
    rw [List.range'_succ, List.flatMap_cons, hf]
    by_cases h0 : counts.getD i 0 = 0
    · rw [if_pos h0]
      have hk : uvIdsBefore vpf counts (i + 1) = uvIdsBefore vpf counts i := by
        rw [hsucc, if_pos h0, Nat.add_zero]
      rw [← hk, ih (i + 1) _ (by omega) hrest, alignedIndex_of_zero _ _ _ _ _ h0,
        List.append_assoc]
    · rw [if_neg h0]
      rw [if_neg h0, hf] at hsucc
      have hbound : uvIdsBefore vpf counts i + f.toNat ≤ uvIds.length := by
        rw [← hsucc, ← htotal]
        exact uvIdsBefore_mono vpf counts (i + 1) vpf.length (by omega)
      rw [uvsFaceLoop_eq uvIds f.toNat _ acc hbound, ok_bind]
      simp only []
      rw [← hsucc, ih (i + 1) _ (by omega) hrest, alignedIndex_of_ne_zero _ _ _ _ _ h0,
        List.append_assoc]

end IECoreMaya

namespace IECoreMaya

theorem length_flatMap_range {α : Type} (F : Nat → List α) (n : Nat) :
    ((List.range n).flatMap F).length = ((List.range n).map (fun f => (F f).length)).sum := by
  induction n with
  | zero => simp
  | succ n ih =>
    simp only [List.range_succ, List.flatMap_append, List.length_append, ih, List.map_append,
      List.sum_append, List.flatMap_cons, List.flatMap_nil, List.append_nil, List.map_cons,
      List.map_nil, List.sum_cons, List.sum_nil, Nat.add_zero]

/-- Entry `j` of the `i`-th block of a concatenation of blocks. -/
theorem getElem?_flatMap_range {α : Type} (F : Nat → List α) (n : Nat) :
    ∀ (i j : Nat), i < n → j < (F i).length →
      ((List.range n).flatMap F)[((List.range i).map (fun f => (F f).length)).sum + j]?
        = (F i)[j]? := by
  induction n with
  | zero =>
    intro i j hi _
    omega
  | succ n ih =>
    intro i j hi hj
    simp only [List.range_succ, List.flatMap_append, List.flatMap_cons, List.flatMap_nil,
      List.append_nil]
    by_cases hin : i = n
    · subst hin
      rw [← length_flatMap_range F i, List.getElem?_append_right (by omega)]
      congr 1
      omega
    · have hlt : i < n := by omega
      have hlen : ((List.range i).map (fun f => (F f).length)).sum + j
          < ((List.range n).flatMap F).length := by
        have h1 := ih i j hlt hj
        by_contra hge
        rw [List.getElem?_eq_none (by omega)] at h1
        rw [List.getElem?_eq_getElem hj] at h1
        cases h1
      rw [List.getElem?_append_left hlen]
      exact ih i j hlt hj

theorem alignedIndices_getElem? (vpf counts uvIds : List Int) (i j : Nat)
    (hi : i < vpf.length) (hj : j < (vpf.getD i 0).toNat) :
    (alignedIndices vpf counts uvIds)[cornerOffset vpf i + j]?
      = some (alignedIndex vpf counts uvIds i j) := by
  have h := getElem?_flatMap_range
    (fun f => (List.range (vpf.getD f 0).toNat).map (alignedIndex vpf counts uvIds f))
    vpf.length i j hi (by simpa using hj)
  simp only [List.length_map, List.length_range] at h
  unfold alignedIndices cornerOffset
  rw [h, List.getElem?_map, List.getElem?_range hj]
  rfl

/-- C17: for every list `vertsPerFace` of non-negative counts and every host UV
assignment `(uvCounts, uvIds)` with one count per face, each 0 or the corner count of
the face, and as many ids as the counts add up to: the loop of `uvs()` stays inside
`uvIds`, ends with `uvIdIndex` at the end of `uvIds`, and builds the index list that
lists, face by face and corner by corner, 0 for a face without UVs and `uvIds[k + j]`
for corner `j` of a face with UVs, `k` being the total of `vertsPerFace` over the
earlier faces with UVs. The entry for corner `j` of face `i` is at the position of
that corner in the per-corner ordering, every such `k + j` is a valid position of
`uvIds`, and `uvs()` returns this list as the indices of its variable. -/
theorem uvs_indices_aligned (vertsPerFace uvCounts uvIds : List Int)
    (h : UVAssignmentConsistent vertsPerFace uvCounts uvIds) :
    uvsLoop uvCounts uvIds vertsPerFace 0 0 []
        = Except.ok (alignedIndices vertsPerFace uvCounts uvIds, uvIds.length)
      ∧ (alignedIndices vertsPerFace uvCounts uvIds).length
          = cornerOffset vertsPerFace vertsPerFace.length
      ∧ (∀ i j, i < vertsPerFace.length → j < (vertsPerFace.getD i 0).toNat →
          (alignedIndices vertsPerFace uvCounts uvIds)[cornerOffset vertsPerFace i + j]?
              = some (if uvCounts.getD i 0 = 0 then 0
                      else uvIds.getD (uvIdsBefore vertsPerFace uvCounts i + j) 0)
            ∧ (uvCounts.getD i 0 ≠ 0 →
                uvIdsBefore vertsPerFace uvCounts i + j < uvIds.length))
      ∧ uvIdsBefore vertsPerFace uvCounts vertsPerFace.length = uvIds.length
      ∧ (∀ (fnMesh : MFnMesh) (uvSet : String),
          fnMesh.getAssignedUVs uvSet = (uvCounts, uvIds) →
            (∀ v, uvs fnMesh uvSet vertsPerFace = Except.ok v →
              v.indices = some (alignedIndices vertsPerFace uvCounts uvIds))
            ∧ (∀ d, uvData (fnMesh.getUVs uvSet).1 (fnMesh.getUVs uvSet).2
                  (alignedIndices vertsPerFace uvCounts uvIds).length = Except.ok d →
                uvs fnMesh uvSet vertsPerFace
                  = Except.ok ⟨Interpolation.FaceVarying, Data.V2fVectorData d,
                      some (alignedIndices vertsPerFace uvCounts uvIds)⟩)) := by
  have htotal := uvIdsBefore_length vertsPerFace uvCounts uvIds h
  have hloop : uvsLoop uvCounts uvIds vertsPerFace 0 0 []
      = Except.ok (alignedIndices vertsPerFace uvCounts uvIds, uvIds.length) := by
    have := uvsLoop_eq vertsPerFace uvCounts uvIds h vertsPerFace 0 [] (Nat.zero_le _) rfl
    have h0 : uvIdsBefore vertsPerFace uvCounts 0 = 0 := rfl
    rw [h0, List.nil_append, ← List.range_eq_range'] at this
    exact this
  refine ⟨hloop, ?_, ?_, htotal, ?_⟩
  · unfold alignedIndices cornerOffset
    rw [length_flatMap_range]
    simp
  · intro i j hi hj
    refine ⟨?_, ?_⟩
    · rw [alignedIndices_getElem? vertsPerFace uvCounts uvIds i j hi hj]
      rfl
    · intro hne
      have h1 := uvIdsBefore_succ vertsPerFace uvCounts i
      rw [if_neg hne] at h1
      have h2 := uvIdsBefore_mono vertsPerFace uvCounts (i + 1) vertsPerFace.length (by omega)
      omega
  · intro fnMesh uvSet hassigned
    refine ⟨?_, ?_⟩
    · intro v hv
      simp only [uvs, hassigned, hloop, ok_bind, bind_eq_ok] at hv
      obtain ⟨d, -, hd⟩ := hv
      cases hd
      rfl
    · intro d hd
      simp only [uvs, hassigned, hloop, ok_bind, hd]
      rfl

/-- C17, at a concrete input: three faces of 3, 4 and 3 corners, the middle one without
UVs, and six UV ids; the loop returns the ids of the first face, four zeros, the ids
of the last face, and has then consumed all six ids. -/
theorem uvs_indices_aligned_witness :
    UVAssignmentConsistent partlyMappedFaces partlyMappedCounts partlyMappedIds
      ∧ uvsLoop partlyMappedCounts partlyMappedIds partlyMappedFaces 0 0 []
          = Except.ok ([10, 11, 12, 0, 0, 0, 0, 20, 21, 22], 6) :=
  ⟨by unfold UVAssignmentConsistent; decide,
   ((uvs_indices_aligned partlyMappedFaces partlyMappedCounts partlyMappedIds
      (by unfold UVAssignmentConsistent; decide)).1).trans (by decide)⟩

end IECoreMaya
